import Mathlib

/-!
Callback registry and dispatch scheduler of obs-scripting (Python and Lua bindings)

A shallow embedding of `deps/obs-scripting/obs-scripting-python.c` and of the
inline helpers of `deps/obs-scripting/obs-scripting-lua.h`.

* Heap objects are addressed by natural numbers; a C pointer is an
  `Option Nat` (`none` is `NULL`).
* A `struct python_obs_timer` is the extra data co-allocated behind its
  `struct python_obs_callback`; both live at the same address here, so
  `python_obs_timer_cb` and `python_obs_callback_extra_data` are the identity.
* `uint64_t` values are naturals with explicit reduction modulo `2 ^ 64`.
* A call into the scripting runtime (`PyObject_CallObject`) is a parameter
  `py : Runtime`: the effect of running the script function on the program
  state.  The state carries the trace `calls` of the calls made by the dispatch
  code; the runtime cannot write that trace.
* `while` loops over pointers take a fuel argument.
* The locks are counters of the holds of the one thread modelled.  Where it
  matters that the non-recursive `tick_mutex` blocks a second lock by its
  holder (the tick walk), the code is given a result of type `Outcome`:
  returned or blocked.
* A C string or `struct dstr` is the list of its characters in front of the
  terminating NUL; a pointer into a string is the string that begins there or
  an offset.
-/

namespace ObsScripting

/-! ## Data model -/

/-- The size of the `uint64_t` range. -/
def UINT64 : Nat := 2 ^ 64

/-- Unsigned 64-bit subtraction `a - b`. -/
def u64_sub (a b : Nat) : Nat := (a % UINT64 + (UINT64 - b % UINT64)) % UINT64

/-- Unsigned 64-bit addition `a + b`. -/
def u64_add (a b : Nat) : Nat := (a + b) % UINT64

/-- Unsigned 64-bit multiplication `a * b`. -/
def u64_mul (a b : Nat) : Nat := (a * b) % UINT64

/-- A runtime object (`PyObject *`): its identity, and what `PyFunction_Check`
answers for it. -/
structure PyObject where
  id : Nat
  is_func : Bool
deriving DecidableEq, Repr

/-- The lvalue a `struct python_obs_timer **` refers to. -/
inductive TimerSlot where
  | first_timer
  | next_of (timer : Nat)
deriving DecidableEq, Repr

/-- The lvalue a `struct obs_python_script **` refers to. -/
inductive TickSlot where
  | first_tick_script
  | next_tick_of (script : Nat)
deriving DecidableEq, Repr

/-- Modelled from the spec: the `extra` key/value blob of a callback record
(`calldata_t`, libobs), restricted to the two keys this file stores:
`"handler"` (`calldata_ptr`, `NULL` when absent) and `"signal"`
(`calldata_string`, `NULL` when absent). -/
structure calldata where
  handler : Option Nat
  signal : Option String
deriving DecidableEq, Repr

/-- Modelled from the spec: `struct script_callback` (obs-scripting-callback.h):
owner, removal flag, extra blob and the link to the next record of the owning
script. -/
structure script_callback where
  next : Option Nat
  script : Option Nat
  extra : calldata
  removed : Bool
deriving DecidableEq, Repr

/-- The record `struct python_obs_callback`: the base record and the pinned
function. -/
structure python_obs_callback where
  base : script_callback
  func : Option PyObject
deriving DecidableEq, Repr

/-- The record `struct python_obs_timer`. -/
structure python_obs_timer where
  next : Option Nat
  p_prev_next : Option TimerSlot
  last_ts : Nat
  interval : Nat
deriving DecidableEq, Repr

/-- The fields of `struct obs_python_script` used by the dispatch code.
`unload_attr` is what `PyObject_GetAttrString(module, "script_unload")`
returns. -/
structure obs_python_script where
  loaded : Bool
  module : Option PyObject
  tick : Option PyObject
  next_tick : Option Nat
  p_prev_next_tick : Option TickSlot
  first_callback : Option Nat
  unload_attr : Option PyObject
deriving DecidableEq, Repr

/-- The dispatch path that makes a call into the runtime, with the record or
script it dispatches. -/
inductive CallSite where
  | script_tick (script : Nat)
  | timer (cb : Nat)
  | tick_callback (cb : Nat)
  | signal (cb : Nat)
  | signal_global (cb : Nat)
  | script_unload (script : Nat)
deriving DecidableEq, Repr

/-- An argument built by `Py_BuildValue`: a float (kept as an uninterpreted
code), a string, or a converted object. -/
inductive PyArg where
  | float (seconds : Nat)
  | str (text : String)
  | obj (o : PyObject)
deriving DecidableEq, Repr

/-- One `PyObject_CallObject(func, args)`. -/
structure PyCall where
  site : CallSite
  func : Option PyObject
  args : List PyArg
deriving DecidableEq, Repr

/-- A connection held by the host signal emitter: handler, signal name
(`none` for a global connection) and the record passed as context. -/
structure signal_connection where
  handler : Option Nat
  signal : Option String
  cb : Nat
deriving DecidableEq, Repr

/-- The process-wide state: the heaps, the globals of the file, and the state of
the collaborators (host and runtime) that the file reads or writes. -/
structure State where
  scripts : Nat → obs_python_script
  callbacks : Nat → python_obs_callback
  timers : Nat → python_obs_timer
  first_tick_script : Option Nat
  first_timer : Option Nat
  cur_python_script : Option Nat
  cur_python_cb : Option Nat
  tick_mutex : Nat
  timer_mutex : Nat
  python_lock : Nat
  err_pending : Bool
  err_logged : Nat
  video_frame_time : Nat
  next_alloc : Nat
  deferred : List Nat
  tick_callbacks : List Nat
  signal_connections : List signal_connection
  remove_current_requests : Nat
  swig_calldata : Nat → Option PyObject
  swig_handler : PyObject → Option (Option Nat)
  calls : List PyCall

/-- The effect of running a script function: the runtime is external, so it is
a parameter of every dispatch function. -/
abbrev Runtime := PyCall → State → State

/-! ## Collaborators -/

/-- The call `pthread_mutex_lock(&tick_mutex)`. -/
def lock_tick_mutex (s : State) : State := { s with tick_mutex := s.tick_mutex + 1 }

/-- The call `pthread_mutex_unlock(&tick_mutex)`. -/
def unlock_tick_mutex (s : State) : State := { s with tick_mutex := s.tick_mutex - 1 }

/-- The call `pthread_mutex_lock(&timer_mutex)`. -/
def lock_timer_mutex (s : State) : State := { s with timer_mutex := s.timer_mutex + 1 }

/-- The call `pthread_mutex_unlock(&timer_mutex)`. -/
def unlock_timer_mutex (s : State) : State := { s with timer_mutex := s.timer_mutex - 1 }

/-- Modelled from the spec: `lock_python` (obs-scripting-python.h), the
reentrant execution lock; the nesting depth is counted. -/
def lock_python (s : State) : State := { s with python_lock := s.python_lock + 1 }

/-- Modelled from the spec: `unlock_python`. -/
def unlock_python (s : State) : State := { s with python_lock := s.python_lock - 1 }

/-- The call `PyObject_CallObject(func, args)` made at `site`: the runtime runs,
and the call is appended to the trace. -/
def PyObject_CallObject (py : Runtime) (site : CallSite) (func : Option PyObject)
    (args : List PyArg) (s : State) : State :=
  { py ⟨site, func, args⟩ s with calls := s.calls ++ [⟨site, func, args⟩] }

/-- Modelled from the spec: `py_error()` (obs-scripting-python.h): when the
pending-error state of the runtime is set it is logged and cleared; the result
says whether it was set. -/
def py_error (s : State) : Bool × State :=
  if s.err_pending then
    (true, { s with err_pending := false, err_logged := s.err_logged + 1 })
  else (false, s)

/-- Modelled from the spec: the host call
`obs_remove_tick_callback(obs_python_tick_callback, cb)` (libobs), spec 6
"tick-observer unregistration by opaque context". -/
def obs_remove_tick_callback (cb : Nat) (s : State) : State :=
  { s with tick_callbacks := s.tick_callbacks.erase cb }

/-- Modelled from the spec: the host call
`obs_add_tick_callback(obs_python_tick_callback, cb)` (libobs), spec 6
"tick-observer registration by opaque context". -/
def obs_add_tick_callback (cb : Nat) (s : State) : State :=
  { s with tick_callbacks := s.tick_callbacks ++ [cb] }

/-- Modelled from the spec: the host call `signal_handler_remove_current()`
(libobs): the emitter is asked to drop the connection being delivered; the
requests are counted. -/
def signal_handler_remove_current (s : State) : State :=
  { s with remove_current_requests := s.remove_current_requests + 1 }

/-- The macro `libobs_to_py(calldata_t, cd, false, &py_cd)`: the SWIG conversion,
which may fail. -/
def libobs_to_py (cd : Nat) (s : State) : Option PyObject := s.swig_calldata cd

/-- The macro `py_to_libobs(signal_handler_t, py_sh, &handler)`: the SWIG
conversion of a runtime object to a handler pointer; `none` when it fails. -/
def py_to_libobs (py_sh : PyObject) (s : State) : Option (Option Nat) := s.swig_handler py_sh

/-- Modelled from the spec: the host call
`signal_handler_connect(handler, signal, calldata_signal_callback, cb)` (libobs),
spec 6 `connect`. -/
def signal_handler_connect (handler : Option Nat) (signal : String) (cb : Nat) (s : State) :
    State :=
  { s with signal_connections := s.signal_connections ++ [⟨handler, some signal, cb⟩] }

/-- Modelled from the spec: the host call
`signal_handler_connect_global(handler, calldata_signal_callback_global, cb)`
(libobs), spec 6 `connect_global`. -/
def signal_handler_connect_global (handler : Option Nat) (cb : Nat) (s : State) : State :=
  { s with signal_connections := s.signal_connections ++ [⟨handler, none, cb⟩] }

/-- The error return of a hook: `PyErr_SetString(PyExc_RuntimeError, ...)` and
`return NULL`. -/
def PyErr_SetString (s : State) : State := { s with err_pending := true }

/-! ## Callback registry -/

/-- A write to the timer at address `t`. -/
def set_timer (t : Nat) (v : python_obs_timer) (s : State) : State :=
  { s with timers := Function.update s.timers t v }

/-- A write to the callback record at address `a`. -/
def set_callback (a : Nat) (v : python_obs_callback) (s : State) : State :=
  { s with callbacks := Function.update s.callbacks a v }

/-- A write to the script at address `i`. -/
def set_script (i : Nat) (v : obs_python_script) (s : State) : State :=
  { s with scripts := Function.update s.scripts i v }

/-- Modelled from the spec: `add_python_obs_callback_extra`
(obs-scripting-python.h, over `add_script_callback` of obs-scripting-callback.h),
spec 4.1 `add`: allocates a zeroed record with `extra_size` trailing bytes,
pins the function and links the record at the head of the owner's list.
Returns the new record. -/
def add_python_obs_callback_extra (script : Nat) (func : PyObject) (extra_size : Nat)
    (s : State) : Nat × State :=
  let cb := s.next_alloc
  let s := { s with next_alloc := s.next_alloc + 1 }
  let next := (s.scripts script).first_callback
  let s := set_callback cb ⟨⟨next, some script, ⟨none, none⟩, false⟩, some func⟩ s
  let s := if 0 < extra_size then set_timer cb ⟨none, none, 0, 0⟩ s else s
  let s := set_script script { s.scripts script with first_callback := some cb } s
  (cb, s)

/-- Modelled from the spec: `add_python_obs_callback`, the registration without
extra bytes. -/
def add_python_obs_callback (script : Nat) (func : PyObject) (s : State) : Nat × State :=
  add_python_obs_callback_extra script func 0 s

/-- The scan shared by `find` and `find_next`: the first record from `cb` on
whose pinned function is identical to `func`. -/
def find_callback_loop (func : PyObject) : Nat → Option Nat → State → Option Nat
  | 0, _, _ => none
  | _ + 1, none, _ => none
  | fuel + 1, some cb, s =>
      if (s.callbacks cb).func = some func then some cb
      else find_callback_loop func fuel (s.callbacks cb).base.next s

/-- Modelled from the spec: `find_next_python_obs_callback`
(obs-scripting-python.h), spec 4.1 `find_next`: continues the scan after the
record `cb`, or starts at the head of the script's list when `cb` is `NULL`. -/
def find_next_python_obs_callback (fuel : Nat) (script : Nat) (cb : Option Nat)
    (func : PyObject) (s : State) : Option Nat :=
  let start := match cb with
    | some c => (s.callbacks c).base.next
    | none => (s.scripts script).first_callback
  find_callback_loop func fuel start s

/-- Modelled from the spec: `find_python_obs_callback`, spec 4.1 `find`. -/
def find_python_obs_callback (fuel : Nat) (script : Nat) (func : PyObject) (s : State) :
    Option Nat :=
  find_next_python_obs_callback fuel script none func s

/-- Modelled from the spec: `remove_script_callback`
(obs-scripting-callback.h), spec 4.1 `remove`: sets `removed` and unlinks the
record from the owning list: the pointer that referred to the record (the
list head or the `next` of its predecessor) now refers to its successor. -/
def remove_script_callback (cb : Nat) (s : State) : State :=
  let next := (s.callbacks cb).base.next
  let s := set_callback cb
    { s.callbacks cb with base := { (s.callbacks cb).base with removed := true } } s
  { s with
    scripts := fun i =>
      if (s.scripts i).first_callback = some cb then
        { s.scripts i with first_callback := next }
      else s.scripts i
    callbacks := fun a =>
      if a ≠ cb ∧ (s.callbacks a).base.next = some cb then
        { s.callbacks a with base := { (s.callbacks a).base with next := next } }
      else s.callbacks a }

/-- Modelled from the spec: `remove_python_obs_callback`
(obs-scripting-python.h), spec 4.1 `remove`: removes the record and unpins
(releases) the function value. -/
def remove_python_obs_callback (cb : Nat) (s : State) : State :=
  let s := remove_script_callback cb s
  set_callback cb { s.callbacks cb with func := none } s

/-- The hook `timer_remove`; `args` is the parsed argument tuple, `none` when
`PyArg_ParseTuple` fails.  With no current script the C code dereferences
`NULL`; that case is modelled as no effect. -/
def timer_remove (fuel : Nat) (args : Option PyObject) (s : State) : State :=
  let script := s.cur_python_script
  match args with
  | none => s
  | some py_cb =>
      match script with
      | none => s
      | some script =>
          match find_python_obs_callback fuel script py_cb s with
          | some cb => remove_python_obs_callback cb s
          | none => s

/-- The hook `remove_current_callback`. -/
def remove_current_callback (s : State) : State :=
  match s.cur_python_cb with
  | some cb => remove_python_obs_callback cb s
  | none => s

/-! ## Timers -/

/-- The helper `python_obs_timer_cb`: the record in front of the timer. -/
def python_obs_timer_cb (timer : Nat) : Nat := timer

/-- The helper `python_obs_callback_extra_data`: the timer behind the record. -/
def python_obs_callback_extra_data (cb : Nat) : Nat := cb

/-- The helper `python_obs_callback_script`: the owner of a record. -/
def python_obs_callback_script (cb : Nat) (s : State) : Option Nat :=
  (s.callbacks cb).base.script

/-- Reads the pointer stored in a timer slot. -/
def load_timer_slot (s : State) : TimerSlot → Option Nat
  | .first_timer => s.first_timer
  | .next_of p => (s.timers p).next

/-- The assignment `*slot = v` through a `struct python_obs_timer **`. -/
def store_timer_slot (slot : Option TimerSlot) (v : Option Nat) (s : State) : State :=
  match slot with
  | some .first_timer => { s with first_timer := v }
  | some (.next_of p) =>
      set_timer p { s.timers p with next := v } s
  | none => s

/-- The function `python_obs_timer_init`: links the timer at the head of the
global timer list. -/
def python_obs_timer_init (timer : Nat) (s : State) : State :=
  let s := lock_timer_mutex s
  let next := s.first_timer
  let s := set_timer timer { s.timers timer with next := next } s
  let s := set_timer timer { s.timers timer with p_prev_next := some .first_timer } s
  let s := match next with
    | some n => set_timer n { s.timers n with p_prev_next := some (.next_of timer) } s
    | none => s
  let s := { s with first_timer := some timer }
  unlock_timer_mutex s

/-- The function `python_obs_timer_remove`: unlinks the timer through its
stored pointer to the predecessor's next field. -/
def python_obs_timer_remove (timer : Nat) (s : State) : State :=
  let next := (s.timers timer).next
  let s := match next with
    | some n => set_timer n { s.timers n with p_prev_next := (s.timers timer).p_prev_next } s
    | none => s
  store_timer_slot (s.timers timer).p_prev_next (s.timers timer).next s

/-- The function `timer_call`. -/
def timer_call (py : Runtime) (p_cb : Nat) (s : State) : State :=
  let cb := p_cb
  let script := python_obs_callback_script cb s
  if (s.callbacks p_cb).base.removed then s
  else
    let s := lock_python s
    let s := { s with cur_python_script := script }
    let s := { s with cur_python_cb := some cb }
    let s := PyObject_CallObject py (.timer cb) (s.callbacks cb).func [] s
    let s := { s with cur_python_cb := none }
    let s := { s with cur_python_script := none }
    unlock_python s

/-- The function `defer_timer_init`. -/
def defer_timer_init (script_cb : Nat) (s : State) : State :=
  python_obs_timer_init (python_obs_callback_extra_data script_cb) s

/-- Modelled from the spec: the host call `defer_call_post(defer_timer_init, cb)`
(obs-scripting.c): the call is queued and run later, outside the current
call. -/
def defer_call_post (cb : Nat) (s : State) : State :=
  { s with deferred := s.deferred ++ [cb] }

/-- The conversion `(uint64_t)ms` of an `int`. -/
def int_to_u64 (ms : Int) : Nat := (ms % (UINT64 : Int)).toNat

/-- The hook `timer_add`; `args` is the parsed tuple `(py_cb, ms)`.  With no
current script the C code dereferences `NULL`; that case is modelled as no
effect. -/
def timer_add (args : Option (PyObject × Int)) (s : State) : State :=
  let script := s.cur_python_script
  match args with
  | none => s
  | some (py_cb, ms) =>
      match script with
      | none => s
      | some script =>
          let (cb, s) := add_python_obs_callback_extra script py_cb 32 s
          let timer := python_obs_callback_extra_data cb
          let s := set_timer timer
            { s.timers timer with interval := u64_mul (int_to_u64 ms) 1000000 } s
          let s := set_timer timer { s.timers timer with last_ts := s.video_frame_time } s
          defer_call_post cb s

/-! ## Tick and signal dispatch entry points -/

/-- The function `obs_python_tick_callback`. -/
def obs_python_tick_callback (py : Runtime) (priv : Nat) (seconds : Nat) (s : State) :
    State :=
  let cb := priv
  if (s.callbacks cb).base.removed then obs_remove_tick_callback cb s
  else
    let s := lock_python s
    let last_cb := s.cur_python_cb
    let s := { s with cur_python_script := (s.callbacks cb).base.script }
    let s := { s with cur_python_cb := some cb }
    let args := [PyArg.float seconds]
    let s := PyObject_CallObject py (.tick_callback cb) (s.callbacks cb).func args s
    let s := { s with cur_python_script := none }
    let s := { s with cur_python_cb := last_cb }
    unlock_python s

/-- The hook `obs_python_remove_tick_callback`. -/
def obs_python_remove_tick_callback (fuel : Nat) (args : Option PyObject) (s : State) :
    State :=
  match s.cur_python_script with
  | none => PyErr_SetString s
  | some script =>
      match args with
      | none => s
      | some py_cb =>
          if py_cb.is_func = false then s
          else
            match find_python_obs_callback fuel script py_cb s with
            | some cb => remove_python_obs_callback cb s
            | none => s

/-- The hook `obs_python_add_tick_callback`. -/
def obs_python_add_tick_callback (args : Option PyObject) (s : State) : State :=
  match s.cur_python_script with
  | none => PyErr_SetString s
  | some script =>
      match args with
      | none => s
      | some py_cb =>
          if py_cb.is_func = false then s
          else
            let (cb, s) := add_python_obs_callback script py_cb s
            obs_add_tick_callback cb s

/-- The function `calldata_signal_callback`. -/
def calldata_signal_callback (py : Runtime) (priv : Nat) (cd : Nat) (s : State) : State :=
  let cb := priv
  if (s.callbacks cb).base.removed then signal_handler_remove_current s
  else
    let s := lock_python s
    let s := match libobs_to_py cd s with
      | some py_cd =>
          let args := [PyArg.obj py_cd]
          let last_cb := s.cur_python_cb
          let s := { s with cur_python_cb := some cb }
          let s := { s with cur_python_script := (s.callbacks cb).base.script }
          let s := PyObject_CallObject py (.signal cb) (s.callbacks cb).func args s
          let s := (py_error s).2
          let s := { s with cur_python_script := none }
          { s with cur_python_cb := last_cb }
      | none => s
    unlock_python s

/-- The function `calldata_signal_callback_global`. -/
def calldata_signal_callback_global (py : Runtime) (priv : Nat) (signal : String)
    (cd : Nat) (s : State) : State :=
  let cb := priv
  if (s.callbacks cb).base.removed then signal_handler_remove_current s
  else
    let s := lock_python s
    let s := match libobs_to_py cd s with
      | some py_cd =>
          let args := [PyArg.str signal, PyArg.obj py_cd]
          let last_cb := s.cur_python_cb
          let s := { s with cur_python_script := (s.callbacks cb).base.script }
          let s := { s with cur_python_cb := some cb }
          let s := PyObject_CallObject py (.signal_global cb) (s.callbacks cb).func args s
          let s := (py_error s).2
          let s := { s with cur_python_script := none }
          { s with cur_python_cb := last_cb }
      | none => s
    unlock_python s

/-! ## Signal connections -/

/-- Modelled from the spec: `calldata_ptr(&cb->base.extra, "handler")` (libobs):
the stored pointer, `NULL` when the key is absent. -/
def calldata_ptr_handler (cb : Nat) (s : State) : Option Nat :=
  (s.callbacks cb).base.extra.handler

/-- Modelled from the spec: `calldata_string(&cb->base.extra, "signal")`
(libobs): the stored string, `NULL` when the key is absent. -/
def calldata_string_signal (cb : Nat) (s : State) : Option String :=
  (s.callbacks cb).base.extra.signal

/-- Modelled from the spec: `calldata_set_ptr(&cb->base.extra, "handler", handler)`. -/
def calldata_set_ptr_handler (cb : Nat) (handler : Option Nat) (s : State) : State :=
  set_callback cb { s.callbacks cb with base := { (s.callbacks cb).base with
    extra := { (s.callbacks cb).base.extra with handler := handler } } } s

/-- Modelled from the spec: `calldata_set_string(&cb->base.extra, "signal", signal)`. -/
def calldata_set_string_signal (cb : Nat) (signal : String) (s : State) : State :=
  set_callback cb { s.callbacks cb with base := { (s.callbacks cb).base with
    extra := { (s.callbacks cb).base.extra with signal := some signal } } } s

/-- The `while (cb)` loop of `obs_python_signal_handler_disconnect`
(lines 571-583): the test of line 577 selects a record whose stored signal name
is present, DIFFERENT from `signal` (`strcmp(...) != 0`), and whose stored
handler is `handler`. -/
def disconnect_loop (script : Nat) (handler : Option Nat) (signal : String)
    (py_cb : PyObject) (s : State) : Nat → Option Nat → Option Nat
  | 0, _ => none
  | _ + 1, none => none
  | fuel + 1, some cb =>
      let cb_handler := calldata_ptr_handler cb s
      let cb_signal := calldata_string_signal cb s
      if cb_signal.isSome ∧ some signal ≠ cb_signal ∧ handler = cb_handler then some cb
      else disconnect_loop script handler signal py_cb s fuel
        (find_next_python_obs_callback (fuel + 1) script (some cb) py_cb s)

/-- The hook `obs_python_signal_handler_disconnect`; `args` is the parsed
tuple `(py_sh, signal, py_cb)`, `none` when `PyArg_ParseTuple` fails. -/
def obs_python_signal_handler_disconnect (fuel : Nat)
    (args : Option (PyObject × String × PyObject)) (s : State) : State :=
  match s.cur_python_script with
  | none => PyErr_SetString s
  | some script =>
      match args with
      | none => s
      | some (py_sh, signal, py_cb) =>
          match py_to_libobs py_sh s with
          | none => s
          | some handler =>
              if py_cb.is_func = false then s
              else
                let cb := find_python_obs_callback fuel script py_cb s
                let cb := disconnect_loop script handler signal py_cb s fuel cb
                match cb with
                | some cb => remove_python_obs_callback cb s
                | none => s

/-- The hook `obs_python_signal_handler_connect`. -/
def obs_python_signal_handler_connect (args : Option (PyObject × String × PyObject))
    (s : State) : State :=
  match s.cur_python_script with
  | none => PyErr_SetString s
  | some script =>
      match args with
      | none => s
      | some (py_sh, signal, py_cb) =>
          match py_to_libobs py_sh s with
          | none => s
          | some handler =>
              if py_cb.is_func = false then s
              else
                let (cb, s) := add_python_obs_callback script py_cb s
                let s := calldata_set_ptr_handler cb handler s
                let s := calldata_set_string_signal cb signal s
                signal_handler_connect handler signal cb s

/-- The `while (cb)` loop of `obs_python_signal_handler_disconnect_global`
(lines 687-695). -/
def disconnect_global_loop (script : Nat) (handler : Option Nat) (py_cb : PyObject)
    (s : State) : Nat → Option Nat → Option Nat
  | 0, _ => none
  | _ + 1, none => none
  | fuel + 1, some cb =>
      let cb_handler := calldata_ptr_handler cb s
      if handler = cb_handler then some cb
      else disconnect_global_loop script handler py_cb s fuel
        (find_next_python_obs_callback (fuel + 1) script (some cb) py_cb s)

/-- The hook `obs_python_signal_handler_disconnect_global`. -/
def obs_python_signal_handler_disconnect_global (fuel : Nat)
    (args : Option (PyObject × PyObject)) (s : State) : State :=
  match s.cur_python_script with
  | none => PyErr_SetString s
  | some script =>
      match args with
      | none => s
      | some (py_sh, py_cb) =>
          match py_to_libobs py_sh s with
          | none => s
          | some handler =>
              if py_cb.is_func = false then s
              else
                let cb := find_python_obs_callback fuel script py_cb s
                let cb := disconnect_global_loop script handler py_cb s fuel cb
                match cb with
                | some cb => remove_python_obs_callback cb s
                | none => s

/-- The hook `obs_python_signal_handler_connect_global`. -/
def obs_python_signal_handler_connect_global (args : Option (PyObject × PyObject))
    (s : State) : State :=
  match s.cur_python_script with
  | none => PyErr_SetString s
  | some script =>
      match args with
      | none => s
      | some (py_sh, py_cb) =>
          match py_to_libobs py_sh s with
          | none => s
          | some handler =>
              if py_cb.is_func = false then s
              else
                let (cb, s) := add_python_obs_callback script py_cb s
                let s := calldata_set_ptr_handler cb handler s
                signal_handler_connect_global handler cb s

/-! ## Script load state: the global tick list and unload -/

/-- Reads the pointer stored in a tick slot. -/
def load_tick_slot (s : State) : TickSlot → Option Nat
  | .first_tick_script => s.first_tick_script
  | .next_tick_of p => (s.scripts p).next_tick

/-- The assignment `*slot = v` through a `struct obs_python_script **`. -/
def store_tick_slot (slot : Option TickSlot) (v : Option Nat) (s : State) : State :=
  match slot with
  | some .first_tick_script => { s with first_tick_script := v }
  | some (.next_tick_of p) => set_script p { s.scripts p with next_tick := v } s
  | none => s

/-- The call `PyErr_Clear()`. -/
def PyErr_Clear (s : State) : State := { s with err_pending := false }

/-- The function `unload_python_script`: calls the `script_unload` function of
the module, when the module has one. -/
def unload_python_script (py : Runtime) (data : Nat) (s : State) : State :=
  let s := { s with cur_python_script := some data }
  let py_func := (s.scripts data).unload_attr
  let s :=
    if s.err_pending = true ∨ py_func = none then PyErr_Clear s
    else
      let s := PyObject_CallObject py (.script_unload data) py_func [] s
      (py_error s).2
  { s with cur_python_script := none }

/-- The pointer writes of lines 913-915 of `obs_python_script_unload`: the
script is unlinked from the tick list through its stored pointer to the
predecessor's next field. -/
def tick_unlink (data : Nat) (s : State) : State :=
  let next := (s.scripts data).next_tick
  let s := match next with
    | some n =>
        set_script n
          { s.scripts n with p_prev_next_tick := (s.scripts data).p_prev_next_tick } s
    | none => s
  store_tick_slot (s.scripts data).p_prev_next_tick next s

/-- The block "unhook tick function" of `obs_python_script_unload`
(lines 910-921). -/
def unhook_tick (data : Nat) (s : State) : State :=
  if (s.scripts data).p_prev_next_tick ≠ none then
    let s := lock_tick_mutex s
    let s := tick_unlink data s
    let s := unlock_tick_mutex s
    let s := set_script data { s.scripts data with p_prev_next_tick := none } s
    set_script data { s.scripts data with next_tick := none } s
  else s

/-- The loop "remove all callbacks" of `obs_python_script_unload`
(lines 931-936): `next` is captured before the record is removed. -/
def unload_callbacks_loop : Nat → Option Nat → State → State
  | 0, _, s => s
  | _ + 1, none, s => s
  | fuel + 1, some cb, s =>
      let next := (s.callbacks cb).base.next
      let s := remove_script_callback cb s
      unload_callbacks_loop fuel next s

/-- The function `obs_python_script_unload`. -/
def obs_python_script_unload (py : Runtime) (fuel : Nat) (data : Nat) (s : State) : State :=
  if (s.scripts data).loaded = false then s
  else
    let s := unhook_tick data s
    let s := lock_python s
    let s := set_script data { s.scripts data with tick := none } s
    let s := unload_callbacks_loop fuel (s.scripts data).first_callback s
    let s := unload_python_script py data s
    let s := unlock_python s
    set_script data { s.scripts data with loaded := false } s

/-! ## The per-frame tick: script entrypoints and the timer sweep -/

/-- The call of one tick entrypoint in the `while (data)` loop of `python_tick`
(lines 987-991). -/
def tick_visit (py : Runtime) (seconds : Nat) (data : Nat) (s : State) : State :=
  let s := { s with cur_python_script := some data }
  let s := PyObject_CallObject py (.script_tick data) (s.scripts data).tick
    [PyArg.float seconds] s
  (py_error s).2

/-- The `while (data)` loop of `python_tick` (lines 986-994): the next script
is read from `data->next_tick` (line 993) after the call has returned. -/
def tick_loop (py : Runtime) (seconds : Nat) : Nat → Option Nat → State → State
  | 0, _, s => s
  | _ + 1, none, s => s
  | fuel + 1, some data, s =>
      let s := tick_visit py seconds data s
      tick_loop py seconds fuel (s.scripts data).next_tick s

/-- The first part of `python_tick` (lines 972-1003): the script_tick calls. -/
def python_tick_scripts (py : Runtime) (fuel : Nat) (seconds : Nat) (s : State) : State :=
  let s := lock_tick_mutex s
  let valid := s.first_tick_script.isSome
  let s := unlock_tick_mutex s
  if valid then
    let s := lock_python s
    let s := lock_tick_mutex s
    let s := tick_loop py seconds fuel s.first_tick_script s
    let s := { s with cur_python_script := none }
    let s := unlock_tick_mutex s
    unlock_python s
  else s

/-- The body of the `while (timer)` loop of `python_tick` (lines 1012-1026) for
one timer. -/
def timer_visit (py : Runtime) (ts : Nat) (timer : Nat) (s : State) : State :=
  let cb := python_obs_timer_cb timer
  if (s.callbacks cb).base.removed then python_obs_timer_remove timer s
  else
    let elapsed := u64_sub ts (s.timers timer).last_ts
    if (s.timers timer).interval ≤ elapsed then
      let s := lock_python s
      let s := timer_call py cb s
      let s := unlock_python s
      set_timer timer { s.timers timer with
        last_ts := u64_add (s.timers timer).last_ts (s.timers timer).interval } s
    else s

/-- The `while (timer)` loop of `python_tick` (lines 1010-1029): `next` is
captured before the timer is visited. -/
def timer_loop (py : Runtime) (ts : Nat) : Nat → Option Nat → State → State
  | 0, _, s => s
  | _ + 1, none, s => s
  | fuel + 1, some timer, s =>
      let next := (s.timers timer).next
      let s := timer_visit py ts timer s
      timer_loop py ts fuel next s

/-- The second part of `python_tick` (lines 1008-1030): the timer sweep at
time `ts`. -/
def python_tick_timers (py : Runtime) (fuel : Nat) (ts : Nat) (s : State) : State :=
  let s := lock_timer_mutex s
  let s := timer_loop py ts fuel s.first_timer s
  unlock_timer_mutex s

/-- The function `python_tick`. -/
def python_tick (py : Runtime) (fuel : Nat) (seconds : Nat) (s : State) : State :=
  let ts := s.video_frame_time
  let s := python_tick_scripts py fuel seconds s
  python_tick_timers py fuel ts s

/-! ## The tick walk on one thread: blocking on `tick_mutex` -/

/-- The result of running code on one thread: it returns in a state, or it
blocks for ever in a state. -/
inductive Outcome where
  | returned (s : State)
  | blocked (s : State)

/-- Sequencing: the code after a call that blocks is not run. -/
def Outcome.andThen (o : Outcome) (f : State → Outcome) : Outcome :=
  match o with
  | .returned s => f s
  | .blocked s => .blocked s

/-- The call `pthread_mutex_lock(&tick_mutex)` made by the thread whose lock
counts the state holds.  `tick_mutex` has the default attributes (line 57;
line 1057 initialises it with `NULL`, only `timer_mutex` is made recursive at
line 1058): locked again by the thread that holds it, the call does not
return. -/
def pthread_mutex_lock_tick (s : State) : Outcome :=
  if s.tick_mutex = 0 then .returned (lock_tick_mutex s) else .blocked s

/-- The block "unhook tick function" of `obs_python_script_unload`
(lines 910-921), with the lock of line 911 as a call that may block. -/
def unhook_tick_blocking (data : Nat) (s : State) : Outcome :=
  if (s.scripts data).p_prev_next_tick ≠ none then
    (pthread_mutex_lock_tick s).andThen fun s =>
      let s := tick_unlink data s
      let s := unlock_tick_mutex s
      let s := set_script data { s.scripts data with p_prev_next_tick := none } s
      .returned (set_script data { s.scripts data with next_tick := none } s)
  else .returned s

/-- The function `obs_python_script_unload`, with the lock of line 911 as a
call that may block. -/
def obs_python_script_unload_blocking (py : Runtime) (fuel : Nat) (data : Nat) (s : State) :
    Outcome :=
  if (s.scripts data).loaded = false then .returned s
  else
    (unhook_tick_blocking data s).andThen fun s =>
      let s := lock_python s
      let s := set_script data { s.scripts data with tick := none } s
      let s := unload_callbacks_loop fuel (s.scripts data).first_callback s
      let s := unload_python_script py data s
      let s := unlock_python s
      .returned (set_script data { s.scripts data with loaded := false } s)

/-- A Lua value, as far as `lua_rawequal` can tell values apart: primitive
values by value, functions and userdata by identity. -/
inductive LuaValue where
  | nil
  | boolean (b : Bool)
  | number (n : Int)
  | str (text : String)
  | func (id : Nat)
  | userdata (id : Nat)
deriving DecidableEq, Repr

/-- The primitive `lua_rawequal`. -/
def lua_rawequal (a b : LuaValue) : Bool := decide (a = b)

/-- The constant `LUA_REFNIL`. -/
def LUA_REFNIL : Int := -1

/-- The record `struct lua_obs_callback`. -/
structure lua_obs_callback where
  base : script_callback
  script : Option Nat
  reg_idx : Int
deriving DecidableEq, Repr

/-- One `struct obs_lua_script` with its `lua_State`: the callback records,
the head of the callback list, the registry table (`LUA_REGISTRYINDEX`), the
stack of the running C function (bottom first: the value at index 1 is the
first element, the top is the last), and the allocation counters of `bzalloc`
and `luaL_ref`. -/
structure LuaScript where
  self : Nat
  callbacks : Nat → lua_obs_callback
  first_callback : Option Nat
  registry : Int → LuaValue
  stack : List LuaValue
  next_alloc : Nat
  next_ref : Int

/-- The value a stack index refers to (Lua reference manual, 3.2): a positive
index counts from the bottom of the stack, a negative index from the top
(`-1` is the top); `none` when the index is not valid.  Pseudo-indices are not
modelled. -/
def lua_index (stack : List LuaValue) (idx : Int) : Option LuaValue :=
  if 0 < idx then stack[idx.toNat - 1]?
  else if idx < 0 ∧ idx.natAbs ≤ stack.length then stack[stack.length - idx.natAbs]?
  else none

/-- The call `lua_rawequal(script, index1, index2)`: primitive equality of the
two values, 0 when one of the indices is not valid. -/
def lua_rawequal_at (stack : List LuaValue) (index1 index2 : Int) : Bool :=
  match lua_index stack index1, lua_index stack index2 with
  | some a, some b => lua_rawequal a b
  | _, _ => false

/-- The auxiliary `luaL_ref(script, LUA_REGISTRYINDEX)` applied to the value
`v` on top of the stack: `nil` is not stored and gives `LUA_REFNIL`, any other
value is stored under a fresh key. -/
def luaL_ref (v : LuaValue) (L : LuaScript) : Int × LuaScript :=
  if v = LuaValue.nil then (LUA_REFNIL, L)
  else (L.next_ref,
    { L with registry := Function.update L.registry L.next_ref v, next_ref := L.next_ref + 1 })

/-- A write to the Lua callback record at address `a`. -/
def lua_set_callback (a : Nat) (v : lua_obs_callback) (L : LuaScript) : LuaScript :=
  { L with callbacks := Function.update L.callbacks a v }

/-- Modelled from the spec: `add_script_callback` (obs-scripting-callback.h),
spec 4.1 `add`: allocates a zeroed record owned by the script and links it at
the head of the owner's list. -/
def lua_add_script_callback (L : LuaScript) : Nat × LuaScript :=
  let cb := L.next_alloc
  let next := L.first_callback
  let L := { L with next_alloc := L.next_alloc + 1 }
  let L := lua_set_callback cb ⟨⟨next, some L.self, ⟨none, none⟩, false⟩, none, 0⟩ L
  (cb, { L with first_callback := some cb })

/-- The function `add_lua_obs_callback_extra`.  `lua_pushvalue` pushes a copy
of the value at `stack_idx` (`nil` for an index that is not valid) and
`luaL_ref` pops it, so the stack is afterwards as before. -/
def add_lua_obs_callback_extra (stack_idx : Int) (extra_size : Nat) (L : LuaScript) :
    Nat × LuaScript :=
  let (cb, L) := lua_add_script_callback L
  let _size := extra_size
  let pushed := (lua_index L.stack stack_idx).getD LuaValue.nil
  let (ref, L) := luaL_ref pushed L
  let L := lua_set_callback cb { L.callbacks cb with reg_idx := ref } L
  let L := lua_set_callback cb { L.callbacks cb with script := some L.self } L
  (cb, L)

/-- The `while (cb)` loop of `find_next_lua_obs_callback` (lines 147-156):
`lua_rawgeti` pushes the registry value of the record, `lua_rawequal` compares
the index `-1` with `stack_idx` on the stack with that value pushed, and
`lua_pop` removes it again, so every round starts from the stack `L.stack`. -/
def lua_find_loop (stack_idx : Int) (L : LuaScript) : Nat → Option Nat → Option Nat
  | 0, _ => none
  | _ + 1, none => none
  | fuel + 1, some cb =>
      let stack := L.stack ++ [L.registry (L.callbacks cb).reg_idx]
      let matched := lua_rawequal_at stack (-1) stack_idx
      if matched then some cb
      else lua_find_loop stack_idx L fuel (L.callbacks cb).base.next

/-- The function `find_next_lua_obs_callback`. -/
def find_next_lua_obs_callback (fuel : Nat) (cb : Option Nat) (stack_idx : Int)
    (L : LuaScript) : Option Nat :=
  let cb := match cb with
    | some c => (L.callbacks c).base.next
    | none => L.first_callback
  lua_find_loop stack_idx L fuel cb

/-- The function `find_lua_obs_callback`. -/
def find_lua_obs_callback (fuel : Nat) (stack_idx : Int) (L : LuaScript) : Option Nat :=
  find_next_lua_obs_callback fuel none stack_idx L

/-- The enumeration of the claim: `find_next` called again and again with the
record returned before, until none is returned. -/
def lua_enumerate (fuel : Nat) (stack_idx : Int) (L : LuaScript) :
    Nat → Option Nat → List Nat
  | 0, _ => []
  | _ + 1, none => []
  | n + 1, some cb =>
      cb :: lua_enumerate fuel stack_idx L n
        (find_next_lua_obs_callback fuel (some cb) stack_idx L)

/-- The records returned by `find` followed by repeated `find_next`. -/
def lua_find_all (fuel : Nat) (stack_idx : Int) (L : LuaScript) : List Nat :=
  lua_enumerate fuel stack_idx L fuel (find_lua_obs_callback fuel stack_idx L)

/-- The pinned function of the record is identical to the value at the valid
index `stack_idx` of the stack of the caller. -/
def lua_matches (stack_idx : Int) (L : LuaScript) (cb : Nat) : Bool :=
  match lua_index L.stack stack_idx with
  | some given => lua_rawequal (L.registry (L.callbacks cb).reg_idx) given
  | none => false

/-- The index `stack_idx` is an absolute index of a value on the stack. -/
def lua_absolute (stack_idx : Int) (L : LuaScript) : Prop :=
  0 < stack_idx ∧ stack_idx ≤ L.stack.length

/-- The records `ys` are linked in this order from the pointer `p` on. -/
def LuaChain (L : LuaScript) : Option Nat → List Nat → Prop
  | p, [] => p = none
  | p, x :: xs => p = some x ∧ LuaChain L (L.callbacks x).base.next xs

/-- The callback list of the script holds the records `ys`, head first. -/
def LuaList (L : LuaScript) (ys : List Nat) : Prop := LuaChain L L.first_callback ys

/-- The values at the stack indices `idxs` registered one after the other. -/
def lua_register_all (idxs : List Int) (L : LuaScript) : LuaScript :=
  idxs.foldl (fun L i => (add_lua_obs_callback_extra i 0 L).2) L

/-! ## Script logging (`py_script_log`) -/

/-- The line feed character. -/
def NEWLINE : Char := Char.ofNat 10

/-- The C library call `strchr(start, c)` on a string, modelled by the list of
its characters in front of the terminating NUL: the offset of the first `c`
from `start`, `none` for `NULL`. -/
def strchr : List Char → Char → Option Nat
  | [], _ => none
  | x :: xs, c => if x = c then some 0 else (strchr xs c).map (· + 1)

/-- The state of `py_script_log`: the global `cur_py_log_chunk`, the static
`calling_self`, and the lines handed to the host's `script_log`, with their
level, oldest first. -/
structure LogState where
  cur_py_log_chunk : List Char
  calling_self : Bool
  script_log : List (Int × List Char)

/-- The `while (endl)` loop of `py_script_log` (lines 800-807).  The pointer
`start` into the chunk is modelled by the string that begins there, `endl` by
its offset from `start`.  With a NUL written at `endl`, `script_log` gets the
text from `start` up to `endl`; then `start = endl + 1`. -/
def log_loop (log_level : Int) :
    Nat → List Char → Option Nat → List (Int × List Char) → List Char × List (Int × List Char)
  | 0, start, _, out => (start, out)
  | _ + 1, start, none, out => (start, out)
  | fuel + 1, start, some endl, out =>
      let out := out ++ [(log_level, start.take endl)]
      let start := start.drop (endl + 1)
      log_loop log_level fuel start (strchr start NEWLINE) out

/-- The hook `py_script_log`; `args` is the parsed tuple `(log_level, msg)`,
`none` when `PyArg_ParseTuple` fails.  After the loop the text from `start` on
is moved to the front of the chunk and the chunk is resized to its length. -/
def py_script_log (fuel : Nat) (args : Option (Int × List Char)) (L : LogState) : LogState :=
  if L.calling_self then L
  else
    let L := { L with calling_self := true }
    match args with
    | none => { L with calling_self := false }
    | some (log_level, msg) =>
        if msg = [] then { L with calling_self := false }
        else
          let L := { L with cur_py_log_chunk := L.cur_py_log_chunk ++ msg }
          let start := L.cur_py_log_chunk
          let endl := strchr start NEWLINE
          let (start, out) := log_loop log_level fuel start endl L.script_log
          let L := { L with script_log := out }
          let L := { L with cur_py_log_chunk := start }
          { L with calling_self := false }

/-! ## Script creation: path, file, directory and module name -/

/-- The character `/`. -/
def SLASH : Char := '/'

/-- The backslash character. -/
def BACKSLASH : Char := Char.ofNat 92

/-- The string literal `".py"`. -/
def DOT_PY : List Char := ['.', 'p', 'y']

/-- Modelled from the spec: `dstr_replace(&str, find, replace)` (libobs
util/dstr.h) for one-character `find` and `replace` strings, as at line 873:
every occurrence of the character is replaced.  A `dstr`, like a C string, is
modelled by the list of its characters; the empty `dstr`, whose `array` may be
`NULL`, by the empty list. -/
def dstr_replace (str : List Char) (find replace : Char) : List Char :=
  str.map (fun c => if c = find then replace else c)

/-- The C library call `strrchr(str, c)`: the offset of the last `c`, `none`
for `NULL`. -/
def strrchr : List Char → Char → Option Nat
  | [], _ => none
  | x :: xs, c =>
      match strrchr xs c with
      | some i => some (i + 1)
      | none => if x = c then some 0 else none

/-- The C library call `strstr(str, find)`: the offset of the first occurrence
of the string `find`, `none` for `NULL`. -/
def strstr : List Char → List Char → Option Nat
  | [], find => if find = [] then some 0 else none
  | x :: xs, find =>
      if (x :: xs).take find.length = find then some 0
      else (strstr xs find).map (· + 1)

/-- The string fields of `struct obs_python_script` that
`obs_python_script_create` fills: `base.path`, `base.file`, `dir`, `name`. -/
structure script_strings where
  path : List Char
  file : List Char
  dir : List Char
  name : List Char
deriving DecidableEq, Repr

/-- Modelled from the spec: the member `array` of a `struct dstr` (libobs
util/dstr.h) after `dstr_copy` or `dstr_copy_dstr`: these free the destination
when the source is empty, so `array` is `NULL` (`none`) for an empty `dstr`
and the string otherwise. -/
def dstr_array (str : List Char) : Option (List Char) :=
  if str = [] then none else some str

/-- The function `obs_python_script_create`, lines 872-890: the derivation of
the string fields from the argument `path`.  The structure starts zeroed, so
`dir` is empty unless it is assigned.  Line 888 passes `data->base.file.array`
to `strstr`; for an empty file name that pointer is `NULL` and the call is
undefined: the function gives no result (`none`). -/
def obs_python_script_create (path : List Char) : Option script_strings :=
  let base_path := path
  let base_path := dstr_replace base_path BACKSLASH SLASH
  let path := dstr_array base_path
  let slash := match path with
    | some path => strrchr path SLASH
    | none => none
  let (file, dir) := match slash with
    | some slash =>
        let slash := slash + 1
        (base_path.drop slash, base_path.take slash)
    | none => (base_path, [])
  let path := dstr_array file
  let name := file
  match path with
  | none => none
  | some path =>
      let ext := strstr path DOT_PY
      let name := match ext with
        | some ext => name.take ext
        | none => name
      some ⟨base_path, file, dir, name⟩

/-! ## Well-formed lists and specification functions -/

/-- The timers `xs` are linked in this order from `slot` on: the slot holds the
first one, each `p_prev_next` refers to the slot in front of its timer, and the
last `next` is `NULL`. -/
def TimerChain (s : State) : TimerSlot → List Nat → Prop
  | slot, [] => load_timer_slot s slot = none
  | slot, x :: xs =>
      load_timer_slot s slot = some x ∧ (s.timers x).p_prev_next = some slot ∧
        TimerChain s (.next_of x) xs

/-- The global timer list is well formed and holds the timers `xs`, head
first. -/
def TimerList (s : State) (xs : List Nat) : Prop := TimerChain s .first_timer xs

/-- The timers `xs` are allocated. -/
def Allocated (xs : List Nat) (s : State) : Prop := ∀ t ∈ xs, t < s.next_alloc

/-- What the dispatch code relies on during a sweep over the timers `xs`: a
script function does not relink the global timer list and does not write the
timer fields of an allocated timer of `xs`, and it does not free one.  It may
register and remove callbacks. -/
def TimerFrame (py : Runtime) (xs : List Nat) : Prop :=
  ∀ c s, Allocated xs s →
    (py c s).first_timer = s.first_timer ∧
    (∀ t ∈ xs, (py c s).timers t = s.timers t) ∧ Allocated xs (py c s)

/-- The timers `xs` visited once each, in this order. -/
def sweep_list (py : Runtime) (ts : Nat) (xs : List Nat) (s : State) : State :=
  xs.foldl (fun s t => timer_visit py ts t s) s

/-- The state in which a sweep over `xs`, started in `s`, reaches the timer
`t`: the timers in front of `t` have been visited. -/
def reach_timer (py : Runtime) (ts : Nat) (xs : List Nat) (s : State) (t : Nat) : State :=
  sweep_list py ts (xs.takeWhile (fun u => decide (u ≠ t))) s

/-- The timer is due at time `ts`: `ts - last_ts >= interval` in 64-bit
unsigned arithmetic. -/
def timer_due (ts : Nat) (s : State) (t : Nat) : Bool :=
  decide ((s.timers t).interval ≤ u64_sub ts (s.timers t).last_ts)

/-- The number of calls of the callback of timer `t` in the trace. -/
def timer_fires (t : Nat) (s : State) : Nat :=
  s.calls.countP (fun c => decide (c.site = CallSite.timer t))

/-- The slot in front of the element that follows `pre` in a chain that starts
at `slot`. -/
def slot_after (slot : TimerSlot) : List Nat → TimerSlot
  | [] => slot
  | x :: pre => slot_after (.next_of x) pre

/-- The record of timer `t` is marked removed. -/
def timer_removed (s : State) (t : Nat) : Bool :=
  (s.callbacks (python_obs_timer_cb t)).base.removed

/-- The timers of `xs` that a sweep started in `s` leaves linked: those not
marked removed when the sweep reaches them. -/
def sweep_kept (py : Runtime) (ts : Nat) : List Nat → State → List Nat
  | [], _ => []
  | t :: xs, s =>
      (if timer_removed s t then [] else [t]) ++ sweep_kept py ts xs (timer_visit py ts t s)

/-- A script function does not clear the removed flag of the record of an
allocated timer of `xs`. -/
def RemovedStable (py : Runtime) (xs : List Nat) : Prop :=
  ∀ c s, Allocated xs s → ∀ t ∈ xs, timer_removed s t = true →
    timer_removed (py c s) t = true

/-- A sequence of sweeps of `python_tick`, at the times `times` in this
order. -/
def sweeps (py : Runtime) (fuel : Nat) (times : List Nat) (s : State) : State :=
  times.foldl (fun s u => python_tick_timers py fuel u s) s

/-- Timer `t` is linked in a well-formed global timer list made of timers of
`xs`, its record is not marked removed, and its interval is `I`. -/
def TimerLinked (xs : List Nat) (t I : Nat) (s : State) : Prop :=
  ∃ ys, TimerList s ys ∧ ys.Sublist xs ∧ t ∈ ys ∧ Allocated xs s ∧
    timer_removed s t = false ∧ (s.timers t).interval = I

/-- The global timer list is well formed and made of timers of `xs`, and the
interval of timer `t` (linked or not) is `I`. -/
def TimerTracked (xs : List Nat) (t I : Nat) (s : State) : Prop :=
  ∃ ys, TimerList s ys ∧ ys.Sublist xs ∧ Allocated xs s ∧ (s.timers t).interval = I

/-- The callback records `ys` are linked in this order from the pointer `p`
on, and the last `next` is `NULL`. -/
def CbChain (s : State) : Option Nat → List Nat → Prop
  | p, [] => p = none
  | p, x :: xs => p = some x ∧ CbChain s (s.callbacks x).base.next xs

/-- The callback list of `script` is well formed and holds the records `ys`,
head first. -/
def CallbackList (s : State) (script : Nat) (ys : List Nat) : Prop :=
  CbChain s (s.scripts script).first_callback ys

/-- The scripts `zs` are linked in this order in the tick list from `slot` on,
with their back pointers. -/
def TickChain (s : State) : TickSlot → List Nat → Prop
  | slot, [] => load_tick_slot s slot = none
  | slot, x :: xs =>
      load_tick_slot s slot = some x ∧ (s.scripts x).p_prev_next_tick = some slot ∧
        TickChain s (.next_tick_of x) xs

/-- The global tick list is well formed and holds the scripts `zs`, head
first. -/
def TickList (s : State) (zs : List Nat) : Prop := TickChain s .first_tick_script zs

/-- The slot in front of the script that follows `pre` in a tick chain that
starts at `slot`. -/
def tick_slot_after (slot : TickSlot) : List Nat → TickSlot
  | [] => slot
  | x :: pre => tick_slot_after (.next_tick_of x) pre

/-- What the walk over the tick list relies on: a script function does not
relink the global tick list (the list is only changed under `tick_mutex`,
which the walk holds) and does not replace a tick entrypoint. -/
def TickFrame (py : Runtime) : Prop :=
  ∀ c s, (py c s).first_tick_script = s.first_tick_script ∧
    ∀ z, ((py c s).scripts z).next_tick = (s.scripts z).next_tick ∧
      ((py c s).scripts z).p_prev_next_tick = (s.scripts z).p_prev_next_tick ∧
      ((py c s).scripts z).tick = (s.scripts z).tick

/-- A script function does not clear the removed flag and does not change the
owner of an allocated record of `A`. -/
def RecordFrame (py : Runtime) (A : List Nat) : Prop :=
  ∀ c s, Allocated A s → ∀ a ∈ A,
    ((s.callbacks a).base.removed = true → ((py c s).callbacks a).base.removed = true) ∧
    ((py c s).callbacks a).base.script = (s.callbacks a).base.script

/-- The two states have the same records, timers, list heads and tick links
(they may differ in the current script and callback, the locks, the error
state, the trace, and the other fields of the scripts). -/
def SameHeap (s s2 : State) : Prop :=
  (∀ u, (s2.scripts u).next_tick = (s.scripts u).next_tick ∧
    (s2.scripts u).p_prev_next_tick = (s.scripts u).p_prev_next_tick) ∧
  s2.callbacks = s.callbacks ∧ s2.timers = s.timers ∧
  s2.first_tick_script = s.first_tick_script ∧ s2.first_timer = s.first_timer ∧
  s2.next_alloc = s.next_alloc

/-- The state of a script `d` that has been unloaded, as far as the global
lists are concerned: the tick list is `zs`, the timer list is `xs`, every
record of `ys` is marked removed, and every linked timer whose record is owned
by `d` is marked removed. -/
def UnloadInv (A xs ys zs : List Nat) (d : Nat) (s : State) : Prop :=
  Allocated A s ∧ TickList s zs ∧ TimerList s xs ∧
  (∀ a ∈ ys, (s.callbacks a).base.removed = true) ∧
  (∀ t ∈ xs, (s.callbacks t).base.script = some d → (s.callbacks t).base.removed = true)

/-- The script functions of `py` leave the three lock counters as they find
them: every lock a hook takes it releases before returning. -/
def LockBalanced (py : Runtime) : Prop :=
  ∀ c st, (py c st).tick_mutex = st.tick_mutex ∧ (py c st).timer_mutex = st.timer_mutex ∧
    (py c st).python_lock = st.python_lock

/-- The locks held at a call `c` made in state `st` by a `python_tick` that
was entered in state `s`: at the call of a tick entrypoint `tick_mutex` and the
execution lock are each held once more than at entry; at the call of a timer
callback `timer_mutex` is held once more and the execution lock twice more
than at entry; the other list lock is as at entry.  No other call site
qualifies. -/
def list_lock_held (s : State) (c : PyCall) (st : State) : Bool :=
  match c.site with
  | .script_tick _ =>
      decide (st.tick_mutex = s.tick_mutex + 1 ∧ st.python_lock = s.python_lock + 1 ∧
        st.timer_mutex = s.timer_mutex)
  | .timer _ =>
      decide (st.timer_mutex = s.timer_mutex + 1 ∧ st.python_lock = s.python_lock + 2 ∧
        st.tick_mutex = s.tick_mutex)
  | _ => false

/-- The text made of the given lines, each followed by a line feed. -/
def with_newlines : List (List Char) → List Char
  | [] => []
  | l :: ls => l ++ NEWLINE :: with_newlines ls

/-- The test that selects the record removed by the global disconnect: the
record pins the function `py_cb` and stores the handler `handler`. -/
def global_match (s : State) (handler : Option Nat) (py_cb : PyObject) (a : Nat) : Prop :=
  (s.callbacks a).func = some py_cb ∧ handler = calldata_ptr_handler a s

/-! ## States and runtimes used as concrete inputs -/

/-- A state with nothing allocated, linked or registered. -/
def State.empty : State where
  scripts := fun _ => ⟨false, none, none, none, none, none, none⟩
  callbacks := fun _ => ⟨⟨none, none, ⟨none, none⟩, false⟩, none⟩
  timers := fun _ => ⟨none, none, 0, 0⟩
  first_tick_script := none
  first_timer := none
  cur_python_script := none
  cur_python_cb := none
  tick_mutex := 0
  timer_mutex := 0
  python_lock := 0
  err_pending := false
  err_logged := 0
  video_frame_time := 0
  next_alloc := 0
  deferred := []
  tick_callbacks := []
  signal_connections := []
  remove_current_requests := 0
  swig_calldata := fun _ => none
  swig_handler := fun _ => none
  calls := []

/-- A runtime whose every script function removes the record being
dispatched. -/
def py_remove_current : Runtime := fun _ s => remove_current_callback s

/-- A state with one script (address 0) owning one record (address 1) that has
been removed while still registered with the host. -/
def removed_record_state : State :=
  { State.empty with
    callbacks := fun a =>
      if a = 1 then ⟨⟨none, some 0, ⟨none, none⟩, true⟩, some ⟨7, true⟩⟩
      else ⟨⟨none, none, ⟨none, none⟩, false⟩, none⟩
    tick_callbacks := [1]
    next_alloc := 2 }

/-- The function values used by the example scripts. -/
def fn (i : Nat) : PyObject := ⟨i, true⟩

/-- A state with one script (address 0) that registered three timers, records
1, 2 and 3 with the functions `fn 11`, `fn 12` and `fn 13`: both the callback
list of the script and the global timer list are 3, 2, 1.  Timer 3 has
interval 100, timer 2 interval 50, timer 1 interval 1000; all started at
time 0. -/
def three_timers : State :=
  { State.empty with
    scripts := fun i =>
      if i = 0 then ⟨true, some ⟨100, false⟩, none, none, none, some 3, none⟩
      else ⟨false, none, none, none, none, none, none⟩
    callbacks := fun a =>
      if a = 3 then ⟨⟨some 2, some 0, ⟨none, none⟩, false⟩, some (fn 13)⟩
      else if a = 2 then ⟨⟨some 1, some 0, ⟨none, none⟩, false⟩, some (fn 12)⟩
      else if a = 1 then ⟨⟨none, some 0, ⟨none, none⟩, false⟩, some (fn 11)⟩
      else ⟨⟨none, none, ⟨none, none⟩, false⟩, none⟩
    timers := fun a =>
      if a = 3 then ⟨some 2, some .first_timer, 0, 100⟩
      else if a = 2 then ⟨some 1, some (.next_of 3), 0, 50⟩
      else if a = 1 then ⟨none, some (.next_of 2), 0, 1000⟩
      else ⟨none, none, 0, 0⟩
    first_timer := some 3
    next_alloc := 4 }

/-- A runtime in which the callback of timer 3 removes the timer registered
for `fn 12` (its sibling, record 2) and then itself; every other script
function does nothing. -/
def py_removing : Runtime := fun c s =>
  match c.site with
  | .timer 3 => remove_current_callback (timer_remove 10 (some (fn 12)) s)
  | _ => s

/-- The state `three_timers` after script 0 has called `timer_remove(fn 12)`:
record 2 is marked removed and gone from the callback list of the script. -/
def three_timers_one_removed : State :=
  timer_remove 10 (some (fn 12)) { three_timers with cur_python_script := some 0 }

/-- A runtime in which the callback of timer 2 removes its own record; every
other script function does nothing. -/
def py_timer2_removes_itself : Runtime := fun c s =>
  match c.site with
  | .timer 2 => remove_python_obs_callback 2 s
  | _ => s

/-- The runtime object that converts to the signal handler at address 5. -/
def py_handler : PyObject := ⟨50, false⟩

/-- A state in which script 0 is running (it is the current script) and has
registered nothing yet. -/
def script_running : State :=
  { State.empty with
    scripts := fun i =>
      if i = 0 then ⟨true, some ⟨100, false⟩, none, none, none, none, none⟩
      else ⟨false, none, none, none, none, none, none⟩
    cur_python_script := some 0
    swig_handler := fun o => if o = py_handler then some (some 5) else none
    next_alloc := 1 }

/-- Script 0 has connected `fn 7` to the signal `"a"` of handler 5: record 1. -/
def connected_a : State :=
  obs_python_signal_handler_connect (some (py_handler, "a", fn 7)) script_running

/-- Script 0 has connected `fn 7` to all signals of handler 5: record 1. -/
def connected_global : State :=
  obs_python_signal_handler_connect_global (some (py_handler, fn 7)) script_running

/-- A Lua script (address 0) with no callback, whose stack holds the function
7 at index 1 and `nil` at index 2. -/
def lua_script_empty : LuaScript where
  self := 0
  callbacks := fun _ => ⟨⟨none, none, ⟨none, none⟩, false⟩, none, 0⟩
  first_callback := none
  registry := fun _ => LuaValue.nil
  stack := [LuaValue.func 7, LuaValue.nil]
  next_alloc := 0
  next_ref := 1

/-- A state with two loaded scripts, 1 and 2, both with a `script_tick`
entrypoint; the global tick list is 1, 2. -/
def two_tick_scripts : State :=
  { State.empty with
    scripts := fun i =>
      if i = 1 then
        ⟨true, some ⟨101, false⟩, some (fn 21), some 2, some .first_tick_script, none, none⟩
      else if i = 2 then
        ⟨true, some ⟨102, false⟩, some (fn 22), none, some (.next_tick_of 1), none, none⟩
      else ⟨false, none, none, none, none, none, none⟩
    first_tick_script := some 1 }

/-- A runtime whose script functions do nothing. -/
def py_idle : Runtime := fun _ s => s

/-- A state with two loaded scripts.  Script 1 owns the records 4 and 3 (its
callback list is 4, 3), script 2 owns record 5; all three records are timers
and the global timer list is 5, 4, 3; the global tick list is 1, 2. -/
def two_scripts_with_timers : State :=
  { State.empty with
    scripts := fun i =>
      if i = 1 then
        ⟨true, some ⟨101, false⟩, some (fn 21), some 2, some .first_tick_script, some 4,
          some (fn 31)⟩
      else if i = 2 then
        ⟨true, some ⟨102, false⟩, some (fn 22), none, some (.next_tick_of 1), some 5, none⟩
      else ⟨false, none, none, none, none, none, none⟩
    callbacks := fun a =>
      if a = 3 then ⟨⟨none, some 1, ⟨none, none⟩, false⟩, some (fn 13)⟩
      else if a = 4 then ⟨⟨some 3, some 1, ⟨none, none⟩, false⟩, some (fn 14)⟩
      else if a = 5 then ⟨⟨none, some 2, ⟨none, none⟩, false⟩, some (fn 15)⟩
      else ⟨⟨none, none, ⟨none, none⟩, false⟩, none⟩
    timers := fun a =>
      if a = 5 then ⟨some 4, some .first_timer, 0, 100⟩
      else if a = 4 then ⟨some 3, some (.next_of 5), 0, 50⟩
      else if a = 3 then ⟨none, some (.next_of 4), 0, 1000⟩
      else ⟨none, none, 0, 0⟩
    first_tick_script := some 1
    first_timer := some 5
    video_frame_time := 120
    next_alloc := 6 }

/-- A runtime in which every script function raises: the call returns with the
pending-error state set. -/
def py_failing : Runtime := fun _ s => PyErr_SetString s

/-- Script 0 has registered `fn 7` as a tick callback: record 1. -/
def tick_callback_registered : State :=
  obs_python_add_tick_callback (some (fn 7)) script_running

/-- The state `connected_a`, outside any script call, with a SWIG conversion
that succeeds for every calldata. -/
def connected_a_idle : State :=
  { connected_a with cur_python_script := none, swig_calldata := fun _ => some ⟨60, false⟩ }

/-- The state `connected_global`, outside any script call, with a SWIG
conversion that succeeds for every calldata. -/
def connected_global_idle : State :=
  { connected_global with
    cur_python_script := none, swig_calldata := fun _ => some ⟨60, false⟩ }

/-- A runtime whose script functions raise when they are called while
`tick_mutex` or `timer_mutex` is held, and do nothing otherwise. -/
def py_lock_probe : Runtime := fun _ s =>
  if s.tick_mutex = 0 ∧ s.timer_mutex = 0 then s else PyErr_SetString s

/-- A runtime whose script functions do nothing when they are called with the
locks of `list_lock_held` (relative to `two_scripts_with_timers`), and raise
otherwise. -/
def py_lock_guarded : Runtime := fun c s =>
  if list_lock_held two_scripts_with_timers c s then s else PyErr_SetString s

/-- The state `three_timers` at video frame time 77, while script 0 is
running. -/
def timer_add_input : State :=
  { three_timers with cur_python_script := some 0, video_frame_time := 77 }

/-- A state inside a callback of script 0: script 0 is the current script and
record 1 (`fn 7`, connected to the signal `"a"` of handler 5) the current
callback; the SWIG conversion succeeds for every calldata. -/
def inside_callback : State :=
  { connected_a with cur_python_cb := some 1, swig_calldata := fun _ => some ⟨60, false⟩ }

/-- A log state outside `py_script_log` whose chunk holds `ab`, with nothing
logged yet. -/
def log_chunk_ab : LogState := ⟨['a', 'b'], false, []⟩

/-! # Theorems -/

/-! ## Field lemmas for the small state updates -/

@[simp] theorem set_timer_timers (t : Nat) (v : python_obs_timer) (s : State) :
    (set_timer t v s).timers = Function.update s.timers t v := rfl

@[simp] theorem set_timer_first_timer (t : Nat) (v : python_obs_timer) (s : State) :
    (set_timer t v s).first_timer = s.first_timer := rfl

@[simp] theorem set_timer_callbacks (t : Nat) (v : python_obs_timer) (s : State) :
    (set_timer t v s).callbacks = s.callbacks := rfl

@[simp] theorem set_timer_calls (t : Nat) (v : python_obs_timer) (s : State) :
    (set_timer t v s).calls = s.calls := rfl

@[simp] theorem set_timer_next_alloc (t : Nat) (v : python_obs_timer) (s : State) :
    (set_timer t v s).next_alloc = s.next_alloc := rfl

theorem load_set_timer (s : State) (slot : TimerSlot) (n : Nat) (v : python_obs_timer)
    (h : v.next = (s.timers n).next) :
    load_timer_slot (set_timer n v s) slot = load_timer_slot s slot := by
  cases slot with
  | first_timer => rfl
  | next_of p =>
      by_cases hp : p = n
      · subst hp; simp [load_timer_slot, h]
      · simp [load_timer_slot, Function.update_noteq hp]

theorem load_store_same (s : State) (slot : TimerSlot) (v : Option Nat) :
    load_timer_slot (store_timer_slot (some slot) v s) slot = v := by
  cases slot <;> simp [load_timer_slot, store_timer_slot]

theorem load_store_other (s : State) (slot slot2 : TimerSlot) (v : Option Nat)
    (h : slot2 ≠ slot) :
    load_timer_slot (store_timer_slot (some slot2) v s) slot = load_timer_slot s slot := by
  cases slot <;> cases slot2 <;> simp_all [load_timer_slot, store_timer_slot]
  rename_i a b
  have : a ≠ b := fun h2 => h h2.symm
  simp [Function.update_noteq this]

theorem store_p_prev_next (s : State) (slot : Option TimerSlot) (v : Option Nat) (u : Nat) :
    ((store_timer_slot slot v s).timers u).p_prev_next = (s.timers u).p_prev_next := by
  rcases slot with _ | slot
  · rfl
  · cases slot with
    | first_timer => rfl
    | next_of p =>
        by_cases hp : u = p
        · subst hp; simp [store_timer_slot]
        · simp [store_timer_slot, Function.update_noteq hp]

theorem store_next_other (s : State) (slot : TimerSlot) (v : Option Nat) (u : Nat)
    (h : slot ≠ TimerSlot.next_of u) :
    ((store_timer_slot (some slot) v s).timers u).next = (s.timers u).next := by
  cases slot with
  | first_timer => rfl
  | next_of p =>
      have hp : u ≠ p := fun e => h (by rw [e])
      simp [store_timer_slot, Function.update_noteq hp]

/-! ## Chains of timers -/

theorem TimerChain_congr {s s2 : State} :
    ∀ (xs : List Nat) (slot : TimerSlot),
      load_timer_slot s2 slot = load_timer_slot s slot →
      (∀ u ∈ xs, (s2.timers u).next = (s.timers u).next ∧
        (s2.timers u).p_prev_next = (s.timers u).p_prev_next) →
      TimerChain s slot xs → TimerChain s2 slot xs
  | [], slot, hl, _, h => by simpa [TimerChain, hl] using h
  | x :: xs, slot, hl, hx, h => by
      obtain ⟨h1, h2, h3⟩ := h
      refine ⟨by rw [hl, h1], by rw [(hx x (by simp)).2, h2], ?_⟩
      exact TimerChain_congr xs (.next_of x) (hx x (by simp)).1
        (fun u hu => hx u (by simp [hu])) h3

/-- The chain is determined by the state. -/
theorem TimerChain_unique {s : State} :
    ∀ (xs ys : List Nat) (slot : TimerSlot),
      TimerChain s slot xs → TimerChain s slot ys → xs = ys
  | [], [], _, _, _ => rfl
  | [], _ :: _, _, h1, h2 => by
      simp only [TimerChain] at h1 h2; rw [h1] at h2; exact absurd h2.1 (by simp)
  | _ :: _, [], _, h1, h2 => by
      simp only [TimerChain] at h1 h2; rw [h2] at h1; exact absurd h1.1 (by simp)
  | x :: xs, y :: ys, slot, h1, h2 => by
      obtain ⟨a1, _, a3⟩ := h1
      obtain ⟨b1, _, b3⟩ := h2
      have hxy : x = y := by rw [a1] at b1; exact Option.some.inj b1
      subst hxy
      rw [TimerChain_unique xs ys _ a3 b3]

theorem TimerChain_suffix {s : State} :
    ∀ (pre : List Nat) (slot : TimerSlot) (t : Nat) (post : List Nat),
      TimerChain s slot (pre ++ t :: post) → TimerChain s (.next_of t) post
  | [], _, _, _, h => h.2.2
  | x :: pre, _, t, post, h => TimerChain_suffix pre (.next_of x) t post h.2.2

theorem TimerChain_not_mem_tail {s : State} {slot : TimerSlot} {x : Nat} {xs : List Nat}
    (h : TimerChain s slot (x :: xs)) : x ∉ xs := by
  intro hx
  obtain ⟨pre, post, rfl⟩ := List.append_of_mem hx
  have h1 : TimerChain s (.next_of x) (pre ++ x :: post) := h.2.2
  have h2 : TimerChain s (.next_of x) post := TimerChain_suffix pre _ x post h1
  have := TimerChain_unique _ _ _ h1 h2
  have hl := congrArg List.length this
  simp at hl
  omega

/-- A chain that ends in `NULL` visits no timer twice. -/
theorem TimerChain_nodup {s : State} :
    ∀ (xs : List Nat) (slot : TimerSlot), TimerChain s slot xs → xs.Nodup
  | [], _, _ => List.nodup_nil
  | _ :: xs, _, h =>
      List.nodup_cons.mpr ⟨TimerChain_not_mem_tail h, TimerChain_nodup xs _ h.2.2⟩

/-! ## Dispatch of removed records -/

/-- C1: for a record whose `removed` flag is set, each of the four dispatch
entry points returns without calling into the runtime: the result does not
depend on the runtime at all (it is the input state, or the input state after
the host has been asked to unregister the record), and the trace of calls is
the one before. -/
theorem removed_record_not_dispatched (py : Runtime) (s : State) (cb seconds cd : Nat)
    (signal : String) (hrem : (s.callbacks cb).base.removed = true) :
    timer_call py cb s = s ∧
    obs_python_tick_callback py cb seconds s = obs_remove_tick_callback cb s ∧
    calldata_signal_callback py cb cd s = signal_handler_remove_current s ∧
    calldata_signal_callback_global py cb signal cd s = signal_handler_remove_current s ∧
    (timer_call py cb s).calls = s.calls ∧
    (obs_python_tick_callback py cb seconds s).calls = s.calls ∧
    (calldata_signal_callback py cb cd s).calls = s.calls ∧
    (calldata_signal_callback_global py cb signal cd s).calls = s.calls := by
  simp [timer_call, obs_python_tick_callback, calldata_signal_callback,
    calldata_signal_callback_global, hrem, obs_remove_tick_callback,
    signal_handler_remove_current]

/-- Witness for C1 on `removed_record_state`. -/
theorem removed_record_not_dispatched_witness :
    (removed_record_state.callbacks 1).base.removed = true ∧
    (timer_call py_remove_current 1 removed_record_state).calls = [] ∧
    (obs_python_tick_callback py_remove_current 1 5 removed_record_state).tick_callbacks
      = [] :=
  ⟨rfl,
   (removed_record_not_dispatched py_remove_current removed_record_state 1 5 0 "s"
      rfl).2.2.2.2.1,
   by rw [(removed_record_not_dispatched py_remove_current removed_record_state 1 5 0 "s"
      rfl).2.1]; rfl⟩

theorem slot_after_cases (slot : TimerSlot) :
    ∀ pre : List Nat, slot_after slot pre = slot ∨ ∃ u ∈ pre, slot_after slot pre = .next_of u
  | [] => Or.inl rfl
  | x :: pre => by
      rcases slot_after_cases (.next_of x) pre with h | ⟨u, hu, h⟩
      · exact Or.inr ⟨x, by simp, by simpa [slot_after] using h⟩
      · exact Or.inr ⟨u, by simp [hu], by simpa [slot_after] using h⟩

theorem TimerChain_at_mem {s : State} :
    ∀ (pre : List Nat) (slot : TimerSlot) (t : Nat) (post : List Nat),
      TimerChain s slot (pre ++ t :: post) →
      load_timer_slot s (slot_after slot pre) = some t ∧
      (s.timers t).p_prev_next = some (slot_after slot pre) ∧
      (s.timers t).next = post.head?
  | [], _, _, post, h => by
      refine ⟨h.1, h.2.1, ?_⟩
      cases post with
      | nil => exact h.2.2
      | cons n post => exact h.2.2.1
  | x :: pre, _, t, post, h => TimerChain_at_mem pre (.next_of x) t post h.2.2

theorem python_obs_timer_remove_eq (t : Nat) (s : State) :
    python_obs_timer_remove t s =
      store_timer_slot (s.timers t).p_prev_next (s.timers t).next
        (match (s.timers t).next with
          | some n => set_timer n
              { s.timers n with p_prev_next := (s.timers t).p_prev_next } s
          | none => s) := by
  unfold python_obs_timer_remove
  cases hn : (s.timers t).next with
  | none => simp [hn]
  | some n =>
      by_cases h : t = n
      · subst h; simp [hn]
      · simp [hn, Function.update_noteq h]

theorem remove_p_prev_next (t u : Nat) (s : State) (h : (s.timers t).next ≠ some u) :
    ((python_obs_timer_remove t s).timers u).p_prev_next = (s.timers u).p_prev_next := by
  rw [python_obs_timer_remove_eq, store_p_prev_next]
  cases hn : (s.timers t).next with
  | none => rfl
  | some n =>
      have hne : u ≠ n := fun e => h (by rw [hn, e])
      simp [Function.update_noteq hne]

theorem remove_load_other (t : Nat) (slot : TimerSlot) (s : State)
    (h : (s.timers t).p_prev_next ≠ some slot) :
    load_timer_slot (python_obs_timer_remove t s) slot = load_timer_slot s slot := by
  rw [python_obs_timer_remove_eq]
  have key : ∀ (v : Option Nat) (s1 : State),
      load_timer_slot s1 slot = load_timer_slot s slot →
      load_timer_slot (store_timer_slot (s.timers t).p_prev_next v s1) slot
        = load_timer_slot s slot := by
    intro v s1 h1
    cases hp : (s.timers t).p_prev_next with
    | none => simpa [store_timer_slot] using h1
    | some sl =>
        rw [load_store_other _ _ _ _ (fun e => h (by rw [hp, e])), h1]
  cases hn : (s.timers t).next with
  | none => exact key _ s rfl
  | some n => exact key _ _ (load_set_timer _ _ _ _ rfl)

theorem remove_last_ts (t u : Nat) (s : State) :
    ((python_obs_timer_remove t s).timers u).last_ts = (s.timers u).last_ts ∧
    ((python_obs_timer_remove t s).timers u).interval = (s.timers u).interval := by
  rw [python_obs_timer_remove_eq]
  have key : ∀ (sl : Option TimerSlot) (v : Option Nat) (s1 : State),
      ((store_timer_slot sl v s1).timers u).last_ts = (s1.timers u).last_ts ∧
      ((store_timer_slot sl v s1).timers u).interval = (s1.timers u).interval := by
    intro sl v s1
    rcases sl with _ | sl
    · exact ⟨rfl, rfl⟩
    · cases sl with
      | first_timer => exact ⟨rfl, rfl⟩
      | next_of p =>
          by_cases hp : u = p
          · subst hp; simp [store_timer_slot]
          · simp [store_timer_slot, Function.update_noteq hp]
  cases hn : (s.timers t).next with
  | none => exact key _ _ s
  | some n =>
      refine ⟨(key _ _ _).1.trans ?_, (key _ _ _).2.trans ?_⟩
      · by_cases hu : u = n
        · subst hu; simp
        · simp [Function.update_noteq hu]
      · by_cases hu : u = n
        · subst hu; simp
        · simp [Function.update_noteq hu]

theorem remove_other_fields (t : Nat) (s : State) :
    (python_obs_timer_remove t s).callbacks = s.callbacks ∧
    (python_obs_timer_remove t s).calls = s.calls ∧
    (python_obs_timer_remove t s).next_alloc = s.next_alloc ∧
    (python_obs_timer_remove t s).scripts = s.scripts ∧
    (python_obs_timer_remove t s).first_tick_script = s.first_tick_script := by
  rw [python_obs_timer_remove_eq]
  have key : ∀ (sl : Option TimerSlot) (v : Option Nat) (s1 : State),
      (store_timer_slot sl v s1).callbacks = s1.callbacks ∧
      (store_timer_slot sl v s1).calls = s1.calls ∧
      (store_timer_slot sl v s1).next_alloc = s1.next_alloc ∧
      (store_timer_slot sl v s1).scripts = s1.scripts ∧
      (store_timer_slot sl v s1).first_tick_script = s1.first_tick_script := by
    intro sl v s1
    rcases sl with _ | sl
    · exact ⟨rfl, rfl, rfl, rfl, rfl⟩
    · cases sl <;> exact ⟨rfl, rfl, rfl, rfl, rfl⟩
  cases hn : (s.timers t).next with
  | none => exact key _ _ s
  | some n => exact key _ _ _

/-- Unlinking a timer of a well-formed chain leaves the chain of the other
timers, in the same order. -/
theorem TimerChain_remove {s : State} :
    ∀ (pre : List Nat) (slot : TimerSlot) (t : Nat) (post : List Nat),
      TimerChain s slot (pre ++ t :: post) →
      (∀ u ∈ pre ++ t :: post, slot ≠ .next_of u) →
      TimerChain (python_obs_timer_remove t s) slot (pre ++ post)
  | [], slot, t, post, h, hs => by
      have hnd := TimerChain_nodup _ _ h
      obtain ⟨h1, h2, h3⟩ := h
      rw [List.nil_append] at hs ⊢
      rw [python_obs_timer_remove_eq, h2]
      cases post with
      | nil =>
          have hn : (s.timers t).next = none := h3
          simp only [hn, TimerChain]
          exact load_store_same _ _ _
      | cons n post =>
          obtain ⟨g1, g2, g3⟩ := h3
          have hn : (s.timers t).next = some n := g1
          simp only [hn]
          have hnt : n ≠ t := fun e => by simp [e] at hnd
          refine ⟨load_store_same _ _ _, ?_, ?_⟩
          · rw [store_p_prev_next]; simp
          · have hnp : n ∉ post := (List.nodup_cons.mp (List.nodup_cons.mp hnd).2).1
            refine TimerChain_congr post (.next_of n) ?_ ?_ g3
            · show ((store_timer_slot _ _ _).timers n).next = (s.timers n).next
              rw [store_next_other _ _ _ _ (hs n (by simp))]; simp
            · intro u hu
              have hun : u ≠ n := fun e => hnp (e ▸ hu)
              refine ⟨?_, ?_⟩
              · rw [store_next_other _ _ _ _ (hs u (by simp [hu]))]
                simp [Function.update_noteq hun]
              · rw [store_p_prev_next]; simp [Function.update_noteq hun]
  | x :: pre, slot, t, post, h, hs => by
      have hnd := TimerChain_nodup _ _ h
      have hx : x ∉ pre ++ t :: post := (List.nodup_cons.mp hnd).1
      obtain ⟨h1, h2, h3⟩ := h
      have ht := TimerChain_at_mem pre (.next_of x) t post h3
      have ih := TimerChain_remove pre (.next_of x) t post h3
        (fun u hu e => hx (by cases e; exact hu))
      have hslot : (s.timers t).p_prev_next ≠ some slot := by
        rw [ht.2.1]
        intro e
        have e2 := Option.some.inj e
        rcases slot_after_cases (.next_of x) pre with h4 | ⟨u, hu, h4⟩
        · exact hs x (by simp) (by rw [← e2, h4])
        · exact hs u (by simp [hu]) (by rw [← e2, h4])
      refine ⟨by rw [remove_load_other _ _ _ hslot, h1], ?_, ih⟩
      rw [remove_p_prev_next _ _ _ ?_, h2]
      rw [ht.2.2]
      intro e
      cases post with
      | nil => simp at e
      | cons n post =>
          simp at e
          exact hx (by simp [e])

/-! ## One visit of the timer sweep -/

theorem timer_call_calls (py : Runtime) (cb : Nat) (s : State) :
    (timer_call py cb s).calls =
      s.calls ++ (if (s.callbacks cb).base.removed then []
        else [⟨.timer cb, (s.callbacks cb).func, []⟩]) := by
  unfold timer_call
  by_cases h : (s.callbacks cb).base.removed = true
  · simp [h]
  · simp [h, PyObject_CallObject, lock_python, unlock_python]

theorem timer_call_frame {py : Runtime} {xs : List Nat} (hf : TimerFrame py xs)
    (cb : Nat) (s : State) (hal : Allocated xs s) :
    (timer_call py cb s).first_timer = s.first_timer ∧
    (∀ u ∈ xs, (timer_call py cb s).timers u = s.timers u) ∧
    Allocated xs (timer_call py cb s) := by
  unfold timer_call
  by_cases h : (s.callbacks cb).base.removed = true
  · simp [h]; exact hal
  · simp only [h, Bool.false_eq_true, if_false]
    have := hf ⟨.timer cb, (s.callbacks cb).func, []⟩
      { lock_python s with
        cur_python_script := python_obs_callback_script cb s,
        cur_python_cb := some cb } hal
    exact this

theorem timer_visit_removed (py : Runtime) (ts t : Nat) (s : State)
    (h : timer_removed s t = true) :
    timer_visit py ts t s = python_obs_timer_remove t s := by
  unfold timer_removed at h
  simp [timer_visit, h]

theorem timer_visit_calls (py : Runtime) (ts t : Nat) (s : State) :
    (timer_visit py ts t s).calls =
      s.calls ++ (if timer_removed s t = false ∧ timer_due ts s t = true
        then [⟨.timer t, (s.callbacks t).func, []⟩] else []) := by
  unfold timer_visit timer_removed timer_due python_obs_timer_cb
  by_cases h : (s.callbacks t).base.removed = true
  · simp [h, (remove_other_fields t s).2.1]
  · by_cases hd : (s.timers t).interval ≤ u64_sub ts (s.timers t).last_ts
    · simp [h, hd, unlock_python, timer_call_calls, lock_python]
    · simp [h, hd]

theorem timer_visit_frame {py : Runtime} {xs : List Nat} (hf : TimerFrame py xs)
    (ts t : Nat) (s : State) (hal : Allocated xs s) (h : timer_removed s t = false) :
    (timer_visit py ts t s).first_timer = s.first_timer ∧
    (∀ u ∈ xs, u ≠ t → (timer_visit py ts t s).timers u = s.timers u) ∧
    (t ∈ xs →
      ((timer_visit py ts t s).timers t).next = (s.timers t).next ∧
      ((timer_visit py ts t s).timers t).p_prev_next = (s.timers t).p_prev_next ∧
      ((timer_visit py ts t s).timers t).interval = (s.timers t).interval ∧
      ((timer_visit py ts t s).timers t).last_ts =
        (if timer_due ts s t then u64_add (s.timers t).last_ts (s.timers t).interval
         else (s.timers t).last_ts)) := by
  unfold timer_removed python_obs_timer_cb at h
  unfold timer_visit timer_due python_obs_timer_cb
  by_cases hd : (s.timers t).interval ≤ u64_sub ts (s.timers t).last_ts
  · have hc := timer_call_frame hf t (lock_python s) hal
    simp only [h, hd, Bool.false_eq_true, if_false, if_true, decide_True]
    refine ⟨hc.1, ?_, ?_⟩
    · intro u hu hut
      simp only [set_timer_timers, Function.update_noteq hut]
      exact hc.2.1 u hu
    · intro ht
      have h2 : (timer_call py t (lock_python s)).timers t = s.timers t := hc.2.1 t ht
      simp only [set_timer_timers, Function.update_same]
      have h3 : (unlock_python (timer_call py t (lock_python s))).timers t = s.timers t := h2
      rw [h3]
      exact ⟨rfl, rfl, rfl, rfl⟩
  · simp [h, hd]

theorem timer_visit_allocated {py : Runtime} {xs : List Nat} (hf : TimerFrame py xs)
    (ts t : Nat) (s : State) (hal : Allocated xs s) :
    Allocated xs (timer_visit py ts t s) := by
  unfold timer_visit python_obs_timer_cb
  by_cases h : (s.callbacks t).base.removed = true
  · simp only [h, if_true]
    intro u hu
    rw [(remove_other_fields t s).2.2.1]
    exact hal u hu
  · by_cases hd : (s.timers t).interval ≤ u64_sub ts (s.timers t).last_ts
    · simp only [h, hd, Bool.false_eq_true, if_false, if_true]
      exact (timer_call_frame hf t (lock_python s) hal).2.2
    · simp only [h, hd, Bool.false_eq_true, if_false]
      exact hal

/-- A visit leaves `last_ts` and `interval` of every other timer as they
were. -/
theorem timer_visit_other {py : Runtime} {xs : List Nat} (hf : TimerFrame py xs)
    (ts t u : Nat) (s : State) (hal : Allocated xs s) (hu : u ∈ xs) (hut : u ≠ t) :
    ((timer_visit py ts t s).timers u).last_ts = (s.timers u).last_ts ∧
    ((timer_visit py ts t s).timers u).interval = (s.timers u).interval := by
  cases h : timer_removed s t with
  | true => rw [timer_visit_removed py ts t s h]; exact remove_last_ts t u s
  | false => rw [(timer_visit_frame hf ts t s hal h).2.1 u hu hut]; exact ⟨rfl, rfl⟩

/-- A visit keeps the chain well formed: a timer marked removed is unlinked,
any other timer stays where it is. -/
theorem timer_visit_chain {py : Runtime} {xs : List Nat} (hf : TimerFrame py xs)
    (ts t : Nat) (s : State) (hal : Allocated xs s) (pre post : List Nat)
    (hsub : ∀ u ∈ pre ++ t :: post, u ∈ xs) (hc : TimerList s (pre ++ t :: post)) :
    TimerList (timer_visit py ts t s)
      (pre ++ (if timer_removed s t then [] else [t]) ++ post) := by
  cases h : timer_removed s t with
  | true =>
      rw [timer_visit_removed py ts t s h]
      simpa using TimerChain_remove pre .first_timer t post hc (fun _ _ e => by cases e)
  | false =>
      have hv := timer_visit_frame hf ts t s hal h
      have ht : t ∈ xs := hsub t (by simp)
      simp only [Bool.false_eq_true, if_false, List.append_assoc, List.singleton_append]
      refine TimerChain_congr _ _ hv.1 ?_ hc
      intro u hu
      by_cases hut : u = t
      · subst hut
        exact ⟨(hv.2.2 ht).1, (hv.2.2 ht).2.1⟩
      · rw [hv.2.1 u (hsub u hu) hut]
        exact ⟨rfl, rfl⟩

/-! ## The whole sweep -/

theorem sweep_list_cons (py : Runtime) (ts t : Nat) (xs : List Nat) (s : State) :
    sweep_list py ts (t :: xs) s = sweep_list py ts xs (timer_visit py ts t s) := rfl

theorem sweep_list_append (py : Runtime) (ts : Nat) (xs ys : List Nat) (s : State) :
    sweep_list py ts (xs ++ ys) s = sweep_list py ts ys (sweep_list py ts xs s) := by
  simp [sweep_list, List.foldl_append]

theorem reach_timer_head (py : Runtime) (ts t : Nat) (xs : List Nat) (s : State) :
    reach_timer py ts (t :: xs) s t = s := by
  simp [reach_timer, sweep_list, List.takeWhile]

theorem reach_timer_tail (py : Runtime) (ts t u : Nat) (xs : List Nat) (s : State)
    (h : t ≠ u) :
    reach_timer py ts (t :: xs) s u = reach_timer py ts xs (timer_visit py ts t s) u := by
  simp [reach_timer, sweep_list, List.takeWhile, h]

theorem reach_timer_split (py : Runtime) (ts t : Nat) (s : State) :
    ∀ (pre post : List Nat), t ∉ pre →
      reach_timer py ts (pre ++ t :: post) s t = sweep_list py ts pre s
  | [], post, _ => reach_timer_head py ts t post s
  | x :: pre, post, h => by
      have hx : x ≠ t := fun e => h (by simp [e])
      rw [List.cons_append, reach_timer_tail py ts x t _ s hx,
        reach_timer_split py ts t _ pre post (fun hm => h (by simp [hm]))]
      rfl

theorem sweep_list_allocated {py : Runtime} {xs : List Nat} (hf : TimerFrame py xs)
    (ts : Nat) : ∀ (ys : List Nat) (s : State), Allocated xs s →
      Allocated xs (sweep_list py ts ys s)
  | [], _, h => h
  | t :: ys, s, h =>
      sweep_list_allocated hf ts ys _ (timer_visit_allocated hf ts t s h)

/-- The pointer loop with enough fuel visits exactly the timers of the chain,
in chain order, and leaves linked those that were not marked removed when
reached. -/
theorem timer_loop_spec {py : Runtime} {xs : List Nat} (hf : TimerFrame py xs) (ts : Nat) :
    ∀ (rest pre : List Nat) (s : State), TimerList s (pre ++ rest) →
      (∀ u ∈ pre ++ rest, u ∈ xs) → Allocated xs s →
      TimerList (sweep_list py ts rest s) (pre ++ sweep_kept py ts rest s) ∧
      ∀ fuel, rest.length ≤ fuel →
        timer_loop py ts fuel rest.head? s = sweep_list py ts rest s
  | [], pre, s, hc, _, _ => by
      refine ⟨by simpa [sweep_list, sweep_kept] using hc, ?_⟩
      intro fuel _
      cases fuel <;> rfl
  | t :: rest, pre, s, hc, hsub, hal => by
      have hv := timer_visit_chain hf ts t s hal pre rest hsub hc
      have hal2 := timer_visit_allocated hf ts t s hal
      have hsub2 : ∀ u ∈ (pre ++ if timer_removed s t then [] else [t]) ++ rest, u ∈ xs := by
        intro u hu
        apply hsub
        simp only [List.mem_append, List.mem_cons] at hu ⊢
        rcases hu with (hu | hu) | hu
        · exact Or.inl hu
        · split at hu <;> simp_all
        · exact Or.inr (Or.inr hu)
      have ih := timer_loop_spec hf ts rest _ _ hv hsub2 hal2
      refine ⟨?_, ?_⟩
      · simpa [sweep_list_cons, sweep_kept, List.append_assoc] using ih.1
      · intro fuel hfuel
        cases fuel with
        | zero => simp at hfuel
        | succ fuel =>
            have hnext : (s.timers t).next = rest.head? :=
              (TimerChain_at_mem pre .first_timer t rest hc).2.2
            simp only [List.head?_cons, timer_loop, hnext]
            exact ih.2 fuel (by simpa using hfuel)

theorem sweep_kept_eq_filter (py : Runtime) (ts : Nat) :
    ∀ (xs : List Nat) (s : State), xs.Nodup →
      sweep_kept py ts xs s =
        xs.filter (fun t => !timer_removed (reach_timer py ts xs s t) t)
  | [], _, _ => rfl
  | t :: xs, s, hnd => by
      obtain ⟨ht, hnd2⟩ := List.nodup_cons.mp hnd
      have ih := sweep_kept_eq_filter py ts xs (timer_visit py ts t s) hnd2
      have hcongr : xs.filter (fun u => !timer_removed (reach_timer py ts (t :: xs) s u) u)
          = xs.filter
              (fun u => !timer_removed (reach_timer py ts xs (timer_visit py ts t s) u) u) := by
        apply List.filter_congr
        intro u hu
        have htu : t ≠ u := fun e => ht (e ▸ hu)
        rw [reach_timer_tail py ts t u xs s htu]
      rw [sweep_kept, ih, List.filter_cons, reach_timer_head, hcongr]
      cases timer_removed s t <;> simp

theorem timer_fires_visit (py : Runtime) (ts t u : Nat) (s : State) :
    timer_fires u (timer_visit py ts t s) =
      timer_fires u s +
        (if u = t ∧ timer_removed s t = false ∧ timer_due ts s t = true then 1 else 0) := by
  unfold timer_fires
  rw [timer_visit_calls, List.countP_append]
  by_cases h : timer_removed s t = false ∧ timer_due ts s t = true
  · by_cases hu : u = t
    · subst hu; simp [h, List.countP_cons]
    · have : t ≠ u := fun e => hu e.symm
      simp [h, hu, List.countP_cons, this]
  · have : ¬ (u = t ∧ timer_removed s t = false ∧ timer_due ts s t = true) :=
      fun hh => h hh.2
    simp [h, this]

theorem timer_fires_sweep_not_mem (py : Runtime) (ts u : Nat) :
    ∀ (ys : List Nat) (s : State), u ∉ ys →
      timer_fires u (sweep_list py ts ys s) = timer_fires u s
  | [], _, _ => rfl
  | t :: ys, s, h => by
      have hut : u ≠ t := fun e => h (by simp [e])
      rw [sweep_list_cons, timer_fires_sweep_not_mem py ts u ys _ (fun hm => h (by simp [hm])),
        timer_fires_visit]
      simp [hut]

theorem sweep_other_fields {py : Runtime} {xs : List Nat} (hf : TimerFrame py xs)
    (ts u : Nat) (hu : u ∈ xs) :
    ∀ (ys : List Nat) (s : State), Allocated xs s → u ∉ ys →
      ((sweep_list py ts ys s).timers u).last_ts = (s.timers u).last_ts ∧
      ((sweep_list py ts ys s).timers u).interval = (s.timers u).interval
  | [], _, _, _ => ⟨rfl, rfl⟩
  | t :: ys, s, hal, h => by
      have hut : u ≠ t := fun e => h (by simp [e])
      have ih := sweep_other_fields hf ts u hu ys (timer_visit py ts t s)
        (timer_visit_allocated hf ts t s hal) (fun hm => h (by simp [hm]))
      have hv := timer_visit_other hf ts t u s hal hu hut
      rw [sweep_list_cons]
      exact ⟨ih.1.trans hv.1, ih.2.trans hv.2⟩

/-! ## The removal hooks leave the timer list alone -/

theorem remove_python_obs_callback_timers (cb : Nat) (s : State) :
    (remove_python_obs_callback cb s).first_timer = s.first_timer ∧
    (remove_python_obs_callback cb s).timers = s.timers ∧
    (remove_python_obs_callback cb s).next_alloc = s.next_alloc :=
  ⟨rfl, rfl, rfl⟩

theorem timer_remove_cases (fuel : Nat) (args : Option PyObject) (s : State) :
    timer_remove fuel args s = s ∨
      ∃ cb, timer_remove fuel args s = remove_python_obs_callback cb s := by
  unfold timer_remove
  rcases args with _ | f
  · exact Or.inl rfl
  · rcases hsc : s.cur_python_script with _ | sc
    · exact Or.inl rfl
    · rcases hfind : find_python_obs_callback fuel sc f s with _ | cb
      · left; simp only [hfind]
      · right; exact ⟨cb, by simp only [hfind]⟩

theorem timer_remove_timers (fuel : Nat) (args : Option PyObject) (s : State) :
    (timer_remove fuel args s).first_timer = s.first_timer ∧
    (timer_remove fuel args s).timers = s.timers ∧
    (timer_remove fuel args s).next_alloc = s.next_alloc := by
  rcases timer_remove_cases fuel args s with h | ⟨cb, h⟩
  · rw [h]; exact ⟨rfl, rfl, rfl⟩
  · rw [h]; exact remove_python_obs_callback_timers cb s

theorem remove_current_callback_timers (s : State) :
    (remove_current_callback s).first_timer = s.first_timer ∧
    (remove_current_callback s).timers = s.timers ∧
    (remove_current_callback s).next_alloc = s.next_alloc := by
  unfold remove_current_callback
  cases s.cur_python_cb with
  | none => exact ⟨rfl, rfl, rfl⟩
  | some cb => exact remove_python_obs_callback_timers cb s

theorem remove_python_obs_callback_removed (cb t : Nat) (s : State)
    (h : (s.callbacks t).base.removed = true) :
    ((remove_python_obs_callback cb s).callbacks t).base.removed = true := by
  unfold remove_python_obs_callback remove_script_callback set_callback
  by_cases htc : t = cb
  · subst htc; simp
  · by_cases hn : (s.callbacks t).base.next = some t
    · simp [Function.update_noteq htc, htc, h]
      split <;> simp [h]
    · simp [Function.update_noteq htc, htc, h]
      split <;> simp [h]

theorem timer_remove_removed (fuel : Nat) (args : Option PyObject) (t : Nat) (s : State)
    (h : (s.callbacks t).base.removed = true) :
    ((timer_remove fuel args s).callbacks t).base.removed = true := by
  rcases timer_remove_cases fuel args s with h2 | ⟨cb, h2⟩
  · rw [h2]; exact h
  · rw [h2]; exact remove_python_obs_callback_removed cb t s h

theorem remove_current_callback_removed (t : Nat) (s : State)
    (h : (s.callbacks t).base.removed = true) :
    ((remove_current_callback s).callbacks t).base.removed = true := by
  unfold remove_current_callback
  cases s.cur_python_cb with
  | none => exact h
  | some cb => exact remove_python_obs_callback_removed cb t s h

theorem py_removing_frame (xs : List Nat) : TimerFrame py_removing xs := by
  intro c s hal
  unfold py_removing
  split
  · have h1 := timer_remove_timers 10 (some (fn 12)) s
    have h2 := remove_current_callback_timers (timer_remove 10 (some (fn 12)) s)
    refine ⟨h2.1.trans h1.1, fun t _ => by rw [h2.2.1, h1.2.1], ?_⟩
    intro t ht
    rw [h2.2.2, h1.2.2]
    exact hal t ht
  · exact ⟨rfl, fun _ _ => rfl, hal⟩

theorem py_removing_stable (xs : List Nat) : RemovedStable py_removing xs := by
  intro c s _ t _ h
  unfold py_removing
  split
  · exact remove_current_callback_removed t _ (timer_remove_removed 10 _ t s h)
  · exact h

theorem three_timers_list : TimerList three_timers [3, 2, 1] := by
  refine ⟨rfl, rfl, rfl, rfl, rfl, rfl, rfl⟩

theorem three_timers_allocated : Allocated [3, 2, 1] three_timers := by
  intro t ht
  simp at ht
  rcases ht with rfl | rfl | rfl <;> decide

/-! ## Properties of callback records carried through a sweep -/

theorem timer_call_callbacks_inv {py : Runtime} {xs : List Nat} (u : Nat)
    (Q : python_obs_callback → Prop)
    (hQ : ∀ c s2, Allocated xs s2 → Q (s2.callbacks u) → Q ((py c s2).callbacks u))
    (cb : Nat) (s : State) (hal : Allocated xs s) (h : Q (s.callbacks u)) :
    Q ((timer_call py cb s).callbacks u) := by
  unfold timer_call
  by_cases hr : (s.callbacks cb).base.removed = true
  · simpa [hr] using h
  · simp only [hr, Bool.false_eq_true, if_false]
    exact hQ ⟨.timer cb, (s.callbacks cb).func, []⟩
      { lock_python s with
        cur_python_script := python_obs_callback_script cb s,
        cur_python_cb := some cb } hal h

theorem timer_visit_callbacks_inv {py : Runtime} {xs : List Nat} (u : Nat)
    (Q : python_obs_callback → Prop)
    (hQ : ∀ c s2, Allocated xs s2 → Q (s2.callbacks u) → Q ((py c s2).callbacks u))
    (ts t : Nat) (s : State) (hal : Allocated xs s) (h : Q (s.callbacks u)) :
    Q ((timer_visit py ts t s).callbacks u) := by
  unfold timer_visit python_obs_timer_cb
  by_cases hr : (s.callbacks t).base.removed = true
  · simp only [hr, if_true]
    rw [(remove_other_fields t s).1]
    exact h
  · by_cases hd : (s.timers t).interval ≤ u64_sub ts (s.timers t).last_ts
    · simp only [hr, hd, Bool.false_eq_true, if_false, if_true]
      exact timer_call_callbacks_inv u Q hQ t (lock_python s) hal h
    · simpa [hr, hd] using h

theorem sweep_list_callbacks_inv {py : Runtime} {xs : List Nat} (hf : TimerFrame py xs)
    (u : Nat) (Q : python_obs_callback → Prop)
    (hQ : ∀ c s2, Allocated xs s2 → Q (s2.callbacks u) → Q ((py c s2).callbacks u))
    (ts : Nat) : ∀ (ys : List Nat) (s : State), Allocated xs s → Q (s.callbacks u) →
      Q ((sweep_list py ts ys s).callbacks u)
  | [], _, _, h => h
  | t :: ys, s, hal, h =>
      sweep_list_callbacks_inv hf u Q hQ ts ys _ (timer_visit_allocated hf ts t s hal)
        (timer_visit_callbacks_inv u Q hQ ts t s hal h)

/-! ## The sweep of `python_tick` -/

theorem python_tick_timers_eq {py : Runtime} {xs : List Nat} (hf : TimerFrame py xs)
    (fuel ts : Nat) (s : State) (ys : List Nat) (hsub : ∀ u ∈ ys, u ∈ xs)
    (hwf : TimerList s ys) (hal : Allocated xs s) (hfuel : ys.length ≤ fuel) :
    python_tick_timers py fuel ts s =
      unlock_timer_mutex (sweep_list py ts ys (lock_timer_mutex s)) ∧
    TimerList (python_tick_timers py fuel ts s)
      (ys.filter (fun t => !timer_removed (reach_timer py ts ys (lock_timer_mutex s) t) t)) := by
  have hwf2 : TimerList (lock_timer_mutex s) ([] ++ ys) :=
    TimerChain_congr (s := s) _ _ rfl (fun _ _ => ⟨rfl, rfl⟩) hwf
  have h := timer_loop_spec hf ts ys [] (lock_timer_mutex s) hwf2
    (fun u hu => hsub u (by simpa using hu)) hal
  have hloop : timer_loop py ts fuel (lock_timer_mutex s).first_timer (lock_timer_mutex s)
      = sweep_list py ts ys (lock_timer_mutex s) := by
    have hh : (lock_timer_mutex s).first_timer = ys.head? := by
      cases ys with
      | nil => exact hwf
      | cons x ys => exact hwf.1
    rw [hh]
    exact h.2 fuel hfuel
  have heq : python_tick_timers py fuel ts s =
      unlock_timer_mutex (sweep_list py ts ys (lock_timer_mutex s)) := by
    unfold python_tick_timers
    simp only [hloop]
  refine ⟨heq, ?_⟩
  rw [heq, ← sweep_kept_eq_filter py ts ys _ (TimerChain_nodup _ _ hwf)]
  have := h.1
  rw [List.nil_append] at this
  exact TimerChain_congr (s := sweep_list py ts ys (lock_timer_mutex s)) _ _ rfl
    (fun _ _ => ⟨rfl, rfl⟩) this

theorem timer_fires_sweep (py : Runtime) (ts t : Nat) :
    ∀ (xs : List Nat) (s : State), xs.Nodup → t ∈ xs →
      timer_fires t (sweep_list py ts xs s) = timer_fires t s +
        (if timer_removed (reach_timer py ts xs s t) t = false ∧
            timer_due ts (reach_timer py ts xs s t) t = true then 1 else 0)
  | [], _, _, h => by simp at h
  | x :: xs, s, hnd, h => by
      obtain ⟨hx, hnd2⟩ := List.nodup_cons.mp hnd
      by_cases hxt : x = t
      · subst hxt
        rw [sweep_list_cons, timer_fires_sweep_not_mem py ts x xs _ hx, timer_fires_visit,
          reach_timer_head]
        simp
      · have ht : t ∈ xs := by
          rcases List.mem_cons.mp h with e | e
          · exact absurd e.symm hxt
          · exact e
        rw [sweep_list_cons, timer_fires_sweep py ts t xs _ hnd2 ht, timer_fires_visit,
          reach_timer_tail py ts x t xs s hxt]
        have : ¬ (t = x ∧ timer_removed s x = false ∧ timer_due ts s x = true) :=
          fun hh => hxt hh.1.symm
        simp [this]

theorem sweep_last_ts {py : Runtime} {xs : List Nat} (hf : TimerFrame py xs)
    (ts t : Nat) (ht : t ∈ xs) (pre post : List Nat) (s : State) (hal : Allocated xs s)
    (hnd : (pre ++ t :: post).Nodup)
    (hnr : timer_removed (sweep_list py ts pre s) t = false) :
    ((sweep_list py ts (pre ++ t :: post) s).timers t).last_ts =
      (if timer_due ts s t then u64_add (s.timers t).last_ts (s.timers t).interval
       else (s.timers t).last_ts) ∧
    timer_due ts (sweep_list py ts pre s) t = timer_due ts s t ∧
    ((sweep_list py ts (pre ++ t :: post) s).timers t).interval = (s.timers t).interval := by
  have htpre : t ∉ pre := fun hm => by
    have := List.nodup_append.mp hnd
    exact this.2.2 hm (List.mem_cons_self t post)
  have htpost : t ∉ post := by
    have := (List.nodup_append.mp hnd).2.1
    exact (List.nodup_cons.mp this).1
  have hpre := sweep_other_fields hf ts t ht pre s hal htpre
  have halpre := sweep_list_allocated hf ts pre s hal
  have hv := (timer_visit_frame hf ts t _ halpre hnr).2.2 ht
  have hpost := sweep_other_fields hf ts t ht post _
    (timer_visit_allocated hf ts t _ halpre) htpost
  have hdue : timer_due ts (sweep_list py ts pre s) t = timer_due ts s t := by
    unfold timer_due
    rw [hpre.1, hpre.2]
  refine ⟨?_, hdue, ?_⟩
  · rw [sweep_list_append, sweep_list_cons, hpost.1, hv.2.2.2, hdue, hpre.1, hpre.2]
  · rw [sweep_list_append, sweep_list_cons, hpost.2, hv.2.2.1, hpre.2]

theorem u64_sub_of_le (a b : Nat) (hb : b ≤ a) (ha : a < UINT64) : u64_sub a b = a - b := by
  unfold u64_sub UINT64 at *
  norm_num at *
  omega

theorem u64_add_of_lt (a b : Nat) (h : a + b < UINT64) : u64_add a b = a + b := by
  unfold u64_add
  exact Nat.mod_eq_of_lt h

theorem timer_due_iff (ts : Nat) (s : State) (t : Nat) :
    timer_due ts s t = true ↔ (s.timers t).interval ≤ u64_sub ts (s.timers t).last_ts := by
  simp [timer_due]

/-- The sweep of `python_tick`, for one timer of a well-formed list that is not
marked removed when the sweep reaches it. -/
theorem python_tick_timers_timer {py : Runtime} {xs : List Nat} (hf : TimerFrame py xs)
    (fuel ts : Nat) (s : State) (t : Nat) (ys : List Nat) (hsub : ∀ u ∈ ys, u ∈ xs)
    (hwf : TimerList s ys) (hal : Allocated xs s)
    (hfuel : ys.length ≤ fuel) (ht : t ∈ ys)
    (hnr : timer_removed (reach_timer py ts ys (lock_timer_mutex s) t) t = false) :
    timer_fires t (python_tick_timers py fuel ts s) =
      timer_fires t s + (if timer_due ts s t then 1 else 0) ∧
    ((python_tick_timers py fuel ts s).timers t).last_ts =
      (if timer_due ts s t then u64_add (s.timers t).last_ts (s.timers t).interval
       else (s.timers t).last_ts) ∧
    ((python_tick_timers py fuel ts s).timers t).interval = (s.timers t).interval := by
  have hnd := TimerChain_nodup _ _ hwf
  obtain ⟨pre, post, hxs⟩ := List.append_of_mem ht
  subst hxs
  have htpre : t ∉ pre := fun hm => (List.nodup_append.mp hnd).2.2 hm (List.mem_cons_self t post)
  have hreach := reach_timer_split py ts t (lock_timer_mutex s) pre post htpre
  rw [hreach] at hnr
  have hl := sweep_last_ts hf ts t (hsub t ht) pre post (lock_timer_mutex s) hal hnd hnr
  have heq := (python_tick_timers_eq hf fuel ts s _ hsub hwf hal hfuel).1
  have hfire := timer_fires_sweep py ts t _ (lock_timer_mutex s) hnd ht
  rw [hreach, hnr, hl.2.1] at hfire
  refine ⟨?_, ?_, ?_⟩
  · rw [heq]
    show timer_fires t (sweep_list py ts (pre ++ t :: post) (lock_timer_mutex s)) = _
    rw [hfire]
    show timer_fires t s + _ = timer_fires t s + _
    have hd : timer_due ts (lock_timer_mutex s) t = timer_due ts s t := rfl
    rw [hd]
    cases timer_due ts s t <;> simp
  · rw [heq]
    exact hl.1
  · rw [heq]
    exact hl.2.2

/-- C2: in one timer sweep of `python_tick` at time `ts`, for a timer `t` of
the (well-formed) global timer list whose record is not marked removed when
the sweep reaches it: if `ts - last_ts >= interval` in 64-bit unsigned
arithmetic, the sweep calls the callback of `t` exactly once and `last_ts`
becomes `last_ts + interval` (64-bit addition; when `last_ts <= ts < 2^64` this
is the exact sum, and it is at most `ts`, whatever number of intervals has
elapsed); otherwise the callback is not called and `last_ts` is unchanged.
The script functions may register and remove callbacks; they cannot relink the
timer list or write timer fields (`TimerFrame`). -/
theorem timer_sweep_fires_due_timer_once (py : Runtime) (fuel ts : Nat) (s : State)
    (xs : List Nat) (t : Nat) (hwf : TimerList s xs) (hal : Allocated xs s)
    (hf : TimerFrame py xs) (hfuel : xs.length ≤ fuel) (ht : t ∈ xs)
    (hnr : timer_removed (reach_timer py ts xs (lock_timer_mutex s) t) t = false) :
    ((s.timers t).interval ≤ u64_sub ts (s.timers t).last_ts →
      timer_fires t (python_tick_timers py fuel ts s) = timer_fires t s + 1 ∧
      ((python_tick_timers py fuel ts s).timers t).last_ts =
        u64_add (s.timers t).last_ts (s.timers t).interval ∧
      ((s.timers t).last_ts ≤ ts → ts < UINT64 →
        ((python_tick_timers py fuel ts s).timers t).last_ts =
          (s.timers t).last_ts + (s.timers t).interval ∧
        ((python_tick_timers py fuel ts s).timers t).last_ts ≤ ts)) ∧
    (u64_sub ts (s.timers t).last_ts < (s.timers t).interval →
      timer_fires t (python_tick_timers py fuel ts s) = timer_fires t s ∧
      ((python_tick_timers py fuel ts s).timers t).last_ts = (s.timers t).last_ts) := by
  have h := python_tick_timers_timer hf fuel ts s t xs (fun _ h => h) hwf hal hfuel ht hnr
  constructor
  · intro hd
    have hd2 : timer_due ts s t = true := (timer_due_iff ts s t).mpr hd
    rw [hd2] at h
    refine ⟨by simpa using h.1, by simpa using h.2.1, ?_⟩
    intro hle hts
    rw [u64_sub_of_le _ _ hle hts] at hd
    have hsum : (s.timers t).last_ts + (s.timers t).interval ≤ ts := by omega
    have h2 := h.2.1
    simp only [if_true] at h2
    rw [h2, u64_add_of_lt _ _ (lt_of_le_of_lt hsum hts)]
    exact ⟨rfl, hsum⟩
  · intro hd
    have hd2 : timer_due ts s t = false := by
      cases hq : timer_due ts s t with
      | false => rfl
      | true => exact absurd ((timer_due_iff ts s t).mp hq) (by omega)
    rw [hd2] at h
    exact ⟨by simpa using h.1, by simpa using h.2.1⟩

/-- Witness for C2: in `three_timers` at time 120 with `py_removing`, timer 3
(interval 100, started at 0) is due: it fires once and its `last_ts` becomes
100, not 120. -/
theorem timer_sweep_fires_due_timer_once_witness :
    timer_fires 3 (python_tick_timers py_removing 3 120 three_timers) = 1 ∧
    ((python_tick_timers py_removing 3 120 three_timers).timers 3).last_ts = 100 :=
  have h := (timer_sweep_fires_due_timer_once py_removing 3 120 three_timers [3, 2, 1] 3
    three_timers_list three_timers_allocated (py_removing_frame _) (by decide) (by decide)
    (by decide)).1 (by decide)
  ⟨h.1, h.2.1⟩

/-- C6: in the timer sweep of `python_tick`, whatever the callback bodies do to
the removed flags (they may mark the dispatching record or any sibling
removed; `TimerFrame` only says they cannot relink the timer list), the sweep
is exactly one visit of each timer linked at the start, in list order.  A
timer that is due and not marked removed when the sweep reaches it is fired
exactly once, every other timer of the list is not fired, and no timer outside
the list is fired. -/
theorem timer_sweep_visits_each_timer_once (py : Runtime) (fuel ts : Nat) (s : State)
    (xs : List Nat) (hwf : TimerList s xs) (hal : Allocated xs s) (hf : TimerFrame py xs)
    (hfuel : xs.length ≤ fuel) :
    python_tick_timers py fuel ts s =
      unlock_timer_mutex (sweep_list py ts xs (lock_timer_mutex s)) ∧
    (∀ t ∈ xs, timer_fires t (python_tick_timers py fuel ts s) = timer_fires t s +
      (if timer_removed (reach_timer py ts xs (lock_timer_mutex s) t) t = false ∧
          timer_due ts (reach_timer py ts xs (lock_timer_mutex s) t) t = true
        then 1 else 0)) ∧
    (∀ t, t ∉ xs → timer_fires t (python_tick_timers py fuel ts s) = timer_fires t s) := by
  have heq := (python_tick_timers_eq hf fuel ts s xs (fun _ h => h) hwf hal hfuel).1
  refine ⟨heq, ?_, ?_⟩
  · intro t ht
    rw [heq]
    exact timer_fires_sweep py ts t xs (lock_timer_mutex s) (TimerChain_nodup _ _ hwf) ht
  · intro t ht
    rw [heq]
    exact timer_fires_sweep_not_mem py ts t xs (lock_timer_mutex s) ht

/-- Witness for C6: in `three_timers` at time 1200 all three timers are due;
the callback of timer 3 removes its sibling 2 and itself.  Timer 3 has fired
once, timer 2 (marked removed when reached) not at all, and timer 1, which
comes after both, exactly once. -/
theorem timer_sweep_visits_each_timer_once_witness :
    timer_fires 3 (python_tick_timers py_removing 3 1200 three_timers) = 1 ∧
    timer_fires 2 (python_tick_timers py_removing 3 1200 three_timers) = 0 ∧
    timer_fires 1 (python_tick_timers py_removing 3 1200 three_timers) = 1 :=
  have h := (timer_sweep_visits_each_timer_once py_removing 3 1200 three_timers [3, 2, 1]
    three_timers_list three_timers_allocated (py_removing_frame _) (by decide)).2.1
  ⟨h 3 (by decide), h 2 (by decide), h 1 (by decide)⟩

theorem reach_timer_removed_eq {py : Runtime} {xs : List Nat} (hf : TimerFrame py xs)
    (hex : ∀ c s2, Allocated xs s2 → ∀ t ∈ xs,
      timer_removed (py c s2) t = timer_removed s2 t)
    (ts : Nat) (s : State) (hal : Allocated xs s) (t : Nat) (ht : t ∈ xs) (ys : List Nat) :
    timer_removed (sweep_list py ts ys s) t = timer_removed s t :=
  sweep_list_callbacks_inv hf t (fun r => r.base.removed = timer_removed s t)
    (fun c s2 hal2 h => (hex c s2 hal2 t ht).trans h) ts ys s hal rfl

theorem reach_timer_removed_mono {py : Runtime} {xs : List Nat} (hf : TimerFrame py xs)
    (hst : RemovedStable py xs) (ts : Nat) (s : State) (hal : Allocated xs s) (t : Nat)
    (ht : t ∈ xs) (ys : List Nat) (h : timer_removed s t = true) :
    timer_removed (sweep_list py ts ys s) t = true :=
  sweep_list_callbacks_inv hf t (fun r => r.base.removed = true)
    (fun c s2 hal2 h2 => hst c s2 hal2 t ht h2) ts ys s hal h

theorem TimerList_of_timers_eq {s s2 : State} (xs : List Nat)
    (h1 : s2.first_timer = s.first_timer) (h2 : s2.timers = s.timers)
    (h : TimerList s xs) : TimerList s2 xs :=
  TimerChain_congr xs .first_timer h1 (fun u _ => by rw [h2]; exact ⟨rfl, rfl⟩) h

/-- C8: marking the record of a timer removed (`timer_remove`,
`remove_current_callback`) leaves the global timer list as it is.  The next
sweep unlinks the timer without calling its callback: after the sweep the
global timer list is the previous list without the timers that were marked
removed when the sweep reached them, the others in the same order.  A timer
marked removed before the sweep is among the unlinked ones and is not fired
(script functions do not clear a removed flag, `RemovedStable`); when the
script functions run by the sweep mark nothing, the timers unlinked are
exactly those marked removed before the sweep. -/
theorem removed_timers_unlinked_by_next_sweep (py : Runtime) (fuel ts : Nat) (s : State)
    (xs : List Nat) (hwf : TimerList s xs) (hal : Allocated xs s) (hf : TimerFrame py xs)
    (hst : RemovedStable py xs) (hfuel : xs.length ≤ fuel) :
    (∀ fuel2 args, TimerList (timer_remove fuel2 args s) xs) ∧
    TimerList (remove_current_callback s) xs ∧
    TimerList (python_tick_timers py fuel ts s)
      (xs.filter (fun t => !timer_removed (reach_timer py ts xs (lock_timer_mutex s) t) t)) ∧
    (∀ t ∈ xs, timer_removed s t = true →
      t ∉ xs.filter
        (fun t => !timer_removed (reach_timer py ts xs (lock_timer_mutex s) t) t) ∧
      timer_fires t (python_tick_timers py fuel ts s) = timer_fires t s) ∧
    ((∀ c s2, Allocated xs s2 → ∀ t ∈ xs, timer_removed (py c s2) t = timer_removed s2 t) →
      TimerList (python_tick_timers py fuel ts s) (xs.filter (fun t => !timer_removed s t))) := by
  have hsw := python_tick_timers_eq hf fuel ts s xs (fun _ h => h) hwf hal hfuel
  refine ⟨?_, ?_, hsw.2, ?_, ?_⟩
  · intro fuel2 args
    have h := timer_remove_timers fuel2 args s
    exact TimerList_of_timers_eq xs h.1 h.2.1 hwf
  · have h := remove_current_callback_timers s
    exact TimerList_of_timers_eq xs h.1 h.2.1 hwf
  · intro t ht hr
    have hreach : timer_removed (reach_timer py ts xs (lock_timer_mutex s) t) t = true :=
      reach_timer_removed_mono hf hst ts (lock_timer_mutex s) hal t ht _ hr
    refine ⟨by simp [hreach], ?_⟩
    rw [hsw.1]
    show timer_fires t (sweep_list py ts xs (lock_timer_mutex s)) = _
    rw [timer_fires_sweep py ts t xs (lock_timer_mutex s) (TimerChain_nodup _ _ hwf) ht, hreach]
    simp
    rfl
  · intro hex
    have hcongr : xs.filter (fun t => !timer_removed s t) =
        xs.filter
          (fun t => !timer_removed (reach_timer py ts xs (lock_timer_mutex s) t) t) := by
      apply List.filter_congr
      intro t ht
      have := reach_timer_removed_eq hf hex ts (lock_timer_mutex s) hal t ht
        (xs.takeWhile (fun u => decide (u ≠ t)))
      show (!timer_removed s t) = !timer_removed (sweep_list py ts _ (lock_timer_mutex s)) t
      rw [this]
      rfl
    rw [hcongr]
    exact hsw.2

theorem three_timers_one_removed_list : TimerList three_timers_one_removed [3, 2, 1] := by
  refine ⟨rfl, rfl, rfl, rfl, rfl, rfl, rfl⟩

theorem three_timers_one_removed_allocated : Allocated [3, 2, 1] three_timers_one_removed := by
  intro t ht
  simp at ht
  rcases ht with rfl | rfl | rfl <;> decide

/-- Witness for C8: in `three_timers_one_removed` timer 2 is marked removed and
still linked; the sweep at time 10 (no timer is due) leaves the list 3, 1 and
makes no call. -/
theorem removed_timers_unlinked_by_next_sweep_witness :
    timer_removed three_timers_one_removed 2 = true ∧
    TimerList three_timers_one_removed [3, 2, 1] ∧
    TimerList (python_tick_timers py_removing 3 10 three_timers_one_removed) [3, 1] ∧
    timer_fires 2 (python_tick_timers py_removing 3 10 three_timers_one_removed) = 0 :=
  have h := removed_timers_unlinked_by_next_sweep py_removing 3 10 three_timers_one_removed
    [3, 2, 1] three_timers_one_removed_list three_timers_one_removed_allocated
    (py_removing_frame _) (py_removing_stable _) (by decide)
  ⟨by decide, three_timers_one_removed_list, h.2.2.1, (h.2.2.2.1 2 (by decide) (by decide)).2⟩

/-! ## Sequences of sweeps -/

theorem sweeps_snoc (py : Runtime) (fuel : Nat) (times : List Nat) (u : Nat) (s : State) :
    sweeps py fuel (times ++ [u]) s = python_tick_timers py fuel u (sweeps py fuel times s) := by
  simp [sweeps, List.foldl_append]

/-- One sweep at a time `v` not before `last_ts` of a linked timer. -/
theorem sweep_step {py : Runtime} {xs : List Nat} (hf : TimerFrame py xs) (t I : Nat)
    (hkeep : ∀ c s2, Allocated xs s2 → timer_removed s2 t = false →
      timer_removed (py c s2) t = false)
    (fuel : Nat) (hfuel : xs.length ≤ fuel) (s : State) (v : Nat)
    (hinv : TimerLinked xs t I s) (hle : (s.timers t).last_ts ≤ v) (hv : v < UINT64) :
    TimerLinked xs t I (python_tick_timers py fuel v s) ∧
    (I ≤ v - (s.timers t).last_ts →
      ((python_tick_timers py fuel v s).timers t).last_ts = (s.timers t).last_ts + I ∧
      timer_fires t (python_tick_timers py fuel v s) = timer_fires t s + 1) ∧
    (v - (s.timers t).last_ts < I →
      ((python_tick_timers py fuel v s).timers t).last_ts = (s.timers t).last_ts ∧
      timer_fires t (python_tick_timers py fuel v s) = timer_fires t s) := by
  obtain ⟨ys, hwf, hsl, ht, hal, hnr, hI⟩ := hinv
  have hsub : ∀ u ∈ ys, u ∈ xs := fun u hu => hsl.subset hu
  have hfuel2 : ys.length ≤ fuel := le_trans hsl.length_le hfuel
  have hQ : ∀ zs : List Nat,
      timer_removed (sweep_list py v zs (lock_timer_mutex s)) t = false := fun zs =>
    sweep_list_callbacks_inv hf t (fun r => r.base.removed = false)
      (fun c s2 hal2 h => hkeep c s2 hal2 h) v zs (lock_timer_mutex s) hal hnr
  have hreach : timer_removed (reach_timer py v ys (lock_timer_mutex s) t) t = false := hQ _
  have hsw := python_tick_timers_eq hf fuel v s ys hsub hwf hal hfuel2
  have htm := python_tick_timers_timer hf fuel v s t ys hsub hwf hal hfuel2 ht hreach
  have hsubv : u64_sub v (s.timers t).last_ts = v - (s.timers t).last_ts :=
    u64_sub_of_le _ _ hle hv
  refine ⟨⟨_, hsw.2, ?_, ?_, ?_, ?_, ?_⟩, ?_, ?_⟩
  · exact (List.filter_sublist _).trans hsl
  · exact List.mem_filter.mpr ⟨ht, by simp [hreach]⟩
  · rw [hsw.1]
    exact sweep_list_allocated hf v ys (lock_timer_mutex s) hal
  · rw [hsw.1]
    exact hQ ys
  · rw [htm.2.2, hI]
  · intro hd
    have hd2 : timer_due v s t = true := by
      rw [timer_due_iff, hsubv, hI]; exact hd
    rw [hd2] at htm
    have hsum : (s.timers t).last_ts + I < UINT64 := by omega
    refine ⟨?_, by simpa using htm.1⟩
    have h2 := htm.2.1
    simp only [if_true] at h2
    rw [h2, hI, u64_add_of_lt _ _ hsum]
  · intro hd
    have hd2 : timer_due v s t = false := by
      cases hq : timer_due v s t with
      | false => rfl
      | true =>
          have := (timer_due_iff v s t).mp hq
          rw [hsubv, hI] at this
          omega
    rw [hd2] at htm
    exact ⟨by simpa using htm.2.1, by simpa using htm.1⟩

/-- The invariant of a sequence of sweeps at non-decreasing times: `last_ts`
is `t0 + k * I` for the number `k` of fires so far, and not after the last
sweep. -/
theorem sweeps_invariant {py : Runtime} {xs : List Nat} (hf : TimerFrame py xs) (t t0 I : Nat)
    (hkeep : ∀ c s2, Allocated xs s2 → timer_removed s2 t = false →
      timer_removed (py c s2) t = false)
    (fuel : Nat) (hfuel : xs.length ≤ fuel) (s : State)
    (hinv : TimerLinked xs t I s) (h0 : (s.timers t).last_ts = t0) :
    ∀ times : List Nat, times.Pairwise (· ≤ ·) → (∀ v ∈ times, t0 ≤ v ∧ v < UINT64) →
      ∃ k, TimerLinked xs t I (sweeps py fuel times s) ∧
        ((sweeps py fuel times s).timers t).last_ts = t0 + k * I ∧
        timer_fires t (sweeps py fuel times s) = timer_fires t s + k ∧
        (∀ v, t0 ≤ v → (∀ w ∈ times, w ≤ v) → t0 + k * I ≤ v) ∧
        ((∀ w ∈ times, w < t0 + I) → k = 0) ∧
        (∀ pre u, times = pre ++ [u] → (∀ w ∈ pre, w < t0 + I) →
          k = if t0 + I ≤ u then 1 else 0) := by
  intro times
  induction times using List.reverseRecOn with
  | nil =>
      intro _ _
      exact ⟨0, hinv, by simpa using h0, rfl, fun v hv _ => by simpa using hv, fun _ => rfl,
        fun pre u h => by simp at h⟩
  | append_singleton pre u ih =>
      intro hsorted hbound
      have hpw := List.pairwise_append.mp hsorted
      obtain ⟨k, hlinked, hlast, hfires, hle, hzero, _⟩ :=
        ih hpw.1 (fun v hv => hbound v (by simp [hv]))
      have hu := hbound u (by simp)
      have hle_u : ((sweeps py fuel pre s).timers t).last_ts ≤ u := by
        rw [hlast]
        exact hle u hu.1 (fun w hw => hpw.2.2 w hw u (by simp))
      have hstep := sweep_step hf t I hkeep fuel hfuel (sweeps py fuel pre s) u hlinked hle_u hu.2
      rw [sweeps_snoc]
      by_cases hd : I ≤ u - ((sweeps py fuel pre s).timers t).last_ts
      · obtain ⟨h1, h2⟩ := hstep.2.1 hd
        refine ⟨k + 1, hstep.1, ?_, ?_, ?_, ?_, ?_⟩
        · rw [h1, hlast]; ring
        · rw [h2, hfires]; ring
        · intro v _ hall
          have huv : u ≤ v := hall u (by simp)
          rw [hlast] at hd hle_u
          have : t0 + (k + 1) * I = t0 + k * I + I := by ring
          omega
        · intro hall
          have hk : k = 0 := hzero (fun w hw => hall w (by simp [hw]))
          have huI : u < t0 + I := hall u (by simp)
          rw [hlast, hk] at hd
          simp at hd
          omega
        · intro pre2 u2 heq hall
          obtain ⟨hp, hu2⟩ := List.append_inj' heq rfl
          subst hp
          have hu3 : u = u2 := by simpa using hu2
          subst hu3
          have hk : k = 0 := hzero hall
          rw [hlast, hk] at hd
          simp at hd
          have : t0 + I ≤ u := by omega
          simp [hk, this]
      · obtain ⟨h1, h2⟩ := hstep.2.2 (by omega)
        refine ⟨k, hstep.1, ?_, ?_, ?_, ?_, ?_⟩
        · rw [h1, hlast]
        · rw [h2, hfires]
        · intro v hv hall
          exact hle v hv (fun w hw => hall w (by simp [hw]))
        · intro hall
          exact hzero (fun w hw => hall w (by simp [hw]))
        · intro pre2 u2 heq hall
          obtain ⟨hp, hu2⟩ := List.append_inj' heq rfl
          subst hp
          have hu3 : u = u2 := by simpa using hu2
          subst hu3
          have hk : k = 0 := hzero hall
          rw [hlast, hk] at hd
          simp at hd
          have : ¬ t0 + I ≤ u := by omega
          simp [hk, this]

theorem sweep_last_ts_removed {py : Runtime} {xs : List Nat} (hf : TimerFrame py xs)
    (ts t : Nat) (ht : t ∈ xs) (pre post : List Nat) (s : State) (hal : Allocated xs s)
    (hnd : (pre ++ t :: post).Nodup)
    (hr : timer_removed (sweep_list py ts pre s) t = true) :
    ((sweep_list py ts (pre ++ t :: post) s).timers t).last_ts = (s.timers t).last_ts ∧
    ((sweep_list py ts (pre ++ t :: post) s).timers t).interval = (s.timers t).interval := by
  have htpre : t ∉ pre := fun hm =>
    (List.nodup_append.mp hnd).2.2 hm (List.mem_cons_self t post)
  have htpost : t ∉ post := (List.nodup_cons.mp (List.nodup_append.mp hnd).2.1).1
  have hpre := sweep_other_fields hf ts t ht pre s hal htpre
  have halpre := sweep_list_allocated hf ts pre s hal
  have hv := remove_last_ts t t (sweep_list py ts pre s)
  have hpost := sweep_other_fields hf ts t ht post _
    (timer_visit_allocated hf ts t _ halpre) htpost
  rw [sweep_list_append, sweep_list_cons]
  rw [timer_visit_removed py ts t _ hr] at hpost ⊢
  exact ⟨hpost.1.trans (hv.1.trans hpre.1), hpost.2.trans (hv.2.trans hpre.2)⟩

/-- One sweep at a time `v` not before `last_ts`, for any timer of `xs`, linked
or not, removed or not: either it fires once, `last_ts` advances by the
interval and stays at or before `v`, or nothing changes for it. -/
theorem sweep_step_any {py : Runtime} {xs : List Nat} (hf : TimerFrame py xs) (t I : Nat)
    (ht : t ∈ xs) (fuel : Nat) (hfuel : xs.length ≤ fuel) (s : State) (v : Nat)
    (hinv : TimerTracked xs t I s) (hle : (s.timers t).last_ts ≤ v) (hv : v < UINT64) :
    TimerTracked xs t I (python_tick_timers py fuel v s) ∧
    ((((python_tick_timers py fuel v s).timers t).last_ts = (s.timers t).last_ts + I ∧
        timer_fires t (python_tick_timers py fuel v s) = timer_fires t s + 1 ∧
        (s.timers t).last_ts + I ≤ v) ∨
      (((python_tick_timers py fuel v s).timers t).last_ts = (s.timers t).last_ts ∧
        timer_fires t (python_tick_timers py fuel v s) = timer_fires t s)) := by
  obtain ⟨ys, hwf, hsl, hal, hI⟩ := hinv
  have hsub : ∀ u ∈ ys, u ∈ xs := fun u hu => hsl.subset hu
  have hfuel2 : ys.length ≤ fuel := le_trans hsl.length_le hfuel
  have hnd := TimerChain_nodup _ _ hwf
  have hsw := python_tick_timers_eq hf fuel v s ys hsub hwf hal hfuel2
  have hsubv : u64_sub v (s.timers t).last_ts = v - (s.timers t).last_ts :=
    u64_sub_of_le _ _ hle hv
  have hal2 : Allocated xs (python_tick_timers py fuel v s) := by
    rw [hsw.1]
    exact sweep_list_allocated hf v ys (lock_timer_mutex s) hal
  have htracked : ((python_tick_timers py fuel v s).timers t).interval = I →
      TimerTracked xs t I (python_tick_timers py fuel v s) := fun h =>
    ⟨_, hsw.2, (List.filter_sublist _).trans hsl, hal2, h⟩
  by_cases hmem : t ∈ ys
  · cases hreach : timer_removed (reach_timer py v ys (lock_timer_mutex s) t) t with
    | false =>
        have htm := python_tick_timers_timer hf fuel v s t ys hsub hwf hal hfuel2 hmem hreach
        refine ⟨htracked (by rw [htm.2.2, hI]), ?_⟩
        cases hd : timer_due v s t with
        | true =>
            have hdue := (timer_due_iff v s t).mp hd
            rw [hsubv, hI] at hdue
            have hsum : (s.timers t).last_ts + I ≤ v := by omega
            rw [hd] at htm
            left
            refine ⟨?_, by simpa using htm.1, hsum⟩
            have h2 := htm.2.1
            simp only [if_true] at h2
            rw [h2, hI, u64_add_of_lt _ _ (lt_of_le_of_lt hsum hv)]
        | false =>
            rw [hd] at htm
            right
            exact ⟨by simpa using htm.2.1, by simpa using htm.1⟩
    | true =>
        obtain ⟨pre, post, hys⟩ := List.append_of_mem hmem
        subst hys
        have htpre : t ∉ pre := fun hm =>
          (List.nodup_append.mp hnd).2.2 hm (List.mem_cons_self t post)
        have hreach2 := hreach
        rw [reach_timer_split py v t (lock_timer_mutex s) pre post htpre] at hreach2
        have hl := sweep_last_ts_removed hf v t ht pre post (lock_timer_mutex s) hal hnd hreach2
        have hfire := timer_fires_sweep py v t _ (lock_timer_mutex s) hnd hmem
        rw [hreach] at hfire
        have hint : ((python_tick_timers py fuel v s).timers t).interval = I := by
          rw [hsw.1]
          exact hl.2.trans hI
        refine ⟨htracked hint, Or.inr ⟨?_, ?_⟩⟩
        · rw [hsw.1]
          exact hl.1
        · rw [hsw.1]
          simpa using hfire
  · have ho := sweep_other_fields hf v t ht ys (lock_timer_mutex s) hal hmem
    have hint : ((python_tick_timers py fuel v s).timers t).interval = I := by
      rw [hsw.1]
      exact ho.2.trans hI
    refine ⟨htracked hint, Or.inr ⟨?_, ?_⟩⟩
    · rw [hsw.1]
      exact ho.1
    · rw [hsw.1]
      exact timer_fires_sweep_not_mem py v t ys (lock_timer_mutex s) hmem

/-- The invariant of a sequence of sweeps at non-decreasing times, for any
timer of `xs`: `last_ts` is `t0 + k * I` for the number `k` of fires so far,
and not after the last sweep. -/
theorem sweeps_invariant_any {py : Runtime} {xs : List Nat} (hf : TimerFrame py xs)
    (t t0 I : Nat) (ht : t ∈ xs) (fuel : Nat) (hfuel : xs.length ≤ fuel) (s : State)
    (hinv : TimerTracked xs t I s) (h0 : (s.timers t).last_ts = t0) :
    ∀ times : List Nat, times.Pairwise (· ≤ ·) → (∀ v ∈ times, t0 ≤ v ∧ v < UINT64) →
      ∃ k, TimerTracked xs t I (sweeps py fuel times s) ∧
        ((sweeps py fuel times s).timers t).last_ts = t0 + k * I ∧
        timer_fires t (sweeps py fuel times s) = timer_fires t s + k ∧
        (∀ v, t0 ≤ v → (∀ w ∈ times, w ≤ v) → t0 + k * I ≤ v) := by
  intro times
  induction times using List.reverseRecOn with
  | nil =>
      intro _ _
      exact ⟨0, hinv, by simpa using h0, rfl, fun v hv _ => by simpa using hv⟩
  | append_singleton pre u ih =>
      intro hsorted hbound
      have hpw := List.pairwise_append.mp hsorted
      obtain ⟨k, hlinked, hlast, hfires, hle⟩ :=
        ih hpw.1 (fun v hv => hbound v (by simp [hv]))
      have hu := hbound u (by simp)
      have hle_u : ((sweeps py fuel pre s).timers t).last_ts ≤ u := by
        rw [hlast]
        exact hle u hu.1 (fun w hw => hpw.2.2 w hw u (by simp))
      have hstep := sweep_step_any hf t I ht fuel hfuel (sweeps py fuel pre s) u hlinked
        hle_u hu.2
      rw [sweeps_snoc]
      rcases hstep.2 with ⟨h1, h2, h3⟩ | ⟨h1, h2⟩
      · refine ⟨k + 1, hstep.1, ?_, ?_, ?_⟩
        · rw [h1, hlast]; ring
        · rw [h2, hfires]; ring
        · intro v _ hall
          have huv : u ≤ v := hall u (by simp)
          rw [hlast] at h3
          have : t0 + (k + 1) * I = t0 + k * I + I := by ring
          omega
      · refine ⟨k, hstep.1, ?_, ?_, ?_⟩
        · rw [h1, hlast]
        · rw [h2, hfires]
        · intro v hv hall
          exact hle v hv (fun w hw => hall w (by simp [hw]))

/-- C3: a timer `t` of a well-formed global timer list with `last_ts = t0` and
interval `I > 0`, under any sequence of sweeps at non-decreasing times
`pre ++ [u]`, all at or after `t0` and below `2^64`: after the last sweep (at
time `u`) `last_ts` is `t0 + k * I` where `k` is the number of times the timer
has fired so far, and `k <= (u - t0) / I` (this holds also when the timer is
removed on the way: it then stops firing).  When the record is not marked
removed, at the start or by a script function, and all earlier sweeps were
before `t0 + I`, the timer has fired (once) exactly when `u >= t0 + I`: the
first fire happens at the first sweep at or after `t0 + I`. -/
theorem timer_last_ts_accumulates (py : Runtime) (fuel : Nat) (s : State) (xs : List Nat)
    (t t0 I : Nat) (pre : List Nat) (u : Nat)
    (hwf : TimerList s xs) (hal : Allocated xs s) (hf : TimerFrame py xs)
    (hfuel : xs.length ≤ fuel) (ht : t ∈ xs)
    (h0 : (s.timers t).last_ts = t0) (hI : (s.timers t).interval = I) (hpos : 0 < I)
    (hsorted : (pre ++ [u]).Pairwise (· ≤ ·))
    (hbound : ∀ v ∈ pre ++ [u], t0 ≤ v ∧ v < UINT64) :
    ∃ k, timer_fires t (sweeps py fuel (pre ++ [u]) s) = timer_fires t s + k ∧
      ((sweeps py fuel (pre ++ [u]) s).timers t).last_ts = t0 + k * I ∧
      k ≤ (u - t0) / I ∧
      (timer_removed s t = false →
        (∀ c s2, Allocated xs s2 → timer_removed s2 t = false →
          timer_removed (py c s2) t = false) →
        (∀ w ∈ pre, w < t0 + I) → k = if t0 + I ≤ u then 1 else 0) := by
  have htracked : TimerTracked xs t I s := ⟨xs, hwf, List.Sublist.refl xs, hal, hI⟩
  obtain ⟨k, _, hlast, hfires, hle⟩ :=
    sweeps_invariant_any hf t t0 I ht fuel hfuel s htracked h0 (pre ++ [u]) hsorted hbound
  refine ⟨k, hfires, hlast, ?_, ?_⟩
  · have hu := hbound u (by simp)
    have h1 : t0 + k * I ≤ u :=
      hle u hu.1 (fun w hw => by
        rcases List.mem_append.mp hw with h | h
        · exact (List.pairwise_append.mp hsorted).2.2 w h u (by simp)
        · simp at h; omega)
    exact (Nat.le_div_iff_mul_le hpos).mpr (by omega)
  · intro hnr hkeep hall
    have hlinked : TimerLinked xs t I s := ⟨xs, hwf, List.Sublist.refl xs, ht, hal, hnr, hI⟩
    obtain ⟨k2, _, _, hfires2, _, _, hfirst⟩ :=
      sweeps_invariant hf t t0 I hkeep fuel hfuel s hlinked h0 (pre ++ [u]) hsorted hbound
    have hk : k = k2 := by
      rw [hfires] at hfires2
      exact Nat.add_left_cancel hfires2
    rw [hk]
    exact hfirst pre u rfl hall

theorem py_timer2_removes_itself_frame (xs : List Nat) :
    TimerFrame py_timer2_removes_itself xs := by
  intro c s hal
  unfold py_timer2_removes_itself
  split
  · exact ⟨rfl, fun _ _ => rfl, hal⟩
  · exact ⟨rfl, fun _ _ => rfl, hal⟩

theorem py_timer2_removes_itself_keeps_3 (c : PyCall) (s : State)
    (h : timer_removed s 3 = false) :
    timer_removed (py_timer2_removes_itself c s) 3 = false := by
  unfold py_timer2_removes_itself
  split
  · unfold timer_removed python_obs_timer_cb at *
    unfold remove_python_obs_callback remove_script_callback set_callback
    simp [h]
    split <;> simp [h]
  · exact h

/-- Witness for C3, the example of the spec: interval 100, started at 0,
sweeps at 40, 80 and 120 (timer 3 of `three_timers`; the callback of its
sibling 2 removes itself during the second sweep).  No fire at 40, none at 80,
one at 120, after which `last_ts` is 100: the next fire is due at 200 (none at
199). -/
theorem timer_last_ts_accumulates_witness :
    (∃ k, timer_fires 3 (sweeps py_timer2_removes_itself 3 ([40, 80] ++ [120]) three_timers)
        = timer_fires 3 three_timers + k ∧
      ((sweeps py_timer2_removes_itself 3 ([40, 80] ++ [120]) three_timers).timers 3).last_ts
        = 0 + k * 100 ∧
      k ≤ (120 - 0) / 100 ∧
      ((∀ w ∈ [40, 80], w < 0 + 100) → k = if 0 + 100 ≤ 120 then 1 else 0)) ∧
    timer_fires 3 (sweeps py_timer2_removes_itself 3 [40] three_timers) = 0 ∧
    timer_fires 3 (sweeps py_timer2_removes_itself 3 [40, 80] three_timers) = 0 ∧
    timer_fires 3 (sweeps py_timer2_removes_itself 3 [40, 80, 120] three_timers) = 1 ∧
    ((sweeps py_timer2_removes_itself 3 [40, 80, 120] three_timers).timers 3).last_ts = 100 ∧
    timer_fires 3 (sweeps py_timer2_removes_itself 3 [40, 80, 120, 199] three_timers) = 1 ∧
    timer_fires 3 (sweeps py_timer2_removes_itself 3 [40, 80, 120, 200] three_timers) = 2 :=
  have h := timer_last_ts_accumulates py_timer2_removes_itself 3 three_timers [3, 2, 1] 3 0 100
    [40, 80] 120 three_timers_list three_timers_allocated
    (py_timer2_removes_itself_frame _) (by decide) (by decide) rfl rfl (by decide)
    (by decide)
    (by
      intro v hv
      simp at hv
      rcases hv with rfl | rfl | rfl <;> exact ⟨by decide, by unfold UINT64; norm_num⟩)
  ⟨by
      obtain ⟨k, h1, h2, h3, h4⟩ := h
      exact ⟨k, h1, h2, h3,
        fun hall => h4 (by decide) (fun c s2 _ hr => py_timer2_removes_itself_keeps_3 c s2 hr)
          hall⟩,
    by decide, by decide, by decide, by decide, by decide, by decide⟩

/-! ## Callback lists -/

theorem CbChain_congr {s s2 : State} :
    ∀ (ys : List Nat) (p : Option Nat),
      (∀ a ∈ ys, (s2.callbacks a).base.next = (s.callbacks a).base.next) →
      CbChain s p ys → CbChain s2 p ys
  | [], _, _, h => h
  | x :: ys, _, hx, h =>
      ⟨h.1, by
        rw [hx x (by simp)]
        exact CbChain_congr ys _ (fun a ha => hx a (by simp [ha])) h.2⟩

theorem CbChain_unique {s : State} :
    ∀ (xs ys : List Nat) (p : Option Nat), CbChain s p xs → CbChain s p ys → xs = ys
  | [], [], _, _, _ => rfl
  | [], _ :: _, _, h1, h2 => by
      simp only [CbChain] at h1 h2; rw [h1] at h2; exact absurd h2.1 (by simp)
  | _ :: _, [], _, h1, h2 => by
      simp only [CbChain] at h1 h2; rw [h2] at h1; exact absurd h1.1 (by simp)
  | x :: xs, y :: ys, _, h1, h2 => by
      obtain ⟨a1, a2⟩ := h1
      obtain ⟨b1, b2⟩ := h2
      have hxy : x = y := by rw [a1] at b1; exact Option.some.inj b1
      subst hxy
      rw [CbChain_unique xs ys _ a2 b2]

theorem CbChain_drop {s : State} :
    ∀ (pre : List Nat) (p : Option Nat) (t : Nat) (post : List Nat),
      CbChain s p (pre ++ t :: post) → CbChain s (s.callbacks t).base.next post
  | [], _, _, _, h => h.2
  | _ :: pre, _, t, post, h => CbChain_drop pre _ t post h.2

theorem CbChain_nodup {s : State} :
    ∀ (ys : List Nat) (p : Option Nat), CbChain s p ys → ys.Nodup
  | [], _, _ => List.nodup_nil
  | x :: ys, _, h => by
      refine List.nodup_cons.mpr ⟨?_, CbChain_nodup ys _ h.2⟩
      intro hx
      obtain ⟨pre, post, rfl⟩ := List.append_of_mem hx
      have h2 := CbChain_drop pre _ x post h.2
      have hl := congrArg List.length (CbChain_unique _ _ _ h.2 h2)
      simp at hl
      omega

/-- In a chain, the record in front of `cb` is the only one whose `next` is
`cb`: no record of a chain that does not contain `cb` points to it. -/
theorem CbChain_next_ne {s : State} :
    ∀ (ys : List Nat) (p : Option Nat) (cb : Nat), CbChain s p ys → cb ∉ ys →
      ∀ a ∈ ys, (s.callbacks a).base.next ≠ some cb
  | [], _, _, _, _, a, ha => by simp at ha
  | x :: ys, _, cb, h, hcb, a, ha => by
      rcases List.mem_cons.mp ha with e | e
      · subst e
        intro hn
        cases ys with
        | nil =>
            have : (s.callbacks a).base.next = none := h.2
            rw [this] at hn; simp at hn
        | cons y ys =>
            have : (s.callbacks a).base.next = some y := h.2.1
            rw [this] at hn
            exact hcb (by simp [Option.some.inj hn])
      · exact CbChain_next_ne ys _ cb h.2 (fun hm => hcb (by simp [hm])) a e

theorem remove_script_callback_next (cb a : Nat) (s : State) :
    ((remove_script_callback cb s).callbacks a).base.next =
      (if a ≠ cb ∧ (s.callbacks a).base.next = some cb then (s.callbacks cb).base.next
       else (s.callbacks a).base.next) := by
  unfold remove_script_callback set_callback
  by_cases hac : a = cb
  · subst hac; simp
  · by_cases hn : (s.callbacks a).base.next = some cb
    · simp [Function.update_noteq hac, hac, hn]
    · simp [Function.update_noteq hac, hac, hn]

theorem remove_python_obs_callback_next (cb a : Nat) (s : State) :
    ((remove_python_obs_callback cb s).callbacks a).base.next =
      (if a ≠ cb ∧ (s.callbacks a).base.next = some cb then (s.callbacks cb).base.next
       else (s.callbacks a).base.next) := by
  unfold remove_python_obs_callback set_callback
  by_cases hac : a = cb
  · subst hac
    simp only [Function.update_same]
    exact remove_script_callback_next a a s
  · simp only [Function.update_noteq hac]
    exact remove_script_callback_next cb a s

theorem remove_python_obs_callback_first (cb script : Nat) (s : State) :
    ((remove_python_obs_callback cb s).scripts script).first_callback =
      (if (s.scripts script).first_callback = some cb then (s.callbacks cb).base.next
       else (s.scripts script).first_callback) := by
  unfold remove_python_obs_callback remove_script_callback set_callback
  by_cases h : (s.scripts script).first_callback = some cb
  · simp [h]
  · simp [h]

theorem remove_python_obs_callback_other (cb a : Nat) (s : State) (h : a ≠ cb) :
    ((remove_python_obs_callback cb s).callbacks a).base.removed
      = (s.callbacks a).base.removed ∧
    ((remove_python_obs_callback cb s).callbacks a).base.extra = (s.callbacks a).base.extra ∧
    ((remove_python_obs_callback cb s).callbacks a).base.script
      = (s.callbacks a).base.script ∧
    ((remove_python_obs_callback cb s).callbacks a).func = (s.callbacks a).func := by
  unfold remove_python_obs_callback remove_script_callback set_callback
  by_cases hn : (s.callbacks a).base.next = some cb
  · simp [Function.update_noteq h, h, hn]
  · simp [Function.update_noteq h, h, hn]

theorem remove_python_obs_callback_self (cb : Nat) (s : State) :
    ((remove_python_obs_callback cb s).callbacks cb).base.removed = true ∧
    ((remove_python_obs_callback cb s).callbacks cb).base.script
      = (s.callbacks cb).base.script := by
  unfold remove_python_obs_callback remove_script_callback set_callback
  simp

/-- Removing a record unlinks it: a chain keeps its other records, in the same
order. -/
theorem CbChain_remove {s : State} (cb : Nat) :
    ∀ (ys : List Nat) (p : Option Nat), CbChain s p ys →
      CbChain (remove_python_obs_callback cb s)
        (if p = some cb then (s.callbacks cb).base.next else p) (ys.erase cb)
  | [], p, h => by
      have hp : p = none := h
      subst hp
      simp [CbChain]
  | x :: ys, p, h => by
      have hnd := CbChain_nodup _ _ h
      obtain ⟨hp, hrest⟩ := h
      subst hp
      by_cases hx : x = cb
      · subst hx
        have hxn : x ∉ ys := (List.nodup_cons.mp hnd).1
        simp only [if_true, List.erase_cons_head]
        refine CbChain_congr ys _ ?_ hrest
        intro a ha
        have := CbChain_next_ne ys _ x hrest hxn a ha
        rw [remove_python_obs_callback_next]
        simp [this]
      · have hne : (some x : Option Nat) ≠ some cb := fun e => hx (Option.some.inj e)
        have herase : (x :: ys).erase cb = x :: ys.erase cb := by
          rw [List.erase_cons_tail]
          simpa using hx
        rw [if_neg hne, herase]
        refine ⟨rfl, ?_⟩
        have ih := CbChain_remove cb ys _ hrest
        rw [remove_python_obs_callback_next]
        simpa [hx] using ih

theorem CallbackList_remove {s : State} (cb script : Nat) (ys : List Nat)
    (h : CallbackList s script ys) :
    CallbackList (remove_python_obs_callback cb s) script (ys.erase cb) := by
  unfold CallbackList
  rw [remove_python_obs_callback_first]
  exact CbChain_remove cb ys _ h

/-! ## Scoped disconnect -/

theorem disconnect_loop_some (script : Nat) (handler : Option Nat) (signal : String)
    (py_cb : PyObject) (s : State) :
    ∀ (fuel : Nat) (p : Option Nat) (cb : Nat),
      disconnect_loop script handler signal py_cb s fuel p = some cb →
      (calldata_string_signal cb s).isSome = true ∧
      some signal ≠ calldata_string_signal cb s ∧ handler = calldata_ptr_handler cb s
  | 0, _, _, h => by simp [disconnect_loop] at h
  | _ + 1, none, _, h => by simp [disconnect_loop] at h
  | fuel + 1, some c, cb, h => by
      unfold disconnect_loop at h
      simp only [] at h
      split at h
      · rename_i hc
        have : c = cb := Option.some.inj h
        subst this
        exact hc
      · exact disconnect_loop_some script handler signal py_cb s fuel _ cb h

/-- What a scoped disconnect does: nothing, an error return, or the removal of
one record selected by the test of line 577. -/
theorem disconnect_cases (fuel : Nat) (args : Option (PyObject × String × PyObject))
    (s : State) :
    obs_python_signal_handler_disconnect fuel args s = s ∨
    obs_python_signal_handler_disconnect fuel args s = PyErr_SetString s ∨
    ∃ cb py_sh signal py_cb handler, args = some (py_sh, signal, py_cb) ∧
      py_to_libobs py_sh s = some handler ∧
      (calldata_string_signal cb s).isSome = true ∧
      some signal ≠ calldata_string_signal cb s ∧ handler = calldata_ptr_handler cb s ∧
      obs_python_signal_handler_disconnect fuel args s = remove_python_obs_callback cb s := by
  unfold obs_python_signal_handler_disconnect
  rcases hsc : s.cur_python_script with _ | script
  · exact Or.inr (Or.inl rfl)
  · rcases args with _ | ⟨py_sh, signal, py_cb⟩
    · exact Or.inl rfl
    · rcases hconv : py_to_libobs py_sh s with _ | handler
      · left; simp only [hconv]
      · by_cases hfn : py_cb.is_func = false
        · left; simp [hfn, hconv]
        · rcases hsel : disconnect_loop script handler signal py_cb s fuel
            (find_python_obs_callback fuel script py_cb s) with _ | cb
          · left; simp [hfn, hsel, hconv]
          · right; right
            have h := disconnect_loop_some script handler signal py_cb s fuel _ cb hsel
            exact ⟨cb, py_sh, signal, py_cb, handler, rfl, hconv, h.1, h.2.1, h.2.2,
              by simp [hfn, hsel, hconv]⟩

theorem connect_global_record (s : State) (script : Nat) (py_sh py_cb : PyObject)
    (handler : Option Nat) (ys : List Nat)
    (hcur : s.cur_python_script = some script)
    (hconv : py_to_libobs py_sh s = some handler) (hfn : py_cb.is_func = true)
    (hl : CallbackList s script ys) (hal : ∀ a ∈ ys, a < s.next_alloc) :
    CallbackList (obs_python_signal_handler_connect_global (some (py_sh, py_cb)) s) script
      (s.next_alloc :: ys) ∧
    calldata_string_signal s.next_alloc
      (obs_python_signal_handler_connect_global (some (py_sh, py_cb)) s) = none ∧
    calldata_ptr_handler s.next_alloc
      (obs_python_signal_handler_connect_global (some (py_sh, py_cb)) s) = handler ∧
    ((obs_python_signal_handler_connect_global (some (py_sh, py_cb)) s).callbacks
      s.next_alloc).base.removed = false ∧
    ((obs_python_signal_handler_connect_global (some (py_sh, py_cb)) s).callbacks
      s.next_alloc).func = some py_cb := by
  have hs : obs_python_signal_handler_connect_global (some (py_sh, py_cb)) s =
      signal_handler_connect_global handler s.next_alloc
        (calldata_set_ptr_handler s.next_alloc handler
          (add_python_obs_callback script py_cb s).2) := by
    unfold obs_python_signal_handler_connect_global
    simp only [hcur, hconv, hfn, Bool.true_eq_false, if_false]
    rfl
  rw [hs]
  refine ⟨?_, ?_, ?_, ?_, ?_⟩
  · refine ⟨?_, ?_⟩
    · simp [signal_handler_connect_global, calldata_set_ptr_handler, set_callback,
        add_python_obs_callback, add_python_obs_callback_extra, set_script]
    · have hnext : ((signal_handler_connect_global handler s.next_alloc
          (calldata_set_ptr_handler s.next_alloc handler
            (add_python_obs_callback script py_cb s).2)).callbacks s.next_alloc).base.next
          = (s.scripts script).first_callback := by
        simp [signal_handler_connect_global, calldata_set_ptr_handler, set_callback,
          add_python_obs_callback, add_python_obs_callback_extra, set_script]
      rw [hnext]
      refine CbChain_congr ys _ ?_ hl
      intro a ha
      have hne : a ≠ s.next_alloc := Nat.ne_of_lt (hal a ha)
      simp [signal_handler_connect_global, calldata_set_ptr_handler, set_callback,
        add_python_obs_callback, add_python_obs_callback_extra, set_script,
        Function.update_noteq hne]
  · simp [calldata_string_signal, signal_handler_connect_global, calldata_set_ptr_handler,
      set_callback, add_python_obs_callback, add_python_obs_callback_extra, set_script]
  · simp [calldata_ptr_handler, signal_handler_connect_global, calldata_set_ptr_handler,
      set_callback, add_python_obs_callback, add_python_obs_callback_extra, set_script]
  · simp [signal_handler_connect_global, calldata_set_ptr_handler, set_callback,
      add_python_obs_callback, add_python_obs_callback_extra, set_script]
  · simp [signal_handler_connect_global, calldata_set_ptr_handler, set_callback,
      add_python_obs_callback, add_python_obs_callback_extra, set_script]

/-- C10: a record registered by `obs_python_signal_handler_connect_global`
stores a handler and no signal name (first part); the scoped
`obs_python_signal_handler_disconnect`, whatever its arguments (also the same
handler and function) and fuel, leaves every record without a stored signal
name in the callback list it is in, with its removed flag unset and its
function and handler as they were (second part). -/
theorem scoped_disconnect_keeps_global_record :
    (∀ (s : State) (script : Nat) (py_sh py_cb : PyObject) (handler : Option Nat)
      (ys : List Nat), s.cur_python_script = some script →
      py_to_libobs py_sh s = some handler → py_cb.is_func = true →
      CallbackList s script ys → (∀ a ∈ ys, a < s.next_alloc) →
      CallbackList (obs_python_signal_handler_connect_global (some (py_sh, py_cb)) s) script
        (s.next_alloc :: ys) ∧
      calldata_string_signal s.next_alloc
        (obs_python_signal_handler_connect_global (some (py_sh, py_cb)) s) = none ∧
      calldata_ptr_handler s.next_alloc
        (obs_python_signal_handler_connect_global (some (py_sh, py_cb)) s) = handler ∧
      ((obs_python_signal_handler_connect_global (some (py_sh, py_cb)) s).callbacks
        s.next_alloc).base.removed = false ∧
      ((obs_python_signal_handler_connect_global (some (py_sh, py_cb)) s).callbacks
        s.next_alloc).func = some py_cb) ∧
    (∀ (fuel : Nat) (args : Option (PyObject × String × PyObject)) (s : State)
      (script : Nat) (ys : List Nat) (g : Nat), CallbackList s script ys → g ∈ ys →
      calldata_string_signal g s = none → (s.callbacks g).base.removed = false →
      ∃ ys2, CallbackList (obs_python_signal_handler_disconnect fuel args s) script ys2 ∧
        g ∈ ys2 ∧ ys2.Sublist ys ∧
        ((obs_python_signal_handler_disconnect fuel args s).callbacks g).base.removed = false ∧
        ((obs_python_signal_handler_disconnect fuel args s).callbacks g).func
          = (s.callbacks g).func ∧
        ((obs_python_signal_handler_disconnect fuel args s).callbacks g).base.extra
          = (s.callbacks g).base.extra) := by
  refine ⟨fun s script py_sh py_cb handler ys hcur hconv hfn hl hal =>
    connect_global_record s script py_sh py_cb handler ys hcur hconv hfn hl hal, ?_⟩
  intro fuel args s script ys g hl hg hsig hrem
  rcases disconnect_cases fuel args s with h | h | ⟨cb, _, _, _, _, _, _, hsome, _, _, h⟩
  · rw [h]; exact ⟨ys, hl, hg, List.Sublist.refl ys, hrem, rfl, rfl⟩
  · rw [h]
    exact ⟨ys, CbChain_congr (s := s) ys _ (fun _ _ => rfl) hl, hg, List.Sublist.refl ys,
      hrem, rfl, rfl⟩
  · rw [h]
    have hne : g ≠ cb := by
      intro e
      subst e
      rw [hsig] at hsome
      simp at hsome
    have ho := remove_python_obs_callback_other cb g s hne
    refine ⟨ys.erase cb, CallbackList_remove cb script ys hl, ?_, List.erase_sublist cb ys,
      ?_, ho.2.2.2, ho.2.1⟩
    · exact (List.mem_erase_of_ne hne).mpr hg
    · rw [ho.1]; exact hrem

/-- Witness for C10: script 0 connects `fn 7` globally to handler 5 (record 1)
and then calls the scoped disconnect with the same handler and function:
record 1 stays in the list, not removed. -/
theorem scoped_disconnect_keeps_global_record_witness :
    CallbackList connected_global 0 [1] ∧
    calldata_string_signal 1 connected_global = none ∧
    calldata_ptr_handler 1 connected_global = some 5 ∧
    (∃ ys2, CallbackList (obs_python_signal_handler_disconnect 5
        (some (py_handler, "a", fn 7)) connected_global) 0 ys2 ∧ 1 ∈ ys2 ∧
      ys2.Sublist [1] ∧
      ((obs_python_signal_handler_disconnect 5 (some (py_handler, "a", fn 7))
        connected_global).callbacks 1).base.removed = false ∧
      ((obs_python_signal_handler_disconnect 5 (some (py_handler, "a", fn 7))
        connected_global).callbacks 1).func = (connected_global.callbacks 1).func ∧
      ((obs_python_signal_handler_disconnect 5 (some (py_handler, "a", fn 7))
        connected_global).callbacks 1).base.extra = (connected_global.callbacks 1).base.extra) :=
  have h1 := scoped_disconnect_keeps_global_record.1 script_running 0 py_handler (fn 7)
    (some 5) [] rfl rfl rfl rfl (by simp)
  ⟨h1.1, h1.2.1, h1.2.2.1,
   scoped_disconnect_keeps_global_record.2 5 (some (py_handler, "a", fn 7)) connected_global
     0 [1] 1 h1.1 (by simp) h1.2.1 h1.2.2.2.1⟩

/-- C4, the code at the failing input: script 0 has connected `fn 7` to the
signal `"a"` of handler 5 (record 1).  The scoped disconnect for the signal
`"b"` of the same handler and function removes record 1, whose stored signal
name is `"a"`; the scoped disconnect for the signal `"a"` removes nothing. -/
theorem disconnect_removes_record_of_other_signal :
    CallbackList connected_a 0 [1] ∧
    calldata_string_signal 1 connected_a = some "a" ∧
    calldata_ptr_handler 1 connected_a = some 5 ∧
    (connected_a.callbacks 1).func = some (fn 7) ∧
    ((obs_python_signal_handler_disconnect 5 (some (py_handler, "b", fn 7))
      connected_a).callbacks 1).base.removed = true ∧
    CallbackList (obs_python_signal_handler_disconnect 5 (some (py_handler, "b", fn 7))
      connected_a) 0 [] ∧
    ((obs_python_signal_handler_disconnect 5 (some (py_handler, "a", fn 7))
      connected_a).callbacks 1).base.removed = false ∧
    CallbackList (obs_python_signal_handler_disconnect 5 (some (py_handler, "a", fn 7))
      connected_a) 0 [1] := by
  refine ⟨⟨rfl, rfl⟩, rfl, rfl, rfl, by decide, ?_, by decide, ⟨by decide, ?_⟩⟩
  · show (_ : Option Nat) = none
    decide
  · show (_ : Option Nat) = none
    decide

/-! ## Enumeration of the records of a function (Lua binding) -/

theorem LuaChain_congr {L L2 : LuaScript} :
    ∀ (ys : List Nat) (p : Option Nat),
      (∀ a ∈ ys, (L2.callbacks a).base.next = (L.callbacks a).base.next) →
      LuaChain L p ys → LuaChain L2 p ys
  | [], _, _, h => h
  | x :: ys, _, hx, h =>
      ⟨h.1, by
        rw [hx x (by simp)]
        exact LuaChain_congr ys _ (fun a ha => hx a (by simp [ha])) h.2⟩

theorem lua_index_pushed (stack : List LuaValue) (v : LuaValue) :
    lua_index (stack ++ [v]) (-1) = some v := by
  unfold lua_index
  simp

theorem lua_index_below (stack : List LuaValue) (v : LuaValue) (idx : Int) (h0 : 0 < idx)
    (h1 : idx ≤ stack.length) : lua_index (stack ++ [v]) idx = lua_index stack idx := by
  unfold lua_index
  rw [if_pos h0, if_pos h0]
  exact List.getElem?_append_left (by omega)

/-- With the registry value of a record pushed, the comparison of the index
`-1` with an absolute index of the caller is the comparison of the pinned
value with the value the caller gave. -/
theorem lua_rawequal_at_pushed (stack_idx : Int) (L : LuaScript) (cb : Nat)
    (habs : lua_absolute stack_idx L) :
    lua_rawequal_at (L.stack ++ [L.registry (L.callbacks cb).reg_idx]) (-1) stack_idx
      = lua_matches stack_idx L cb := by
  unfold lua_rawequal_at lua_matches
  rw [lua_index_pushed, lua_index_below _ _ _ habs.1 habs.2]
  cases lua_index L.stack stack_idx <;> rfl

/-- The scan finds the first matching record of the chain and stops there. -/
theorem lua_find_loop_spec (stack_idx : Int) (L : LuaScript)
    (habs : lua_absolute stack_idx L) :
    ∀ (ys : List Nat) (p : Option Nat) (fuel : Nat), LuaChain L p ys → ys.length ≤ fuel →
      (lua_find_loop stack_idx L fuel p = none ∧ ys.filter (lua_matches stack_idx L) = []) ∨
      ∃ pre c post, ys = pre ++ c :: post ∧ pre.filter (lua_matches stack_idx L) = [] ∧
        lua_matches stack_idx L c = true ∧ lua_find_loop stack_idx L fuel p = some c
  | [], p, fuel, h, _ => by
      have hp : p = none := h
      subst hp
      left
      cases fuel <;> exact ⟨rfl, rfl⟩
  | x :: ys, p, fuel, h, hf => by
      obtain ⟨hp, hrest⟩ := h
      subst hp
      cases fuel with
      | zero => simp at hf
      | succ fuel =>
          by_cases hm : lua_matches stack_idx L x = true
          · right
            refine ⟨[], x, ys, rfl, rfl, hm, ?_⟩
            simp [lua_find_loop, lua_rawequal_at_pushed stack_idx L x habs, hm]
          · have hstep : lua_find_loop stack_idx L (fuel + 1) (some x) =
                lua_find_loop stack_idx L fuel (L.callbacks x).base.next := by
              simp [lua_find_loop, lua_rawequal_at_pushed stack_idx L x habs, hm]
            rcases lua_find_loop_spec stack_idx L habs ys _ fuel hrest (by simpa using hf) with
              ⟨h1, h2⟩ | ⟨pre, c, post, h1, h2, h3, h4⟩
            · left
              exact ⟨hstep.trans h1, by simp [List.filter_cons, hm, h2]⟩
            · right
              exact ⟨x :: pre, c, post, by simp [h1], by simp [List.filter_cons, hm, h2], h3,
                hstep.trans h4⟩

theorem LuaChain_drop {L : LuaScript} :
    ∀ (pre : List Nat) (p : Option Nat) (t : Nat) (post : List Nat),
      LuaChain L p (pre ++ t :: post) → LuaChain L (L.callbacks t).base.next post
  | [], _, _, _, h => h.2
  | _ :: pre, _, t, post, h => LuaChain_drop pre _ t post h.2

theorem lua_enumerate_spec (stack_idx : Int) (L : LuaScript) (fuel : Nat)
    (habs : lua_absolute stack_idx L) :
    ∀ (n : Nat) (ys : List Nat) (p : Option Nat), LuaChain L p ys → ys.length ≤ n →
      ys.length ≤ fuel →
      lua_enumerate fuel stack_idx L n (lua_find_loop stack_idx L fuel p) =
        ys.filter (lua_matches stack_idx L)
  | 0, ys, p, h, hn, _ => by
      have : ys = [] := List.length_eq_zero.mp (Nat.le_zero.mp hn)
      subst this
      rfl
  | n + 1, ys, p, h, hn, hf => by
      rcases lua_find_loop_spec stack_idx L habs ys p fuel h hf with
        ⟨h1, h2⟩ | ⟨pre, c, post, h1, h2, h3, h4⟩
      · rw [h1, h2]; rfl
      · subst h1
        rw [h4]
        have hpost := LuaChain_drop pre p c post h
        have hlen : post.length ≤ n := by
          simp at hn; omega
        have hlen2 : post.length ≤ fuel := by
          simp at hf; omega
        have ih := lua_enumerate_spec stack_idx L fuel habs n post _ hpost hlen hlen2
        simp only [lua_enumerate, find_next_lua_obs_callback, ih, List.filter_append,
          List.filter_cons, h2, h3, if_true, List.nil_append]

theorem lua_find_all_eq (stack_idx : Int) (L : LuaScript) (fuel : Nat) (ys : List Nat)
    (habs : lua_absolute stack_idx L) (h : LuaList L ys) (hf : ys.length ≤ fuel) :
    lua_find_all fuel stack_idx L = ys.filter (lua_matches stack_idx L) :=
  lua_enumerate_spec stack_idx L fuel habs fuel ys _ h hf hf

theorem luaL_ref_fields (v : LuaValue) (L : LuaScript) :
    (luaL_ref v L).2.callbacks = L.callbacks ∧
    (luaL_ref v L).2.first_callback = L.first_callback ∧
    (luaL_ref v L).2.next_alloc = L.next_alloc := by
  unfold luaL_ref
  split <;> exact ⟨rfl, rfl, rfl⟩

theorem luaL_ref_stack (v : LuaValue) (L : LuaScript) : (luaL_ref v L).2.stack = L.stack := by
  unfold luaL_ref
  split <;> rfl

/-- A registration leaves the stack as it was. -/
theorem add_lua_obs_callback_extra_stack (stack_idx : Int) (extra_size : Nat)
    (L : LuaScript) : (add_lua_obs_callback_extra stack_idx extra_size L).2.stack = L.stack := by
  unfold add_lua_obs_callback_extra lua_add_script_callback lua_set_callback
  simp [luaL_ref_stack]

theorem lua_register_all_stack (L : LuaScript) :
    ∀ idxs : List Int, (lua_register_all idxs L).stack = L.stack := by
  intro idxs
  induction idxs using List.reverseRecOn with
  | nil => rfl
  | append_singleton pre i ih =>
      have hreg : lua_register_all (pre ++ [i]) L =
          (add_lua_obs_callback_extra i 0 (lua_register_all pre L)).2 := by
        simp [lua_register_all, List.foldl_append]
      rw [hreg, add_lua_obs_callback_extra_stack, ih]

/-- A registration links the new record, allocated at `next_alloc`, in front of
the records registered before. -/
theorem add_lua_obs_callback_extra_list (stack_idx : Int) (extra_size : Nat)
    (L : LuaScript) (ys : List Nat) (h : LuaList L ys) (hal : ∀ a ∈ ys, a < L.next_alloc) :
    (add_lua_obs_callback_extra stack_idx extra_size L).1 = L.next_alloc ∧
    (add_lua_obs_callback_extra stack_idx extra_size L).2.next_alloc = L.next_alloc + 1 ∧
    LuaList (add_lua_obs_callback_extra stack_idx extra_size L).2 (L.next_alloc :: ys) := by
  have hn : ∀ a, ((add_lua_obs_callback_extra stack_idx extra_size L).2.callbacks a).base.next
      = if a = L.next_alloc then L.first_callback else (L.callbacks a).base.next := by
    intro a
    unfold add_lua_obs_callback_extra lua_add_script_callback lua_set_callback
    simp only []
    have h3 := luaL_ref_fields
    by_cases ha : a = L.next_alloc
    · subst ha; simp [(h3 _ _).1]
    · simp [(h3 _ _).1, Function.update_noteq ha, ha]
  have hfirst : (add_lua_obs_callback_extra stack_idx extra_size L).2.first_callback
      = some L.next_alloc := by
    unfold add_lua_obs_callback_extra lua_add_script_callback lua_set_callback
    simp [(luaL_ref_fields _ _).2.1]
  refine ⟨rfl, ?_, ?_⟩
  · unfold add_lua_obs_callback_extra lua_add_script_callback lua_set_callback
    simp [(luaL_ref_fields _ _).2.2]
  · refine ⟨hfirst, ?_⟩
    rw [hn, if_pos rfl]
    refine LuaChain_congr ys _ ?_ h
    intro a ha
    rw [hn, if_neg (Nat.ne_of_lt (hal a ha))]

/-- After the registrations `idxs`, made in this order from an empty list, the
`k`-th registered record is at address `next_alloc + k` and the callback list
holds the records newest first. -/
theorem lua_register_all_list (L : LuaScript) (h0 : L.first_callback = none) :
    ∀ idxs : List Int,
      (lua_register_all idxs L).next_alloc = L.next_alloc + idxs.length ∧
      LuaList (lua_register_all idxs L)
        ((List.range idxs.length).reverse.map (fun k => L.next_alloc + k)) := by
  intro idxs
  induction idxs using List.reverseRecOn with
  | nil => exact ⟨rfl, h0⟩
  | append_singleton pre i ih =>
      have hreg : lua_register_all (pre ++ [i]) L =
          (add_lua_obs_callback_extra i 0 (lua_register_all pre L)).2 := by
        simp [lua_register_all, List.foldl_append]
      have hadd := add_lua_obs_callback_extra_list i 0 (lua_register_all pre L) _ ih.2
        (by
          intro a ha
          simp only [List.mem_map, List.mem_reverse, List.mem_range] at ha
          obtain ⟨k, hk, rfl⟩ := ha
          rw [ih.1]
          omega)
      rw [hreg]
      refine ⟨by rw [hadd.2.1, ih.1]; simp; omega, ?_⟩
      have hl : (List.range (pre ++ [i]).length).reverse.map (fun k => L.next_alloc + k) =
          (lua_register_all pre L).next_alloc ::
            (List.range pre.length).reverse.map (fun k => L.next_alloc + k) := by
        rw [ih.1]
        simp [List.range_succ]
      rw [hl]
      exact hadd.2.2

/-- C5, the claim as stated fails: the function at stack index 1 is registered
twice (records 0 and then 1, in this order of registration); `find` and
`find_next` return record 1 first and record 0 after it. -/
theorem lua_find_returns_newest_first :
    (add_lua_obs_callback_extra 1 0 lua_script_empty).1 = 0 ∧
    (add_lua_obs_callback_extra 1 0 (add_lua_obs_callback_extra 1 0 lua_script_empty).2).1 = 1 ∧
    lua_find_all 5 1 (lua_register_all [1, 1] lua_script_empty) = [1, 0] ∧
    lua_find_all 5 1 (lua_register_all [1, 1] lua_script_empty) ≠ [0, 1] := by
  refine ⟨by decide, by decide, by decide, by decide⟩

/-- C5, amended: for a function value given by an absolute stack index
(`lua_absolute`), `find` followed by repeated `find_next` (with enough fuel for
the length of the list) yields exactly the records of the callback list whose
pinned function is identical to the given value, each once, in list order;
and the list order is the reverse of the registration order: a registration
links the new record at the head, so after the registrations `idxs` made from
an empty list the list holds the records newest first. -/
theorem lua_find_enumerates_in_list_order :
    (∀ (stack_idx : Int) (L : LuaScript) (fuel : Nat) (ys : List Nat),
      lua_absolute stack_idx L → LuaList L ys → ys.length ≤ fuel →
      lua_find_all fuel stack_idx L = ys.filter (lua_matches stack_idx L)) ∧
    (∀ (L : LuaScript) (idxs : List Int), L.first_callback = none →
      (∀ i ∈ idxs, lua_absolute i L) →
      LuaList (lua_register_all idxs L)
        ((List.range idxs.length).reverse.map (fun k => L.next_alloc + k)) ∧
      ∀ (stack_idx : Int) (fuel : Nat), lua_absolute stack_idx L → idxs.length ≤ fuel →
        lua_find_all fuel stack_idx (lua_register_all idxs L) =
          ((List.range idxs.length).reverse.map (fun k => L.next_alloc + k)).filter
            (lua_matches stack_idx (lua_register_all idxs L))) := by
  refine ⟨fun stack_idx L fuel ys habs h hf => lua_find_all_eq stack_idx L fuel ys habs h hf,
    ?_⟩
  intro L idxs h0 _
  have h := (lua_register_all_list L h0 idxs).2
  refine ⟨h, ?_⟩
  intro stack_idx fuel habs hf
  have habs2 : lua_absolute stack_idx (lua_register_all idxs L) := by
    unfold lua_absolute
    rw [lua_register_all_stack]
    exact habs
  exact lua_find_all_eq stack_idx _ fuel _ habs2 h (by simpa using hf)

/-- Witness for the amended C5: three registrations (function 7, nil, function
7) from the empty script; the two records of function 7 are returned newest
first. -/
theorem lua_find_enumerates_in_list_order_witness :
    lua_absolute 1 lua_script_empty ∧ lua_absolute 2 lua_script_empty ∧
    LuaList (lua_register_all [1, 2, 1] lua_script_empty) [2, 1, 0] ∧
    lua_find_all 3 1 (lua_register_all [1, 2, 1] lua_script_empty) = [2, 0] :=
  have h1 : lua_absolute 1 lua_script_empty := ⟨by decide, by decide⟩
  have h2 : lua_absolute 2 lua_script_empty := ⟨by decide, by decide⟩
  have h := lua_find_enumerates_in_list_order.2 lua_script_empty [1, 2, 1] rfl
    (fun i hi => by
      simp only [List.mem_cons, List.mem_singleton, List.not_mem_nil, or_false] at hi
      rcases hi with rfl | rfl | rfl
      · exact h1
      · exact h2
      · exact h1)
  ⟨h1, h2, h.1, h.2 1 3 h1 (by decide)⟩

/-- A negative index is resolved on the stack with the registry value pushed:
with `-1` every record is compared with its own pinned value and matches, with
`-2` the records are compared with the value that was on top of the caller's
stack (here `nil`, index 2). -/
theorem lua_find_negative_index_shifted :
    lua_find_all 3 (-1) (lua_register_all [1, 2, 1] lua_script_empty) = [2, 1, 0] ∧
    lua_find_all 3 (-2) (lua_register_all [1, 2, 1] lua_script_empty) = [1] ∧
    lua_find_all 3 2 (lua_register_all [1, 2, 1] lua_script_empty) = [1] := by
  refine ⟨by decide, by decide, by decide⟩

/-! ## Chains of tick scripts -/

@[simp] theorem set_script_scripts (i : Nat) (v : obs_python_script) (s : State) :
    (set_script i v s).scripts = Function.update s.scripts i v := rfl

@[simp] theorem set_script_first_tick_script (i : Nat) (v : obs_python_script) (s : State) :
    (set_script i v s).first_tick_script = s.first_tick_script := rfl

theorem load_set_script (s : State) (slot : TickSlot) (n : Nat) (v : obs_python_script)
    (h : v.next_tick = (s.scripts n).next_tick) :
    load_tick_slot (set_script n v s) slot = load_tick_slot s slot := by
  cases slot with
  | first_tick_script => rfl
  | next_tick_of p =>
      by_cases hp : p = n
      · subst hp; simp [load_tick_slot, h]
      · simp [load_tick_slot, Function.update_noteq hp]

theorem load_tick_store_same (s : State) (slot : TickSlot) (v : Option Nat) :
    load_tick_slot (store_tick_slot (some slot) v s) slot = v := by
  cases slot <;> simp [load_tick_slot, store_tick_slot]

theorem load_tick_store_other (s : State) (slot slot2 : TickSlot) (v : Option Nat)
    (h : slot2 ≠ slot) :
    load_tick_slot (store_tick_slot (some slot2) v s) slot = load_tick_slot s slot := by
  cases slot <;> cases slot2 <;> simp_all [load_tick_slot, store_tick_slot]
  rename_i a b
  have : a ≠ b := fun h2 => h h2.symm
  simp [Function.update_noteq this]

theorem store_tick_p_prev (s : State) (slot : Option TickSlot) (v : Option Nat) (u : Nat) :
    ((store_tick_slot slot v s).scripts u).p_prev_next_tick
      = (s.scripts u).p_prev_next_tick := by
  rcases slot with _ | slot
  · rfl
  · cases slot with
    | first_tick_script => rfl
    | next_tick_of p =>
        by_cases hp : u = p
        · subst hp; simp [store_tick_slot]
        · simp [store_tick_slot, Function.update_noteq hp]

theorem store_tick_next_other (s : State) (slot : TickSlot) (v : Option Nat) (u : Nat)
    (h : slot ≠ TickSlot.next_tick_of u) :
    ((store_tick_slot (some slot) v s).scripts u).next_tick = (s.scripts u).next_tick := by
  cases slot with
  | first_tick_script => rfl
  | next_tick_of p =>
      have hp : u ≠ p := fun e => h (by rw [e])
      simp [store_tick_slot, Function.update_noteq hp]

theorem TickChain_congr {s s2 : State} :
    ∀ (xs : List Nat) (slot : TickSlot),
      load_tick_slot s2 slot = load_tick_slot s slot →
      (∀ u ∈ xs, (s2.scripts u).next_tick = (s.scripts u).next_tick ∧
        (s2.scripts u).p_prev_next_tick = (s.scripts u).p_prev_next_tick) →
      TickChain s slot xs → TickChain s2 slot xs
  | [], slot, hl, _, h => by simpa [TickChain, hl] using h
  | x :: xs, slot, hl, hx, h => by
      obtain ⟨h1, h2, h3⟩ := h
      refine ⟨by rw [hl, h1], by rw [(hx x (by simp)).2, h2], ?_⟩
      exact TickChain_congr xs (.next_tick_of x) (hx x (by simp)).1
        (fun u hu => hx u (by simp [hu])) h3

theorem TickChain_unique {s : State} :
    ∀ (xs ys : List Nat) (slot : TickSlot),
      TickChain s slot xs → TickChain s slot ys → xs = ys
  | [], [], _, _, _ => rfl
  | [], _ :: _, _, h1, h2 => by
      simp only [TickChain] at h1 h2; rw [h1] at h2; exact absurd h2.1 (by simp)
  | _ :: _, [], _, h1, h2 => by
      simp only [TickChain] at h1 h2; rw [h2] at h1; exact absurd h1.1 (by simp)
  | x :: xs, y :: ys, slot, h1, h2 => by
      obtain ⟨a1, _, a3⟩ := h1
      obtain ⟨b1, _, b3⟩ := h2
      have hxy : x = y := by rw [a1] at b1; exact Option.some.inj b1
      subst hxy
      rw [TickChain_unique xs ys _ a3 b3]

theorem TickChain_suffix {s : State} :
    ∀ (pre : List Nat) (slot : TickSlot) (t : Nat) (post : List Nat),
      TickChain s slot (pre ++ t :: post) → TickChain s (.next_tick_of t) post
  | [], _, _, _, h => h.2.2
  | x :: pre, _, t, post, h => TickChain_suffix pre (.next_tick_of x) t post h.2.2

theorem TickChain_nodup {s : State} :
    ∀ (xs : List Nat) (slot : TickSlot), TickChain s slot xs → xs.Nodup
  | [], _, _ => List.nodup_nil
  | x :: xs, _, h => by
      refine List.nodup_cons.mpr ⟨?_, TickChain_nodup xs _ h.2.2⟩
      intro hx
      obtain ⟨pre, post, rfl⟩ := List.append_of_mem hx
      have h1 : TickChain s (.next_tick_of x) (pre ++ x :: post) := h.2.2
      have h2 : TickChain s (.next_tick_of x) post := TickChain_suffix pre _ x post h1
      have hl := congrArg List.length (TickChain_unique _ _ _ h1 h2)
      simp at hl
      omega

theorem tick_slot_after_cases (slot : TickSlot) :
    ∀ pre : List Nat, tick_slot_after slot pre = slot ∨
      ∃ u ∈ pre, tick_slot_after slot pre = .next_tick_of u
  | [] => Or.inl rfl
  | x :: pre => by
      rcases tick_slot_after_cases (.next_tick_of x) pre with h | ⟨u, hu, h⟩
      · exact Or.inr ⟨x, by simp, by simpa [tick_slot_after] using h⟩
      · exact Or.inr ⟨u, by simp [hu], by simpa [tick_slot_after] using h⟩

theorem TickChain_at_mem {s : State} :
    ∀ (pre : List Nat) (slot : TickSlot) (t : Nat) (post : List Nat),
      TickChain s slot (pre ++ t :: post) →
      load_tick_slot s (tick_slot_after slot pre) = some t ∧
      (s.scripts t).p_prev_next_tick = some (tick_slot_after slot pre) ∧
      (s.scripts t).next_tick = post.head?
  | [], _, _, post, h => by
      refine ⟨h.1, h.2.1, ?_⟩
      cases post with
      | nil => exact h.2.2
      | cons n post => exact h.2.2.1
  | x :: pre, _, t, post, h => TickChain_at_mem pre (.next_tick_of x) t post h.2.2

theorem tick_unlink_eq (t : Nat) (s : State) :
    tick_unlink t s =
      store_tick_slot (s.scripts t).p_prev_next_tick (s.scripts t).next_tick
        (match (s.scripts t).next_tick with
          | some n => set_script n
              { s.scripts n with p_prev_next_tick := (s.scripts t).p_prev_next_tick } s
          | none => s) := by
  unfold tick_unlink
  cases hn : (s.scripts t).next_tick with
  | none => simp [hn]
  | some n =>
      by_cases h : t = n
      · subst h; simp [hn]
      · simp [hn, Function.update_noteq h]

theorem tick_unlink_p_prev (t u : Nat) (s : State) (h : (s.scripts t).next_tick ≠ some u) :
    ((tick_unlink t s).scripts u).p_prev_next_tick = (s.scripts u).p_prev_next_tick := by
  rw [tick_unlink_eq, store_tick_p_prev]
  cases hn : (s.scripts t).next_tick with
  | none => rfl
  | some n =>
      have hne : u ≠ n := fun e => h (by rw [hn, e])
      simp [Function.update_noteq hne]

theorem tick_unlink_load_other (t : Nat) (slot : TickSlot) (s : State)
    (h : (s.scripts t).p_prev_next_tick ≠ some slot) :
    load_tick_slot (tick_unlink t s) slot = load_tick_slot s slot := by
  rw [tick_unlink_eq]
  have key : ∀ (v : Option Nat) (s1 : State),
      load_tick_slot s1 slot = load_tick_slot s slot →
      load_tick_slot (store_tick_slot (s.scripts t).p_prev_next_tick v s1) slot
        = load_tick_slot s slot := by
    intro v s1 h1
    cases hp : (s.scripts t).p_prev_next_tick with
    | none => simpa [store_tick_slot] using h1
    | some sl =>
        rw [load_tick_store_other _ _ _ _ (fun e => h (by rw [hp, e])), h1]
  cases hn : (s.scripts t).next_tick with
  | none => exact key _ s rfl
  | some n => exact key _ _ (load_set_script _ _ _ _ rfl)

/-- Unlinking a script of a well-formed tick chain leaves the chain of the
other scripts, in the same order. -/
theorem TickChain_remove {s : State} :
    ∀ (pre : List Nat) (slot : TickSlot) (t : Nat) (post : List Nat),
      TickChain s slot (pre ++ t :: post) →
      (∀ u ∈ pre ++ t :: post, slot ≠ .next_tick_of u) →
      TickChain (tick_unlink t s) slot (pre ++ post)
  | [], slot, t, post, h, hs => by
      have hnd := TickChain_nodup _ _ h
      obtain ⟨h1, h2, h3⟩ := h
      rw [List.nil_append] at hs ⊢
      rw [tick_unlink_eq, h2]
      cases post with
      | nil =>
          have hn : (s.scripts t).next_tick = none := h3
          simp only [hn, TickChain]
          exact load_tick_store_same _ _ _
      | cons n post =>
          obtain ⟨g1, g2, g3⟩ := h3
          have hn : (s.scripts t).next_tick = some n := g1
          simp only [hn]
          have hnt : n ≠ t := fun e => by simp [e] at hnd
          refine ⟨load_tick_store_same _ _ _, ?_, ?_⟩
          · rw [store_tick_p_prev]; simp
          · have hnp : n ∉ post := (List.nodup_cons.mp (List.nodup_cons.mp hnd).2).1
            refine TickChain_congr post (.next_tick_of n) ?_ ?_ g3
            · show ((store_tick_slot _ _ _).scripts n).next_tick = (s.scripts n).next_tick
              rw [store_tick_next_other _ _ _ _ (hs n (by simp))]; simp
            · intro u hu
              have hun : u ≠ n := fun e => hnp (e ▸ hu)
              refine ⟨?_, ?_⟩
              · rw [store_tick_next_other _ _ _ _ (hs u (by simp [hu]))]
                simp [Function.update_noteq hun]
              · rw [store_tick_p_prev]; simp [Function.update_noteq hun]
  | x :: pre, slot, t, post, h, hs => by
      have hnd := TickChain_nodup _ _ h
      have hx : x ∉ pre ++ t :: post := (List.nodup_cons.mp hnd).1
      obtain ⟨h1, h2, h3⟩ := h
      have ht := TickChain_at_mem pre (.next_tick_of x) t post h3
      have ih := TickChain_remove pre (.next_tick_of x) t post h3
        (fun u hu e => hx (by cases e; exact hu))
      have hslot : (s.scripts t).p_prev_next_tick ≠ some slot := by
        rw [ht.2.1]
        intro e
        have e2 := Option.some.inj e
        rcases tick_slot_after_cases (.next_tick_of x) pre with h4 | ⟨u, hu, h4⟩
        · exact hs x (by simp) (by rw [← e2, h4])
        · exact hs u (by simp [hu]) (by rw [← e2, h4])
      refine ⟨by rw [tick_unlink_load_other _ _ _ hslot, h1], ?_, ih⟩
      rw [tick_unlink_p_prev _ _ _ ?_, h2]
      rw [ht.2.2]
      intro e
      cases post with
      | nil => simp at e
      | cons n post =>
          simp at e
          exact hx (by simp [e])

/-! ## The walk over the tick list -/

theorem tick_visit_heap (py : Runtime) (seconds z : Nat) (s : State) :
    (tick_visit py seconds z s).scripts =
      (py ⟨.script_tick z, (s.scripts z).tick, [.float seconds]⟩
        { s with cur_python_script := some z }).scripts ∧
    (tick_visit py seconds z s).callbacks =
      (py ⟨.script_tick z, (s.scripts z).tick, [.float seconds]⟩
        { s with cur_python_script := some z }).callbacks ∧
    (tick_visit py seconds z s).timers =
      (py ⟨.script_tick z, (s.scripts z).tick, [.float seconds]⟩
        { s with cur_python_script := some z }).timers ∧
    (tick_visit py seconds z s).first_tick_script =
      (py ⟨.script_tick z, (s.scripts z).tick, [.float seconds]⟩
        { s with cur_python_script := some z }).first_tick_script ∧
    (tick_visit py seconds z s).first_timer =
      (py ⟨.script_tick z, (s.scripts z).tick, [.float seconds]⟩
        { s with cur_python_script := some z }).first_timer ∧
    (tick_visit py seconds z s).next_alloc =
      (py ⟨.script_tick z, (s.scripts z).tick, [.float seconds]⟩
        { s with cur_python_script := some z }).next_alloc := by
  unfold tick_visit py_error PyObject_CallObject
  simp only []
  split <;> exact ⟨rfl, rfl, rfl, rfl, rfl, rfl⟩

theorem TickList_of_links {s s2 : State} (zs : List Nat)
    (h1 : s2.first_tick_script = s.first_tick_script)
    (h2 : ∀ u, (s2.scripts u).next_tick = (s.scripts u).next_tick ∧
      (s2.scripts u).p_prev_next_tick = (s.scripts u).p_prev_next_tick)
    (h : TickList s zs) : TickList s2 zs :=
  TickChain_congr zs .first_tick_script h1 (fun u _ => h2 u) h

theorem py_idle_tick_frame : TickFrame py_idle :=
  fun _ _ => ⟨rfl, fun _ => ⟨rfl, rfl, rfl⟩⟩

/-! ## Unload followed by a sweep -/

theorem remove_script_callback_fields (cb : Nat) (s : State) :
    (remove_script_callback cb s).timers = s.timers ∧
    (remove_script_callback cb s).first_timer = s.first_timer ∧
    (remove_script_callback cb s).next_alloc = s.next_alloc ∧
    (remove_script_callback cb s).first_tick_script = s.first_tick_script ∧
    (∀ u, ((remove_script_callback cb s).scripts u).next_tick = (s.scripts u).next_tick ∧
      ((remove_script_callback cb s).scripts u).p_prev_next_tick
        = (s.scripts u).p_prev_next_tick) ∧
    ((remove_script_callback cb s).callbacks cb).base.removed = true ∧
    (∀ a, (s.callbacks a).base.removed = true →
      ((remove_script_callback cb s).callbacks a).base.removed = true) ∧
    (∀ a, ((remove_script_callback cb s).callbacks a).base.script
      = (s.callbacks a).base.script) := by
  refine ⟨rfl, rfl, rfl, rfl, ?_, ?_, ?_, ?_⟩
  · intro u
    unfold remove_script_callback set_callback
    simp only []
    split <;> exact ⟨rfl, rfl⟩
  · unfold remove_script_callback set_callback
    simp
  · intro a h
    unfold remove_script_callback set_callback
    by_cases hac : a = cb
    · subst hac; simp
    · simp only [Function.update_noteq hac]
      split <;> simp [h]
  · intro a
    unfold remove_script_callback set_callback
    by_cases hac : a = cb
    · subst hac; simp
    · simp only [Function.update_noteq hac]
      split <;> rfl

/-- The loop of `obs_python_script_unload` over the callback list of the script
marks every record of the list removed and touches nothing else that the
global lists depend on. -/
theorem unload_callbacks_loop_spec :
    ∀ (ys : List Nat) (p : Option Nat) (s : State) (fuel : Nat), CbChain s p ys →
      ys.length ≤ fuel →
      (∀ a ∈ ys, ((unload_callbacks_loop fuel p s).callbacks a).base.removed = true) ∧
      (∀ a, (s.callbacks a).base.removed = true →
        ((unload_callbacks_loop fuel p s).callbacks a).base.removed = true) ∧
      (∀ a, ((unload_callbacks_loop fuel p s).callbacks a).base.script
        = (s.callbacks a).base.script) ∧
      (unload_callbacks_loop fuel p s).timers = s.timers ∧
      (unload_callbacks_loop fuel p s).first_timer = s.first_timer ∧
      (unload_callbacks_loop fuel p s).next_alloc = s.next_alloc ∧
      (unload_callbacks_loop fuel p s).first_tick_script = s.first_tick_script ∧
      (∀ u, ((unload_callbacks_loop fuel p s).scripts u).next_tick = (s.scripts u).next_tick ∧
        ((unload_callbacks_loop fuel p s).scripts u).p_prev_next_tick
          = (s.scripts u).p_prev_next_tick)
  | [], p, s, fuel, h, _ => by
      have hp : p = none := h
      subst hp
      cases fuel <;>
        exact ⟨fun a ha => by simp at ha, fun _ h => h, fun _ => rfl, rfl, rfl, rfl, rfl,
          fun _ => ⟨rfl, rfl⟩⟩
  | x :: ys, p, s, fuel, h, hfuel => by
      have hnd := CbChain_nodup _ _ h
      obtain ⟨hp, hrest⟩ := h
      subst hp
      cases fuel with
      | zero => simp at hfuel
      | succ fuel =>
          have hx : x ∉ ys := (List.nodup_cons.mp hnd).1
          have hf := remove_script_callback_fields x s
          have hchain : CbChain (remove_script_callback x s) (s.callbacks x).base.next ys := by
            refine CbChain_congr ys _ ?_ hrest
            intro a ha
            have := CbChain_next_ne ys _ x hrest hx a ha
            rw [remove_script_callback_next]
            simp [this]
          have ih := unload_callbacks_loop_spec ys _ (remove_script_callback x s) fuel hchain
            (by simpa using hfuel)
          have hstep : unload_callbacks_loop (fuel + 1) (some x) s =
              unload_callbacks_loop fuel (s.callbacks x).base.next
                (remove_script_callback x s) := rfl
          rw [hstep]
          refine ⟨?_, ?_, ?_, ih.2.2.2.1.trans hf.1, ih.2.2.2.2.1.trans hf.2.1,
            ih.2.2.2.2.2.1.trans hf.2.2.1, ih.2.2.2.2.2.2.1.trans hf.2.2.2.1, ?_⟩
          · intro a ha
            rcases List.mem_cons.mp ha with e | e
            · subst e
              exact ih.2.1 a hf.2.2.2.2.2.1
            · exact ih.1 a e
          · intro a ha
            exact ih.2.1 a (hf.2.2.2.2.2.2.1 a ha)
          · intro a
            exact (ih.2.2.1 a).trans (hf.2.2.2.2.2.2.2 a)
          · intro u
            exact ⟨((ih.2.2.2.2.2.2.2 u).1).trans (hf.2.2.2.2.1 u).1,
              ((ih.2.2.2.2.2.2.2 u).2).trans (hf.2.2.2.2.1 u).2⟩

theorem UnloadInv_of_SameHeap {A xs ys zs : List Nat} {d : Nat} {s s2 : State}
    (h : SameHeap s s2) (hinv : UnloadInv A xs ys zs d s) : UnloadInv A xs ys zs d s2 := by
  obtain ⟨h1, h2, h3, h4, h5, h6⟩ := h
  obtain ⟨i1, i2, i3, i4, i5⟩ := hinv
  refine ⟨?_, ?_, ?_, ?_, ?_⟩
  · intro t ht
    rw [h6]
    exact i1 t ht
  · exact TickList_of_links zs h4 h1 i2
  · exact TimerList_of_timers_eq xs h5 h3 i3
  · intro a ha
    rw [h2]
    exact i4 a ha
  · intro t ht
    rw [h2]
    exact i5 t ht

/-- The invariant survives a script function that respects the frames. -/
theorem UnloadInv_py {py : Runtime} {A xs ys zs : List Nat} {d : Nat}
    (hf1 : TimerFrame py A) (hf2 : TickFrame py) (hf3 : RecordFrame py A)
    (hxs : ∀ t ∈ xs, t ∈ A) (hys : ∀ a ∈ ys, a ∈ A) (c : PyCall) (s : State)
    (hinv : UnloadInv A xs ys zs d s) : UnloadInv A xs ys zs d (py c s) := by
  obtain ⟨i1, i2, i3, i4, i5⟩ := hinv
  have g1 := hf1 c s i1
  have g2 := hf2 c s
  have g3 := hf3 c s i1
  refine ⟨g1.2.2, ?_, ?_, ?_, ?_⟩
  · exact TickList_of_links zs g2.1 (fun u => ⟨(g2.2 u).1, (g2.2 u).2.1⟩) i2
  · exact TimerChain_congr xs .first_timer g1.1
      (fun u hu => by rw [g1.2.1 u (hxs u hu)]; exact ⟨rfl, rfl⟩) i3
  · intro a ha
    exact (g3 a (hys a ha)).1 (i4 a ha)
  · intro t ht hown
    rw [(g3 t (hxs t ht)).2] at hown
    exact (g3 t (hxs t ht)).1 (i5 t ht hown)

theorem UnloadInv_tick_visit {py : Runtime} {A xs ys zs : List Nat} {d : Nat}
    (hf1 : TimerFrame py A) (hf2 : TickFrame py) (hf3 : RecordFrame py A)
    (hxs : ∀ t ∈ xs, t ∈ A) (hys : ∀ a ∈ ys, a ∈ A) (seconds z : Nat) (s : State)
    (hinv : UnloadInv A xs ys zs d s) :
    UnloadInv A xs ys zs d (tick_visit py seconds z s) := by
  have h := tick_visit_heap py seconds z s
  have hpy := UnloadInv_py hf1 hf2 hf3 hxs hys
    ⟨.script_tick z, (s.scripts z).tick, [.float seconds]⟩
    { s with cur_python_script := some z }
    (UnloadInv_of_SameHeap (s := s) ⟨fun _ => ⟨rfl, rfl⟩, rfl, rfl, rfl, rfl, rfl⟩ hinv)
  exact UnloadInv_of_SameHeap ⟨fun u => by rw [h.1]; exact ⟨rfl, rfl⟩, h.2.1, h.2.2.1,
    h.2.2.2.1, h.2.2.2.2.1, h.2.2.2.2.2⟩ hpy

theorem UnloadInv_tick_loop {py : Runtime} {A xs ys zs : List Nat} {d : Nat}
    (hf1 : TimerFrame py A) (hf2 : TickFrame py) (hf3 : RecordFrame py A)
    (hxs : ∀ t ∈ xs, t ∈ A) (hys : ∀ a ∈ ys, a ∈ A) (seconds : Nat) :
    ∀ (fuel : Nat) (p : Option Nat) (s : State), UnloadInv A xs ys zs d s →
      UnloadInv A xs ys zs d (tick_loop py seconds fuel p s)
  | 0, _, _, h => h
  | _ + 1, none, _, h => h
  | fuel + 1, some z, s, h =>
      UnloadInv_tick_loop hf1 hf2 hf3 hxs hys seconds fuel _ _
        (UnloadInv_tick_visit hf1 hf2 hf3 hxs hys seconds z s h)

theorem UnloadInv_python_tick_scripts {py : Runtime} {A xs ys zs : List Nat} {d : Nat}
    (hf1 : TimerFrame py A) (hf2 : TickFrame py) (hf3 : RecordFrame py A)
    (hxs : ∀ t ∈ xs, t ∈ A) (hys : ∀ a ∈ ys, a ∈ A) (fuel seconds : Nat) (s : State)
    (hinv : UnloadInv A xs ys zs d s) :
    UnloadInv A xs ys zs d (python_tick_scripts py fuel seconds s) := by
  unfold python_tick_scripts
  by_cases hv : (lock_tick_mutex s).first_tick_script.isSome = true
  · simp only [hv, if_true]
    have h0 : UnloadInv A xs ys zs d
        (lock_tick_mutex (lock_python (unlock_tick_mutex (lock_tick_mutex s)))) :=
      UnloadInv_of_SameHeap (s := s) ⟨fun _ => ⟨rfl, rfl⟩, rfl, rfl, rfl, rfl, rfl⟩ hinv
    have h1 := UnloadInv_tick_loop hf1 hf2 hf3 hxs hys seconds fuel
      (lock_tick_mutex (lock_python (unlock_tick_mutex (lock_tick_mutex s)))).first_tick_script
      _ h0
    refine UnloadInv_of_SameHeap ?_ h1
    exact ⟨fun _ => ⟨rfl, rfl⟩, rfl, rfl, rfl, rfl, rfl⟩
  · simp only [hv, if_false]
    exact UnloadInv_of_SameHeap (s := s) ⟨fun _ => ⟨rfl, rfl⟩, rfl, rfl, rfl, rfl, rfl⟩ hinv

theorem UnloadInv_unload_python_script {py : Runtime} {A xs ys zs : List Nat} {d : Nat}
    (hf1 : TimerFrame py A) (hf2 : TickFrame py) (hf3 : RecordFrame py A)
    (hxs : ∀ t ∈ xs, t ∈ A) (hys : ∀ a ∈ ys, a ∈ A) (data : Nat) (s : State)
    (hinv : UnloadInv A xs ys zs d s) :
    UnloadInv A xs ys zs d (unload_python_script py data s) := by
  unfold unload_python_script
  simp only []
  split
  · exact UnloadInv_of_SameHeap (s := s) ⟨fun _ => ⟨rfl, rfl⟩, rfl, rfl, rfl, rfl, rfl⟩ hinv
  · have hpy := UnloadInv_py hf1 hf2 hf3 hxs hys
      ⟨.script_unload data, (s.scripts data).unload_attr, []⟩
      { s with cur_python_script := some data }
      (UnloadInv_of_SameHeap (s := s) ⟨fun _ => ⟨rfl, rfl⟩, rfl, rfl, rfl, rfl, rfl⟩ hinv)
    refine UnloadInv_of_SameHeap ?_ hpy
    unfold py_error PyObject_CallObject
    simp only []
    split <;> exact ⟨fun _ => ⟨rfl, rfl⟩, rfl, rfl, rfl, rfl, rfl⟩

theorem store_tick_slot_fields (sl : Option TickSlot) (v : Option Nat) (s : State) :
    (store_tick_slot sl v s).callbacks = s.callbacks ∧
    (store_tick_slot sl v s).timers = s.timers ∧
    (store_tick_slot sl v s).first_timer = s.first_timer ∧
    (store_tick_slot sl v s).next_alloc = s.next_alloc ∧
    ∀ u, ((store_tick_slot sl v s).scripts u).first_callback = (s.scripts u).first_callback := by
  rcases sl with _ | sl
  · exact ⟨rfl, rfl, rfl, rfl, fun _ => rfl⟩
  · cases sl with
    | first_tick_script => exact ⟨rfl, rfl, rfl, rfl, fun _ => rfl⟩
    | next_tick_of p =>
        refine ⟨rfl, rfl, rfl, rfl, fun u => ?_⟩
        by_cases hp : u = p
        · subst hp; simp [store_tick_slot]
        · simp [store_tick_slot, Function.update_noteq hp]

theorem tick_unlink_fields (d : Nat) (s : State) :
    (tick_unlink d s).callbacks = s.callbacks ∧
    (tick_unlink d s).timers = s.timers ∧
    (tick_unlink d s).first_timer = s.first_timer ∧
    (tick_unlink d s).next_alloc = s.next_alloc ∧
    ∀ u, ((tick_unlink d s).scripts u).first_callback = (s.scripts u).first_callback := by
  rw [tick_unlink_eq]
  have key := store_tick_slot_fields
  cases hn : (s.scripts d).next_tick with
  | none => exact key _ _ s
  | some n =>
      refine ⟨(key _ _ _).1, (key _ _ _).2.1, (key _ _ _).2.2.1, (key _ _ _).2.2.2.1, ?_⟩
      intro u
      rw [(key _ _ _).2.2.2.2 u]
      by_cases hu : u = n
      · subst hu; simp
      · simp [Function.update_noteq hu]

/-- The block "unhook tick function": the script leaves the tick list, the
other scripts stay in order; nothing else the callback and timer lists depend
on is written. -/
theorem unhook_tick_spec (d : Nat) (s : State) (zs : List Nat) (htick : TickList s zs)
    (hlinked : d ∉ zs → (s.scripts d).p_prev_next_tick = none) :
    TickList (unhook_tick d s) (zs.erase d) ∧
    (unhook_tick d s).callbacks = s.callbacks ∧
    (unhook_tick d s).timers = s.timers ∧
    (unhook_tick d s).first_timer = s.first_timer ∧
    (unhook_tick d s).next_alloc = s.next_alloc ∧
    ∀ u, ((unhook_tick d s).scripts u).first_callback = (s.scripts u).first_callback := by
  unfold unhook_tick
  by_cases hp : (s.scripts d).p_prev_next_tick = none
  · have hd : d ∉ zs := by
      intro hmem
      obtain ⟨pre, post, rfl⟩ := List.append_of_mem hmem
      have := (TickChain_at_mem pre _ d post htick).2.1
      rw [hp] at this
      simp at this
    have hcond : ¬ ((s.scripts d).p_prev_next_tick ≠ none) := fun h => h hp
    rw [if_neg hcond, List.erase_of_not_mem hd]
    exact ⟨htick, rfl, rfl, rfl, rfl, fun _ => rfl⟩
  · have hd : d ∈ zs := by
      by_contra hnot
      exact hp (hlinked hnot)
    obtain ⟨pre, post, rfl⟩ := List.append_of_mem hd
    have hnd := TickChain_nodup _ _ htick
    have hdpre : d ∉ pre := fun hm =>
      (List.nodup_append.mp hnd).2.2 hm (List.mem_cons_self d post)
    have hdpost : d ∉ post := (List.nodup_cons.mp (List.nodup_append.mp hnd).2.1).1
    have herase : (pre ++ d :: post).erase d = pre ++ post := by
      rw [List.erase_append_right _ hdpre, List.erase_cons_head]
    have hlock : TickChain (lock_tick_mutex s) .first_tick_script (pre ++ d :: post) :=
      TickChain_congr (s := s) _ _ rfl (fun _ _ => ⟨rfl, rfl⟩) htick
    have hrem := TickChain_remove pre .first_tick_script d post hlock (fun _ _ e => by cases e)
    have hfl := tick_unlink_fields d (lock_tick_mutex s)
    rw [if_pos hp, herase]
    refine ⟨?_, hfl.1, hfl.2.1, hfl.2.2.1, hfl.2.2.2.1, ?_⟩
    · refine TickChain_congr (s := tick_unlink d (lock_tick_mutex s)) _ _ rfl ?_ hrem
      intro u hu
      have hud : u ≠ d := by
        intro e
        subst e
        rcases List.mem_append.mp hu with h | h
        · exact hdpre h
        · exact hdpost h
      simp [unlock_tick_mutex, Function.update_noteq hud]
    · intro u
      by_cases hud : u = d
      · subst hud
        simp [unlock_tick_mutex]
        exact hfl.2.2.2.2 u
      · simp [unlock_tick_mutex, Function.update_noteq hud]
        exact hfl.2.2.2.2 u

/-- After `obs_python_script_unload` of a loaded script the invariant
`UnloadInv` holds, with the tick list without the script. -/
theorem obs_python_script_unload_inv {py : Runtime} {A xs ys zs : List Nat}
    (hf1 : TimerFrame py A) (hf2 : TickFrame py) (hf3 : RecordFrame py A)
    (hxs : ∀ t ∈ xs, t ∈ A) (hys : ∀ a ∈ ys, a ∈ A) (fuel d : Nat) (s : State)
    (hloaded : (s.scripts d).loaded = true)
    (htick : TickList s zs) (hlinked : d ∉ zs → (s.scripts d).p_prev_next_tick = none)
    (htimers : TimerList s xs) (hcbs : CallbackList s d ys)
    (hown : ∀ t ∈ xs, (s.callbacks t).base.script = some d →
      (s.callbacks t).base.removed = true ∨ t ∈ ys)
    (hal : Allocated A s) (hfuel : ys.length ≤ fuel) :
    UnloadInv A xs ys (zs.erase d) d (obs_python_script_unload py fuel d s) := by
  have hu := unhook_tick_spec d s zs htick hlinked
  have hchain : CbChain
      (set_script d { (lock_python (unhook_tick d s)).scripts d with tick := none }
        (lock_python (unhook_tick d s)))
      ((set_script d { (lock_python (unhook_tick d s)).scripts d with tick := none }
        (lock_python (unhook_tick d s))).scripts d).first_callback ys := by
    have h1 : ((set_script d { (lock_python (unhook_tick d s)).scripts d with tick := none }
        (lock_python (unhook_tick d s))).scripts d).first_callback
        = (s.scripts d).first_callback := by
      simp [lock_python]
      exact hu.2.2.2.2.2 d
    rw [h1]
    refine CbChain_congr (s := s) ys _ ?_ hcbs
    intro a _
    show ((unhook_tick d s).callbacks a).base.next = _
    rw [hu.2.1]
  have hl := unload_callbacks_loop_spec ys _ _ fuel hchain hfuel
  have hinv4 : UnloadInv A xs ys (zs.erase d) d
      (unload_callbacks_loop fuel
        ((set_script d { (lock_python (unhook_tick d s)).scripts d with tick := none }
          (lock_python (unhook_tick d s))).scripts d).first_callback
        (set_script d { (lock_python (unhook_tick d s)).scripts d with tick := none }
          (lock_python (unhook_tick d s)))) := by
    refine ⟨?_, ?_, ?_, hl.1, ?_⟩
    · intro t ht
      rw [hl.2.2.2.2.2.1]
      show t < (unhook_tick d s).next_alloc
      rw [hu.2.2.2.2.1]
      exact hal t ht
    · refine TickList_of_links (s := unhook_tick d s) _ ?_ ?_ hu.1
      · rw [hl.2.2.2.2.2.2.1]; rfl
      · intro u
        rw [(hl.2.2.2.2.2.2.2 u).1, (hl.2.2.2.2.2.2.2 u).2]
        by_cases hud : u = d
        · subst hud; simp [lock_python]
        · simp [lock_python, Function.update_noteq hud]
    · refine TimerList_of_timers_eq (s := s) xs ?_ ?_ htimers
      · rw [hl.2.2.2.2.1]
        exact hu.2.2.2.1
      · rw [hl.2.2.2.1]
        exact hu.2.2.1
    · intro t ht hsc
      rw [hl.2.2.1 t] at hsc
      have hsc2 : (s.callbacks t).base.script = some d := by
        have : (unhook_tick d s).callbacks t = s.callbacks t := by rw [hu.2.1]
        rw [← this]
        exact hsc
      rcases hown t ht hsc2 with h | h
      · apply hl.2.1 t
        show ((unhook_tick d s).callbacks t).base.removed = true
        rw [hu.2.1]
        exact h
      · exact hl.1 t h
  have hinv5 := UnloadInv_unload_python_script hf1 hf2 hf3 hxs hys d _ hinv4
  have hne : ¬ (s.scripts d).loaded = false := by rw [hloaded]; simp
  unfold obs_python_script_unload
  simp only [hne, if_false]
  refine UnloadInv_of_SameHeap ?_ hinv5
  refine ⟨?_, rfl, rfl, rfl, rfl, rfl⟩
  intro u
  by_cases hud : u = d
  · subst hud; simp [unlock_python]
  · simp [unlock_python, Function.update_noteq hud]

theorem timer_visit_ticks {py : Runtime} (hf : TickFrame py) (ts t : Nat) (s : State) :
    (timer_visit py ts t s).first_tick_script = s.first_tick_script ∧
    ∀ u, ((timer_visit py ts t s).scripts u).next_tick = (s.scripts u).next_tick ∧
      ((timer_visit py ts t s).scripts u).p_prev_next_tick
        = (s.scripts u).p_prev_next_tick := by
  unfold timer_visit python_obs_timer_cb
  by_cases hr : (s.callbacks t).base.removed = true
  · simp only [hr, if_true]
    have h := remove_other_fields t s
    refine ⟨h.2.2.2.2, fun u => ?_⟩
    rw [h.2.2.2.1]
    exact ⟨rfl, rfl⟩
  · by_cases hd : (s.timers t).interval ≤ u64_sub ts (s.timers t).last_ts
    · simp only [hr, hd, Bool.false_eq_true, if_false, if_true]
      have hc : (timer_call py t (lock_python s)).first_tick_script = s.first_tick_script ∧
          ∀ u, ((timer_call py t (lock_python s)).scripts u).next_tick
              = (s.scripts u).next_tick ∧
            ((timer_call py t (lock_python s)).scripts u).p_prev_next_tick
              = (s.scripts u).p_prev_next_tick := by
        unfold timer_call
        have hr2 : ((lock_python s).callbacks t).base.removed = false := by
          cases h : (s.callbacks t).base.removed with
          | true => exact absurd h hr
          | false => exact h
        simp only [hr2, Bool.false_eq_true, if_false]
        have hfr := hf ⟨.timer t, ((lock_python s).callbacks t).func, []⟩
          { lock_python (lock_python s) with
            cur_python_script := python_obs_callback_script t (lock_python s),
            cur_python_cb := some t }
        exact ⟨hfr.1, fun u => ⟨(hfr.2 u).1, (hfr.2 u).2.1⟩⟩
      exact hc
    · simp [hr, hd]

theorem sweep_list_ticks {py : Runtime} (hf : TickFrame py) (ts : Nat) :
    ∀ (ys : List Nat) (s : State),
      (sweep_list py ts ys s).first_tick_script = s.first_tick_script ∧
      ∀ u, ((sweep_list py ts ys s).scripts u).next_tick = (s.scripts u).next_tick ∧
        ((sweep_list py ts ys s).scripts u).p_prev_next_tick
          = (s.scripts u).p_prev_next_tick
  | [], _ => ⟨rfl, fun _ => ⟨rfl, rfl⟩⟩
  | t :: ys, s => by
      have hv := timer_visit_ticks hf ts t s
      have ih := sweep_list_ticks hf ts ys (timer_visit py ts t s)
      rw [sweep_list_cons]
      exact ⟨ih.1.trans hv.1, fun u =>
        ⟨(ih.2 u).1.trans (hv.2 u).1, (ih.2 u).2.trans (hv.2 u).2⟩⟩

/-- A sweep of `python_tick` in a state that satisfies `UnloadInv`. -/
theorem python_tick_timers_unloaded {py : Runtime} {A xs ys zs : List Nat} {d : Nat}
    (hf1 : TimerFrame py A) (hf2 : TickFrame py) (hf3 : RecordFrame py A)
    (hxs : ∀ t ∈ xs, t ∈ A) (hys : ∀ a ∈ ys, a ∈ A) (fuel ts : Nat) (s : State)
    (hinv : UnloadInv A xs ys zs d s) (hfuel : xs.length ≤ fuel) :
    TickList (python_tick_timers py fuel ts s) zs ∧
    (∃ xs2, xs2.Sublist xs ∧ TimerList (python_tick_timers py fuel ts s) xs2 ∧
      ∀ t ∈ xs2, ((python_tick_timers py fuel ts s).callbacks t).base.script ≠ some d) ∧
    ∀ a ∈ ys, ((python_tick_timers py fuel ts s).callbacks a).base.removed = true := by
  obtain ⟨i1, i2, i3, i4, i5⟩ := hinv
  have hsw := python_tick_timers_eq hf1 fuel ts s xs hxs i3 i1 hfuel
  have hst : RemovedStable py A := fun c s2 hal t ht h => (hf3 c s2 hal t ht).1 h
  refine ⟨?_, ⟨_, List.filter_sublist _, hsw.2, ?_⟩, ?_⟩
  · rw [hsw.1]
    have hl := sweep_list_ticks hf2 ts xs (lock_timer_mutex s)
    exact TickList_of_links (s := s) zs hl.1 hl.2 i2
  · intro t ht hsc
    obtain ⟨htx, hnr⟩ := List.mem_filter.mp ht
    rw [hsw.1] at hsc
    have hsc1 : ((sweep_list py ts xs (lock_timer_mutex s)).callbacks t).base.script
        = (s.callbacks t).base.script :=
      sweep_list_callbacks_inv hf1 t (fun r => r.base.script = (s.callbacks t).base.script)
        (fun c s2 hal2 h => ((hf3 c s2 hal2 t (hxs t htx)).2).trans h) ts xs
        (lock_timer_mutex s) i1 rfl
    have hsc2 : (s.callbacks t).base.script = some d := hsc1.symm.trans hsc
    have hrem := i5 t htx hsc2
    have hreach := reach_timer_removed_mono hf1 hst ts (lock_timer_mutex s) i1 t (hxs t htx)
      (xs.takeWhile (fun u => decide (u ≠ t))) hrem
    have hreach2 : timer_removed (reach_timer py ts xs (lock_timer_mutex s) t) t = true := hreach
    rw [hreach2] at hnr
    simp at hnr
  · intro a ha
    rw [hsw.1]
    exact sweep_list_callbacks_inv hf1 a (fun r => r.base.removed = true)
      (fun c s2 hal2 h => (hf3 c s2 hal2 a (hys a ha)).1 h) ts xs (lock_timer_mutex s) i1
      (i4 a ha)

/-- C9: for a loaded script `d` in a well-formed state (tick list `zs`, timer
list `xs`, callback list `ys` of the script; `d` has a `p_prev_next_tick` only
when it is in the tick list; every linked timer whose record is owned by `d`
is in the callback list of `d` or already marked removed), after
`obs_python_script_unload` followed by one `python_tick`: the global tick list
is the old one without `d`, the global timer list is a sublist of the old one
with no timer whose record is owned by `d`, and every record that was in the
callback list of `d` is marked removed.  The script functions run on the way
(`script_unload`, tick entrypoints, timer callbacks) respect the frames: they
do not relink the global lists, clear a removed flag or change an owner. -/
theorem unload_then_tick_leaves_no_reference (py : Runtime) (fuel seconds : Nat) (s : State)
    (d : Nat) (A xs ys zs : List Nat)
    (hloaded : (s.scripts d).loaded = true)
    (htick : TickList s zs) (hlinked : d ∉ zs → (s.scripts d).p_prev_next_tick = none)
    (htimers : TimerList s xs) (hcbs : CallbackList s d ys)
    (hown : ∀ t ∈ xs, (s.callbacks t).base.script = some d →
      (s.callbacks t).base.removed = true ∨ t ∈ ys)
    (hxs : ∀ t ∈ xs, t ∈ A) (hys : ∀ a ∈ ys, a ∈ A) (hal : Allocated A s)
    (hf1 : TimerFrame py A) (hf2 : TickFrame py) (hf3 : RecordFrame py A)
    (hfuel : xs.length ≤ fuel ∧ ys.length ≤ fuel) :
    TickList (python_tick py fuel seconds (obs_python_script_unload py fuel d s))
      (zs.erase d) ∧
    d ∉ zs.erase d ∧
    (∃ xs2, xs2.Sublist xs ∧
      TimerList (python_tick py fuel seconds (obs_python_script_unload py fuel d s)) xs2 ∧
      ∀ t ∈ xs2, ((python_tick py fuel seconds
        (obs_python_script_unload py fuel d s)).callbacks t).base.script ≠ some d) ∧
    ∀ a ∈ ys, ((python_tick py fuel seconds
      (obs_python_script_unload py fuel d s)).callbacks a).base.removed = true := by
  have h1 := obs_python_script_unload_inv hf1 hf2 hf3 hxs hys fuel d s hloaded htick hlinked
    htimers hcbs hown hal hfuel.2
  have h2 := UnloadInv_python_tick_scripts hf1 hf2 hf3 hxs hys fuel seconds _ h1
  have h3 := python_tick_timers_unloaded hf1 hf2 hf3 hxs hys fuel
    (obs_python_script_unload py fuel d s).video_frame_time _ h2 hfuel.1
  have hnd := TickChain_nodup _ _ htick
  exact ⟨h3.1, fun h => (List.Nodup.mem_erase_iff hnd).mp h |>.1 rfl, h3.2.1, h3.2.2⟩

theorem py_idle_timer_frame (xs : List Nat) : TimerFrame py_idle xs :=
  fun _ _ hal => ⟨rfl, fun _ _ => rfl, hal⟩

theorem py_idle_record_frame (A : List Nat) : RecordFrame py_idle A :=
  fun _ _ _ _ _ => ⟨fun h => h, rfl⟩

/-- Witness for C9: script 1 of `two_scripts_with_timers` is unloaded and one
`python_tick` runs: the tick list is 2, the timer list is 5 (the timer of
script 2), and the records 4 and 3 are marked removed. -/
theorem unload_then_tick_leaves_no_reference_witness :
    TickList (python_tick py_idle 5 9
      (obs_python_script_unload py_idle 5 1 two_scripts_with_timers)) [2] ∧
    TimerList (python_tick py_idle 5 9
      (obs_python_script_unload py_idle 5 1 two_scripts_with_timers)) [5] ∧
    ∀ a ∈ [4, 3], ((python_tick py_idle 5 9
      (obs_python_script_unload py_idle 5 1 two_scripts_with_timers)).callbacks a).base.removed
        = true :=
  have h := unload_then_tick_leaves_no_reference py_idle 5 9 two_scripts_with_timers 1
    [3, 4, 5] [5, 4, 3] [4, 3] [1, 2] rfl ⟨rfl, rfl, rfl, rfl, rfl⟩
    (fun hn => absurd (by decide) hn) ⟨rfl, rfl, rfl, rfl, rfl, rfl, rfl⟩ ⟨rfl, rfl, rfl⟩
    (by
      intro t ht hsc
      simp at ht
      rcases ht with rfl | rfl | rfl
      · exact absurd hsc (by decide)
      · exact Or.inr (by decide)
      · exact Or.inr (by decide))
    (by decide) (by decide)
    (by
      intro t ht
      simp at ht
      rcases ht with rfl | rfl | rfl <;> decide)
    (py_idle_timer_frame _) py_idle_tick_frame (py_idle_record_frame _)
    ⟨by decide, by decide⟩
  ⟨h.1, ⟨rfl, rfl, rfl⟩, h.2.2.2⟩

/-! ## Global disconnect -/

theorem find_callback_loop_func (func : PyObject) (s : State) :
    ∀ (fuel : Nat) (p : Option Nat) (cb : Nat),
      find_callback_loop func fuel p s = some cb → (s.callbacks cb).func = some func
  | 0, _, _, h => by simp [find_callback_loop] at h
  | _ + 1, none, _, h => by simp [find_callback_loop] at h
  | fuel + 1, some c, cb, h => by
      unfold find_callback_loop at h
      split at h
      · rename_i hc
        have : c = cb := Option.some.inj h
        subst this
        exact hc
      · exact find_callback_loop_func func s fuel _ cb h

theorem disconnect_global_loop_some (script : Nat) (handler : Option Nat) (py_cb : PyObject)
    (s : State) :
    ∀ (fuel : Nat) (p : Option Nat) (cb : Nat),
      (∀ c, p = some c → (s.callbacks c).func = some py_cb) →
      disconnect_global_loop script handler py_cb s fuel p = some cb →
      handler = calldata_ptr_handler cb s ∧ (s.callbacks cb).func = some py_cb
  | 0, _, _, _, h => by simp [disconnect_global_loop] at h
  | _ + 1, none, _, _, h => by simp [disconnect_global_loop] at h
  | fuel + 1, some c, cb, hp, h => by
      unfold disconnect_global_loop at h
      simp only [] at h
      split at h
      · rename_i hc
        have : c = cb := Option.some.inj h
        subst this
        exact ⟨hc, hp c rfl⟩
      · refine disconnect_global_loop_some script handler py_cb s fuel _ cb ?_ h
        intro c2 hc2
        exact find_callback_loop_func py_cb s _ _ c2 hc2

/-- What a global disconnect does: nothing, an error return, or the removal of
one record that holds the given function and the given handler. -/
theorem disconnect_global_cases (fuel : Nat) (args : Option (PyObject × PyObject))
    (s : State) :
    obs_python_signal_handler_disconnect_global fuel args s = s ∨
    obs_python_signal_handler_disconnect_global fuel args s = PyErr_SetString s ∨
    ∃ cb py_sh py_cb handler, args = some (py_sh, py_cb) ∧
      py_to_libobs py_sh s = some handler ∧
      handler = calldata_ptr_handler cb s ∧ (s.callbacks cb).func = some py_cb ∧
      obs_python_signal_handler_disconnect_global fuel args s
        = remove_python_obs_callback cb s := by
  unfold obs_python_signal_handler_disconnect_global
  rcases hsc : s.cur_python_script with _ | script
  · exact Or.inr (Or.inl rfl)
  · rcases args with _ | ⟨py_sh, py_cb⟩
    · exact Or.inl rfl
    · rcases hconv : py_to_libobs py_sh s with _ | handler
      · left; simp only [hconv]
      · by_cases hfn : py_cb.is_func = false
        · left; simp [hfn, hconv]
        · rcases hsel : disconnect_global_loop script handler py_cb s fuel
            (find_python_obs_callback fuel script py_cb s) with _ | cb
          · left; simp [hfn, hsel, hconv]
          · right; right
            have h := disconnect_global_loop_some script handler py_cb s fuel _ cb
              (fun c hc => find_callback_loop_func py_cb s _ _ c hc) hsel
            exact ⟨cb, py_sh, py_cb, handler, rfl, hconv, h.1, h.2,
              by simp [hfn, hsel, hconv]⟩

/-- C11, the code at the input of the claim: script 0 has connected `fn 7` to
the signal `"a"` of handler 5 with the scoped connect (record 1, which stores
the signal name).  The global disconnect with the same handler and function
removes record 1: its removed flag is set and the list is empty. -/
theorem global_disconnect_removes_scoped_record :
    connected_a = obs_python_signal_handler_connect (some (py_handler, "a", fn 7))
      script_running ∧
    CallbackList connected_a 0 [1] ∧
    calldata_string_signal 1 connected_a = some "a" ∧
    calldata_ptr_handler 1 connected_a = some 5 ∧
    (connected_a.callbacks 1).func = some (fn 7) ∧
    (connected_a.callbacks 1).base.removed = false ∧
    ((obs_python_signal_handler_disconnect_global 5 (some (py_handler, fn 7))
      connected_a).callbacks 1).base.removed = true ∧
    CallbackList (obs_python_signal_handler_disconnect_global 5 (some (py_handler, fn 7))
      connected_a) 0 [] := by
  refine ⟨rfl, ⟨rfl, rfl⟩, rfl, rfl, rfl, rfl, by decide, ?_⟩
  show (_ : Option Nat) = none
  decide

/-- The scan finds the first record of the chain that pins `func`. -/
theorem find_callback_loop_spec (func : PyObject) (s : State) :
    ∀ (ys : List Nat) (p : Option Nat) (fuel : Nat), CbChain s p ys → ys.length ≤ fuel →
      (find_callback_loop func fuel p s = none ∧
        ∀ a ∈ ys, (s.callbacks a).func ≠ some func) ∨
      ∃ pre c post, ys = pre ++ c :: post ∧ (∀ a ∈ pre, (s.callbacks a).func ≠ some func) ∧
        (s.callbacks c).func = some func ∧ find_callback_loop func fuel p s = some c
  | [], p, fuel, h, _ => by
      have hp : p = none := h
      subst hp
      left
      cases fuel <;> exact ⟨rfl, by simp⟩
  | x :: ys, p, fuel, h, hf => by
      obtain ⟨hp, hrest⟩ := h
      subst hp
      cases fuel with
      | zero => simp at hf
      | succ fuel =>
          by_cases hm : (s.callbacks x).func = some func
          · right
            exact ⟨[], x, ys, rfl, by simp, hm, by simp [find_callback_loop, hm]⟩
          · have hstep : find_callback_loop func (fuel + 1) (some x) s =
                find_callback_loop func fuel (s.callbacks x).base.next s := by
              simp [find_callback_loop, hm]
            rcases find_callback_loop_spec func s ys _ fuel hrest (by simpa using hf) with
              ⟨h1, h2⟩ | ⟨pre, c, post, h1, h2, h3, h4⟩
            · left
              refine ⟨hstep.trans h1, ?_⟩
              intro a ha
              rcases List.mem_cons.mp ha with rfl | ha
              · exact hm
              · exact h2 a ha
            · right
              refine ⟨x :: pre, c, post, by simp [h1], ?_, h3, hstep.trans h4⟩
              intro a ha
              rcases List.mem_cons.mp ha with rfl | ha
              · exact hm
              · exact h2 a ha

/-- The loop of the global disconnect selects the first record of the chain
that pins the function and stores the handler. -/
theorem disconnect_global_loop_spec (script : Nat) (handler : Option Nat) (py_cb : PyObject)
    (s : State) :
    ∀ (n : Nat) (ys : List Nat) (p : Option Nat) (fuel fuel2 : Nat), ys.length ≤ n →
      CbChain s p ys → ys.length ≤ fuel → ys.length ≤ fuel2 →
      (disconnect_global_loop script handler py_cb s fuel
          (find_callback_loop py_cb fuel2 p s) = none ∧
        ∀ a ∈ ys, ¬ global_match s handler py_cb a) ∨
      ∃ pre c post, ys = pre ++ c :: post ∧ (∀ a ∈ pre, ¬ global_match s handler py_cb a) ∧
        global_match s handler py_cb c ∧
        disconnect_global_loop script handler py_cb s fuel
          (find_callback_loop py_cb fuel2 p s) = some c
  | n, ys, p, fuel, fuel2, hn, hc, hf, hf2 => by
      rcases find_callback_loop_spec py_cb s ys p fuel2 hc hf2 with
        ⟨h1, h2⟩ | ⟨pre, c, post, h1, h2, h3, h4⟩
      · left
        rw [h1]
        refine ⟨by cases fuel <;> rfl, fun a ha hsel => h2 a ha hsel.1⟩
      · rw [h4]
        subst h1
        cases fuel with
        | zero => simp at hf
        | succ fuel =>
            cases n with
            | zero => simp at hn
            | succ n =>
                by_cases hh : handler = calldata_ptr_handler c s
                · right
                  refine ⟨pre, c, post, rfl, fun a ha hsel => h2 a ha hsel.1, ⟨h3, hh⟩, ?_⟩
                  simp [disconnect_global_loop, hh]
                · have hstep : disconnect_global_loop script handler py_cb s (fuel + 1) (some c)
                      = disconnect_global_loop script handler py_cb s fuel
                          (find_callback_loop py_cb (fuel + 1) (s.callbacks c).base.next s) := by
                    simp [disconnect_global_loop, hh, find_next_python_obs_callback]
                  have hlen : post.length + 1 ≤ (pre ++ c :: post).length := by simp
                  rcases disconnect_global_loop_spec script handler py_cb s n post
                      (s.callbacks c).base.next fuel (fuel + 1) (by omega)
                      (CbChain_drop pre p c post hc) (by omega) (by omega) with
                    ⟨g1, g2⟩ | ⟨pre2, c2, post2, g1, g2, g3, g4⟩
                  · left
                    refine ⟨hstep.trans g1, ?_⟩
                    intro a ha hsel
                    rcases List.mem_append.mp ha with ha | ha
                    · exact h2 a ha hsel.1
                    · rcases List.mem_cons.mp ha with rfl | ha
                      · exact hh hsel.2
                      · exact g2 a ha hsel
                  · right
                    refine ⟨pre ++ c :: pre2, c2, post2, by simp [g1], ?_, g3, hstep.trans g4⟩
                    intro a ha hsel
                    rcases List.mem_append.mp ha with ha | ha
                    · exact h2 a ha hsel.1
                    · rcases List.mem_cons.mp ha with rfl | ha
                      · exact hh hsel.2
                      · exact g2 a ha hsel

/-- C11, amended: the global disconnect selects by function and handler only,
whether or not the record stores a signal name.  First part: whatever its
arguments and fuel, a record of a callback list whose pinned function is not
the given function, or whose stored handler is not the given handler, is left
in the list with its removed flag unset and its function and stored keys as
they were; the list afterwards is the old list without at most one record.
Second part: called by a running script with a handler object that converts,
a function, and fuel for the whole list, it removes the first record of the
script's list that pins the function and stores the handler (`global_match`),
also when that record was registered by the scoped connect, and nothing when
there is no such record. -/
theorem global_disconnect_removes_first_match_only :
    (∀ (fuel : Nat) (args : Option (PyObject × PyObject)) (s : State) (script : Nat)
      (ys : List Nat) (g : Nat), CallbackList s script ys → g ∈ ys →
      (s.callbacks g).base.removed = false →
      (∀ py_sh py_cb handler, args = some (py_sh, py_cb) →
        py_to_libobs py_sh s = some handler → ¬ global_match s handler py_cb g) →
      ∃ ys2, CallbackList (obs_python_signal_handler_disconnect_global fuel args s) script ys2 ∧
        g ∈ ys2 ∧ ys2.Sublist ys ∧ ys.length ≤ ys2.length + 1 ∧
        ((obs_python_signal_handler_disconnect_global fuel args s).callbacks g).base.removed
          = false ∧
        ((obs_python_signal_handler_disconnect_global fuel args s).callbacks g).func
          = (s.callbacks g).func ∧
        ((obs_python_signal_handler_disconnect_global fuel args s).callbacks g).base.extra
          = (s.callbacks g).base.extra) ∧
    (∀ (fuel : Nat) (py_sh py_cb : PyObject) (handler : Option Nat) (s : State) (script : Nat)
      (ys : List Nat), s.cur_python_script = some script →
      py_to_libobs py_sh s = some handler → py_cb.is_func = true →
      CallbackList s script ys → ys.length ≤ fuel →
      ((∀ a ∈ ys, ¬ global_match s handler py_cb a) ∧
        obs_python_signal_handler_disconnect_global fuel (some (py_sh, py_cb)) s = s) ∨
      ∃ pre c post, ys = pre ++ c :: post ∧ (∀ a ∈ pre, ¬ global_match s handler py_cb a) ∧
        global_match s handler py_cb c ∧
        obs_python_signal_handler_disconnect_global fuel (some (py_sh, py_cb)) s
          = remove_python_obs_callback c s ∧
        CallbackList (obs_python_signal_handler_disconnect_global fuel (some (py_sh, py_cb)) s)
          script (pre ++ post) ∧
        ((obs_python_signal_handler_disconnect_global fuel (some (py_sh, py_cb)) s).callbacks
          c).base.removed = true) := by
  refine ⟨?_, ?_⟩
  · intro fuel args s script ys g hl hg hrem hdiff
    rcases disconnect_global_cases fuel args s with h | h |
      ⟨cb, py_sh, py_cb, handler, ha, hconv, hh, hf, h⟩
    · rw [h]; exact ⟨ys, hl, hg, List.Sublist.refl ys, Nat.le_succ _, hrem, rfl, rfl⟩
    · rw [h]
      exact ⟨ys, CbChain_congr (s := s) ys _ (fun _ _ => rfl) hl, hg, List.Sublist.refl ys,
        Nat.le_succ _, hrem, rfl, rfl⟩
    · rw [h]
      have hne : g ≠ cb := by
        intro e
        subst e
        exact hdiff py_sh py_cb handler ha hconv ⟨hf, hh⟩
      have ho := remove_python_obs_callback_other cb g s hne
      refine ⟨ys.erase cb, CallbackList_remove cb script ys hl, ?_, List.erase_sublist cb ys,
        ?_, ?_, ho.2.2.2, ho.2.1⟩
      · exact (List.mem_erase_of_ne hne).mpr hg
      · by_cases hm : cb ∈ ys
        · rw [List.length_erase_of_mem hm]; omega
        · rw [List.erase_of_not_mem hm]; omega
      · rw [ho.1]; exact hrem
  · intro fuel py_sh py_cb handler s script ys hcur hconv hfn hl hfuel
    have hnf : ¬ py_cb.is_func = false := by simp [hfn]
    rcases disconnect_global_loop_spec script handler py_cb s ys.length ys
        (s.scripts script).first_callback fuel fuel (Nat.le_refl _) hl hfuel hfuel with
      ⟨h1, h2⟩ | ⟨pre, c, post, h1, h2, h3, h4⟩
    · left
      refine ⟨h2, ?_⟩
      unfold obs_python_signal_handler_disconnect_global
      simp only [hcur, hconv, hnf, if_false]
      unfold find_python_obs_callback find_next_python_obs_callback
      simp only [h1]
      simp
    · right
      have hres : obs_python_signal_handler_disconnect_global fuel (some (py_sh, py_cb)) s
          = remove_python_obs_callback c s := by
        unfold obs_python_signal_handler_disconnect_global
        simp only [hcur, hconv, hnf, if_false]
        unfold find_python_obs_callback find_next_python_obs_callback
        simp only [h4]
        simp
      refine ⟨pre, c, post, h1, h2, h3, hres, ?_, ?_⟩
      · rw [hres]
        have hnd : ys.Nodup := CbChain_nodup ys _ hl
        have hl2 := CallbackList_remove c script ys hl
        subst h1
        have hpre : c ∉ pre := fun hm => (List.nodup_append.mp hnd).2.2 hm (by simp)
        rw [List.erase_append_right _ hpre, List.erase_cons_head] at hl2
        exact hl2
      · rw [hres]
        exact (remove_python_obs_callback_self c s).1

/-- Witness for C11: script 0 has connected `fn 7` to the signal `"a"` of
handler 5 (record 1).  The global disconnect of the other function `fn 8` from
the same handler leaves record 1 in the list, not removed; the global
disconnect of `fn 7` from handler 5 finds record 1 as the first match and
removes it. -/
theorem global_disconnect_removes_first_match_only_witness :
    CallbackList connected_a 0 [1] ∧
    (∃ ys2, CallbackList (obs_python_signal_handler_disconnect_global 5
        (some (py_handler, fn 8)) connected_a) 0 ys2 ∧ 1 ∈ ys2 ∧ ys2.Sublist [1] ∧
      [1].length ≤ ys2.length + 1 ∧
      ((obs_python_signal_handler_disconnect_global 5 (some (py_handler, fn 8))
        connected_a).callbacks 1).base.removed = false ∧
      ((obs_python_signal_handler_disconnect_global 5 (some (py_handler, fn 8))
        connected_a).callbacks 1).func = (connected_a.callbacks 1).func ∧
      ((obs_python_signal_handler_disconnect_global 5 (some (py_handler, fn 8))
        connected_a).callbacks 1).base.extra = (connected_a.callbacks 1).base.extra) ∧
    (((∀ a ∈ [1], ¬ global_match connected_a (some 5) (fn 7) a) ∧
        obs_python_signal_handler_disconnect_global 5 (some (py_handler, fn 7)) connected_a
          = connected_a) ∨
      ∃ pre c post, [1] = pre ++ c :: post ∧
        (∀ a ∈ pre, ¬ global_match connected_a (some 5) (fn 7) a) ∧
        global_match connected_a (some 5) (fn 7) c ∧
        obs_python_signal_handler_disconnect_global 5 (some (py_handler, fn 7)) connected_a
          = remove_python_obs_callback c connected_a ∧
        CallbackList (obs_python_signal_handler_disconnect_global 5 (some (py_handler, fn 7))
          connected_a) 0 (pre ++ post) ∧
        ((obs_python_signal_handler_disconnect_global 5 (some (py_handler, fn 7))
          connected_a).callbacks c).base.removed = true) :=
  ⟨⟨rfl, rfl⟩,
   global_disconnect_removes_first_match_only.1 5 (some (py_handler, fn 8)) connected_a 0 [1] 1
     ⟨rfl, rfl⟩ (by simp) rfl (by
       intro py_sh py_cb handler ha _ hsel
       have h2 : py_cb = fn 8 := (congrArg Prod.snd (Option.some.inj ha)).symm
       rw [h2] at hsel
       exact absurd hsel.1 (by decide)),
   global_disconnect_removes_first_match_only.2 5 py_handler (fn 7) (some 5) connected_a 0 [1]
     rfl rfl rfl ⟨rfl, rfl⟩ (by decide)⟩

/-! ## The pending-error state after a failed call -/

/-- C12, the code at the failing input: every script function raises.  After
`timer_call` of the not-removed record 3, after the timer sweep of
`python_tick` at time 100 (timers 3 and 2 are due and called) and after
`obs_python_tick_callback` of the not-removed record 1, the pending-error
state is still set and nothing has been logged.  After
`calldata_signal_callback`, `calldata_signal_callback_global` and the
script_tick walk, which call `py_error()`, it is cleared and each failure has
been logged. -/
theorem failed_timer_and_tick_callback_leave_error_pending :
    (three_timers.callbacks 3).base.removed = false ∧
    (timer_call py_failing 3 three_timers).calls = [⟨.timer 3, some (fn 13), []⟩] ∧
    (timer_call py_failing 3 three_timers).err_pending = true ∧
    (timer_call py_failing 3 three_timers).err_logged = 0 ∧
    (python_tick_timers py_failing 3 100 three_timers).calls
      = [⟨.timer 3, some (fn 13), []⟩, ⟨.timer 2, some (fn 12), []⟩] ∧
    (python_tick_timers py_failing 3 100 three_timers).err_pending = true ∧
    (python_tick_timers py_failing 3 100 three_timers).err_logged = 0 ∧
    (tick_callback_registered.callbacks 1).base.removed = false ∧
    (obs_python_tick_callback py_failing 1 0 tick_callback_registered).calls
      = [⟨.tick_callback 1, some (fn 7), [PyArg.float 0]⟩] ∧
    (obs_python_tick_callback py_failing 1 0 tick_callback_registered).err_pending = true ∧
    (obs_python_tick_callback py_failing 1 0 tick_callback_registered).err_logged = 0 ∧
    (calldata_signal_callback py_failing 1 9 connected_a_idle).calls
      = [⟨.signal 1, some (fn 7), [PyArg.obj ⟨60, false⟩]⟩] ∧
    (calldata_signal_callback py_failing 1 9 connected_a_idle).err_pending = false ∧
    (calldata_signal_callback py_failing 1 9 connected_a_idle).err_logged = 1 ∧
    (calldata_signal_callback_global py_failing 1 "a" 9 connected_global_idle).err_pending
      = false ∧
    (calldata_signal_callback_global py_failing 1 "a" 9 connected_global_idle).err_logged
      = 1 ∧
    (python_tick_scripts py_failing 2 0 two_tick_scripts).calls
      = [⟨.script_tick 1, some (fn 21), [PyArg.float 0]⟩,
         ⟨.script_tick 2, some (fn 22), [PyArg.float 0]⟩] ∧
    (python_tick_scripts py_failing 2 0 two_tick_scripts).err_pending = false ∧
    (python_tick_scripts py_failing 2 0 two_tick_scripts).err_logged = 2 := by
  refine ⟨rfl, ?_, ?_, ?_, ?_, ?_, ?_, ?_, ?_, ?_, ?_, ?_, ?_, ?_, ?_, ?_, ?_, ?_, ?_⟩ <;>
    decide

/-! ## The locks held while a script function runs -/

theorem py_error_locks (s : State) :
    (py_error s).2.tick_mutex = s.tick_mutex ∧ (py_error s).2.timer_mutex = s.timer_mutex ∧
    (py_error s).2.python_lock = s.python_lock := by
  unfold py_error
  split <;> exact ⟨rfl, rfl, rfl⟩

theorem tick_visit_locks {py : Runtime} (hb : LockBalanced py) (seconds z : Nat) (s : State) :
    (tick_visit py seconds z s).tick_mutex = s.tick_mutex ∧
    (tick_visit py seconds z s).timer_mutex = s.timer_mutex ∧
    (tick_visit py seconds z s).python_lock = s.python_lock := by
  unfold tick_visit
  have h := py_error_locks (PyObject_CallObject py (.script_tick z)
    ({ s with cur_python_script := some z }.scripts z).tick [PyArg.float seconds]
    { s with cur_python_script := some z })
  have h2 := hb ⟨.script_tick z, (s.scripts z).tick, [PyArg.float seconds]⟩
    { s with cur_python_script := some z }
  refine ⟨h.1.trans ?_, h.2.1.trans ?_, h.2.2.trans ?_⟩
  · exact h2.1
  · exact h2.2.1
  · exact h2.2.2

theorem tick_visit_agree {py py2 : Runtime} {s0 : State}
    (ha : ∀ c st, list_lock_held s0 c st = true → py c st = py2 c st)
    (seconds z : Nat) (s : State) (hT : s.tick_mutex = s0.tick_mutex + 1)
    (hP : s.python_lock = s0.python_lock + 1) (hM : s.timer_mutex = s0.timer_mutex) :
    tick_visit py seconds z s = tick_visit py2 seconds z s := by
  unfold tick_visit PyObject_CallObject
  have h := ha ⟨.script_tick z, (s.scripts z).tick, [PyArg.float seconds]⟩
    { s with cur_python_script := some z } (by simp [list_lock_held, hT, hP, hM])
  simp only [h]

theorem tick_loop_agree {py py2 : Runtime} {s0 : State} (hb : LockBalanced py)
    (ha : ∀ c st, list_lock_held s0 c st = true → py c st = py2 c st) (seconds : Nat) :
    ∀ (fuel : Nat) (p : Option Nat) (s : State), s.tick_mutex = s0.tick_mutex + 1 →
      s.python_lock = s0.python_lock + 1 → s.timer_mutex = s0.timer_mutex →
      tick_loop py seconds fuel p s = tick_loop py2 seconds fuel p s ∧
      (tick_loop py seconds fuel p s).tick_mutex = s.tick_mutex ∧
      (tick_loop py seconds fuel p s).timer_mutex = s.timer_mutex ∧
      (tick_loop py seconds fuel p s).python_lock = s.python_lock
  | 0, _, _, _, _, _ => ⟨rfl, rfl, rfl, rfl⟩
  | _ + 1, none, _, _, _, _ => ⟨rfl, rfl, rfl, rfl⟩
  | fuel + 1, some z, s, hT, hP, hM => by
      have hv := tick_visit_agree ha seconds z s hT hP hM
      have hl := tick_visit_locks hb seconds z s
      have ih := tick_loop_agree hb ha seconds fuel
        ((tick_visit py seconds z s).scripts z).next_tick (tick_visit py seconds z s)
        (hl.1.trans hT) (hl.2.2.trans hP) (hl.2.1.trans hM)
      refine ⟨?_, ?_, ?_, ?_⟩
      · show tick_loop py seconds fuel _ (tick_visit py seconds z s)
          = tick_loop py2 seconds fuel _ (tick_visit py2 seconds z s)
        rw [← hv]; exact ih.1
      · exact ih.2.1.trans hl.1
      · exact ih.2.2.1.trans hl.2.1
      · exact ih.2.2.2.trans hl.2.2
theorem python_obs_timer_remove_locks (t : Nat) (s : State) :
    (python_obs_timer_remove t s).tick_mutex = s.tick_mutex ∧
    (python_obs_timer_remove t s).timer_mutex = s.timer_mutex ∧
    (python_obs_timer_remove t s).python_lock = s.python_lock := by
  rw [python_obs_timer_remove_eq]
  have key : ∀ (sl : Option TimerSlot) (v : Option Nat) (s1 : State),
      (store_timer_slot sl v s1).tick_mutex = s1.tick_mutex ∧
      (store_timer_slot sl v s1).timer_mutex = s1.timer_mutex ∧
      (store_timer_slot sl v s1).python_lock = s1.python_lock := by
    intro sl v s1
    rcases sl with _ | sl
    · exact ⟨rfl, rfl, rfl⟩
    · cases sl <;> exact ⟨rfl, rfl, rfl⟩
  cases hn : (s.timers t).next with
  | none => exact key _ _ s
  | some n => exact key _ _ _

theorem timer_call_locks {py : Runtime} (hb : LockBalanced py) (cb : Nat) (s : State) :
    (timer_call py cb s).tick_mutex = s.tick_mutex ∧
    (timer_call py cb s).timer_mutex = s.timer_mutex ∧
    (timer_call py cb s).python_lock = s.python_lock := by
  unfold timer_call
  by_cases h : (s.callbacks cb).base.removed = true
  · simp [h]
  · simp only [h, Bool.false_eq_true, if_false]
    have h2 := hb ⟨.timer cb, (s.callbacks cb).func, []⟩
      { lock_python s with
        cur_python_script := python_obs_callback_script cb s,
        cur_python_cb := some cb }
    exact ⟨h2.1, h2.2.1, (congrArg (fun x => x - 1) h2.2.2).trans
      (Nat.add_sub_cancel s.python_lock 1)⟩

theorem timer_call_agree {py py2 : Runtime} {s0 : State}
    (ha : ∀ c st, list_lock_held s0 c st = true → py c st = py2 c st)
    (cb : Nat) (s : State) (hT : s.tick_mutex = s0.tick_mutex)
    (hP : s.python_lock = s0.python_lock + 1) (hM : s.timer_mutex = s0.timer_mutex + 1) :
    timer_call py cb s = timer_call py2 cb s := by
  unfold timer_call PyObject_CallObject
  have h := ha ⟨.timer cb, (s.callbacks cb).func, []⟩
    { lock_python s with
      cur_python_script := python_obs_callback_script cb s,
      cur_python_cb := some cb } (by simp [list_lock_held, lock_python, hT, hP, hM])
  by_cases hr : (s.callbacks cb).base.removed = true
  · simp [hr]
  · simp only [hr, Bool.false_eq_true, if_false]
    simp only [lock_python] at h ⊢
    simp only [h]

theorem timer_visit_locks {py : Runtime} (hb : LockBalanced py) (ts t : Nat) (s : State) :
    (timer_visit py ts t s).tick_mutex = s.tick_mutex ∧
    (timer_visit py ts t s).timer_mutex = s.timer_mutex ∧
    (timer_visit py ts t s).python_lock = s.python_lock := by
  have hl := timer_call_locks hb (python_obs_timer_cb t) (lock_python s)
  unfold timer_visit
  by_cases hr : (s.callbacks (python_obs_timer_cb t)).base.removed = true
  · rw [if_pos hr]
    exact python_obs_timer_remove_locks t s
  · rw [if_neg hr]
    by_cases hd : (s.timers t).interval ≤ u64_sub ts (s.timers t).last_ts
    · rw [if_pos hd]
      exact ⟨hl.1, hl.2.1,
        (congrArg (fun x => x - 1) hl.2.2).trans
          (Nat.add_sub_cancel s.python_lock 1)⟩
    · rw [if_neg hd]
      exact ⟨rfl, rfl, rfl⟩

theorem timer_visit_agree {py py2 : Runtime} {s0 : State}
    (ha : ∀ c st, list_lock_held s0 c st = true → py c st = py2 c st)
    (ts t : Nat) (s : State) (hT : s.tick_mutex = s0.tick_mutex)
    (hP : s.python_lock = s0.python_lock) (hM : s.timer_mutex = s0.timer_mutex + 1) :
    timer_visit py ts t s = timer_visit py2 ts t s := by
  have hc := timer_call_agree ha (python_obs_timer_cb t) (lock_python s) hT
    (by show s.python_lock + 1 = _; rw [hP]) hM
  unfold timer_visit
  simp only [hc]

theorem timer_loop_agree {py py2 : Runtime} {s0 : State} (hb : LockBalanced py)
    (ha : ∀ c st, list_lock_held s0 c st = true → py c st = py2 c st) (ts : Nat) :
    ∀ (fuel : Nat) (p : Option Nat) (s : State), s.tick_mutex = s0.tick_mutex →
      s.python_lock = s0.python_lock → s.timer_mutex = s0.timer_mutex + 1 →
      timer_loop py ts fuel p s = timer_loop py2 ts fuel p s
  | 0, _, _, _, _, _ => rfl
  | _ + 1, none, _, _, _, _ => rfl
  | fuel + 1, some t, s, hT, hP, hM => by
      have hv := timer_visit_agree ha ts t s hT hP hM
      have hl := timer_visit_locks hb ts t s
      have ih := timer_loop_agree hb ha ts fuel (s.timers t).next (timer_visit py ts t s)
        (hl.1.trans hT) (hl.2.2.trans hP) (hl.2.1.trans hM)
      show timer_loop py ts fuel _ (timer_visit py ts t s)
        = timer_loop py2 ts fuel _ (timer_visit py2 ts t s)
      rw [← hv]; exact ih

theorem python_tick_scripts_agree {py py2 : Runtime} {s0 : State} (hb : LockBalanced py)
    (ha : ∀ c st, list_lock_held s0 c st = true → py c st = py2 c st)
    (fuel seconds : Nat) :
    python_tick_scripts py fuel seconds s0 = python_tick_scripts py2 fuel seconds s0 ∧
    (python_tick_scripts py fuel seconds s0).tick_mutex = s0.tick_mutex ∧
    (python_tick_scripts py fuel seconds s0).timer_mutex = s0.timer_mutex ∧
    (python_tick_scripts py fuel seconds s0).python_lock = s0.python_lock := by
  have hlk : (unlock_tick_mutex (lock_tick_mutex s0)).tick_mutex = s0.tick_mutex :=
    (Nat.add_sub_cancel s0.tick_mutex 1)
  have h := tick_loop_agree hb ha seconds fuel
    (lock_tick_mutex (lock_python (unlock_tick_mutex (lock_tick_mutex s0)))).first_tick_script
    (lock_tick_mutex (lock_python (unlock_tick_mutex (lock_tick_mutex s0))))
    (congrArg (fun x => x + 1) hlk) rfl rfl
  refine ⟨?_, ?_⟩
  · unfold python_tick_scripts
    simp only [h.1]
  · unfold python_tick_scripts
    by_cases hv : (lock_tick_mutex s0).first_tick_script.isSome = true
    · rw [if_pos hv]
      refine ⟨?_, h.2.2.1, ?_⟩
      · exact (congrArg (fun x => x - 1) (h.2.1.trans (congrArg (fun x => x + 1) hlk))).trans
          (Nat.add_sub_cancel s0.tick_mutex 1)
      · exact (congrArg (fun x => x - 1) h.2.2.2).trans
          (Nat.add_sub_cancel s0.python_lock 1)
    · rw [if_neg hv]
      exact ⟨hlk, rfl, rfl⟩
/-- C13, the code at an input of the claim: the script functions of
`py_lock_probe` raise exactly when `tick_mutex` or `timer_mutex` is held at
their call.  `python_tick` is entered with no lock held, on two scripts with
tick entrypoints and two due timers (5 and 4).  All four calls raise: the two
entrypoint calls are logged by `py_error()`, and the pending-error state set
by the timer callbacks is left set.  With script functions that do nothing,
nothing is logged or pending. -/
theorem script_functions_run_with_list_lock_held :
    two_scripts_with_timers.tick_mutex = 0 ∧ two_scripts_with_timers.timer_mutex = 0 ∧
    (python_tick py_lock_probe 3 0 two_scripts_with_timers).calls
      = [⟨.script_tick 1, some (fn 21), [PyArg.float 0]⟩,
         ⟨.script_tick 2, some (fn 22), [PyArg.float 0]⟩,
         ⟨.timer 5, some (fn 15), []⟩, ⟨.timer 4, some (fn 14), []⟩] ∧
    (python_tick_scripts py_lock_probe 3 0 two_scripts_with_timers).err_logged = 2 ∧
    (python_tick py_lock_probe 3 0 two_scripts_with_timers).err_logged = 2 ∧
    (python_tick py_lock_probe 3 0 two_scripts_with_timers).err_pending = true ∧
    (python_tick py_idle 3 0 two_scripts_with_timers).calls
      = (python_tick py_lock_probe 3 0 two_scripts_with_timers).calls ∧
    (python_tick py_idle 3 0 two_scripts_with_timers).err_logged = 0 ∧
    (python_tick py_idle 3 0 two_scripts_with_timers).err_pending = false := by
  refine ⟨rfl, rfl, ?_, ?_, ?_, ?_, ?_, ?_, ?_⟩ <;> decide

/-- C13, amended: `python_tick` invokes a script's tick entrypoint while it
holds `tick_mutex` (taken after the execution lock) and a timer callback while
it holds `timer_mutex` (taken before the execution lock, which is then taken
twice); the other list lock is not taken.  For script functions that release
every lock they take, every call is made in a state described by
`list_lock_held`: two runtimes that agree on those states give the same
`python_tick`. -/
theorem python_tick_calls_with_list_lock_held (py py2 : Runtime) (fuel seconds : Nat)
    (s : State) (hb : LockBalanced py)
    (ha : ∀ c st, list_lock_held s c st = true → py c st = py2 c st) :
    python_tick py fuel seconds s = python_tick py2 fuel seconds s := by
  have h1 := python_tick_scripts_agree hb ha fuel seconds
  have h2 := timer_loop_agree hb ha s.video_frame_time fuel
    (lock_timer_mutex (python_tick_scripts py fuel seconds s)).first_timer
    (lock_timer_mutex (python_tick_scripts py fuel seconds s))
    h1.2.1 h1.2.2.2 (congrArg (fun x => x + 1) h1.2.2.1)
  unfold python_tick python_tick_timers
  simp only [← h1.1, h2]

/-- Witness for C13: on two scripts with tick entrypoints and two due timers,
script functions that do nothing give the same `python_tick` as script
functions that raise unless they are called with the list lock held; four
calls are made and none raises. -/
theorem python_tick_calls_with_list_lock_held_witness :
    LockBalanced py_idle ∧
    python_tick py_idle 3 0 two_scripts_with_timers
      = python_tick py_lock_guarded 3 0 two_scripts_with_timers ∧
    (python_tick py_lock_guarded 3 0 two_scripts_with_timers).calls.length = 4 ∧
    (python_tick py_lock_guarded 3 0 two_scripts_with_timers).err_logged = 0 ∧
    (python_tick py_lock_guarded 3 0 two_scripts_with_timers).err_pending = false :=
  ⟨fun _ _ => ⟨rfl, rfl, rfl⟩,
   python_tick_calls_with_list_lock_held py_idle py_lock_guarded 3 0 two_scripts_with_timers
     (fun _ _ => ⟨rfl, rfl, rfl⟩)
     (fun c st h => by simp [py_idle, py_lock_guarded, h]),
   by decide, by decide, by decide⟩

/-! ## The timer list under `python_obs_timer_init` and `python_obs_timer_remove` -/

theorem python_obs_timer_init_list {s : State} (xs : List Nat) (t : Nat)
    (hl : TimerList s xs) (ht : t ∉ xs) :
    TimerList (python_obs_timer_init t s) (t :: xs) := by
  cases xs with
  | nil =>
      have h0 : s.first_timer = none := hl
      refine ⟨?_, ?_, ?_⟩
      · simp [python_obs_timer_init, load_timer_slot, lock_timer_mutex, unlock_timer_mutex,
          set_timer, h0]
      · simp [python_obs_timer_init, lock_timer_mutex, unlock_timer_mutex, set_timer, h0]
      · show load_timer_slot _ _ = none
        simp [python_obs_timer_init, load_timer_slot, lock_timer_mutex, unlock_timer_mutex,
          set_timer, h0]
  | cons x rest =>
      have hnd := TimerChain_nodup _ _ hl
      obtain ⟨h1, _, h3⟩ := hl
      have h0 : s.first_timer = some x := h1
      have hxt : x ≠ t := fun e => ht (by simp [e])
      have hxr : x ∉ rest := (List.nodup_cons.mp hnd).1
      refine ⟨?_, ?_, ?_, ?_, ?_⟩
      · simp [python_obs_timer_init, load_timer_slot, lock_timer_mutex, unlock_timer_mutex,
          set_timer, h0]
      · simp [python_obs_timer_init, lock_timer_mutex, unlock_timer_mutex, set_timer, h0,
          Function.update_noteq hxt.symm]
      · show load_timer_slot _ _ = some x
        simp [python_obs_timer_init, load_timer_slot, lock_timer_mutex, unlock_timer_mutex,
          set_timer, h0, Function.update_noteq hxt.symm]
      · simp [python_obs_timer_init, lock_timer_mutex, unlock_timer_mutex, set_timer, h0]
      · refine TimerChain_congr rest (.next_of x) ?_ ?_ h3
        · show ((python_obs_timer_init t s).timers x).next = (s.timers x).next
          simp [python_obs_timer_init, lock_timer_mutex, unlock_timer_mutex, set_timer, h0,
            Function.update_noteq hxt]
        · intro u hu
          have hut : u ≠ t := fun e => ht (by simp [← e, hu])
          have hux : u ≠ x := fun e => hxr (e ▸ hu)
          simp [python_obs_timer_init, lock_timer_mutex, unlock_timer_mutex, set_timer, h0,
            Function.update_noteq hut, Function.update_noteq hux]

theorem python_obs_timer_remove_list {s : State} (xs : List Nat) (t : Nat)
    (hl : TimerList s xs) (ht : t ∈ xs) :
    TimerList (python_obs_timer_remove t s) (xs.erase t) := by
  have hnd := TimerChain_nodup _ _ hl
  obtain ⟨pre, post, rfl⟩ := List.append_of_mem ht
  have hpre : t ∉ pre := by
    intro hm
    have := List.nodup_append.mp hnd
    exact this.2.2 hm (by simp)
  rw [List.erase_append_right _ hpre, List.erase_cons_head]
  exact TimerChain_remove pre .first_timer t post hl (fun _ _ h => by cases h)

/-- C15: for a well-formed global timer list `xs` (`TimerList`: the head's
`p_prev_next` refers to `first_timer`, every other timer's to the next field
of its predecessor, the last next is `NULL`), `python_obs_timer_init` of a
timer that is not linked gives the well-formed list with the new timer at the
head and the old list after it, and `python_obs_timer_remove` of a linked
timer gives the well-formed list without that timer, the other timers in the
same order. -/
theorem timer_list_well_formed_after_init_and_remove (s : State) (xs : List Nat) (t : Nat)
    (hl : TimerList s xs) :
    (t ∉ xs → TimerList (python_obs_timer_init t s) (t :: xs)) ∧
    (t ∈ xs → TimerList (python_obs_timer_remove t s) (xs.erase t) ∧
      xs.erase t = xs.filter (fun u => u != t)) := by
  refine ⟨python_obs_timer_init_list xs t hl, fun ht =>
    ⟨python_obs_timer_remove_list xs t hl ht, ?_⟩⟩
  exact List.Nodup.erase_eq_filter (TimerChain_nodup _ _ hl) t

/-- Witness for C15: the timer list 3, 2, 1 of `three_timers`; linking timer 4
gives 4, 3, 2, 1 and unlinking timer 2 gives 3, 1. -/
theorem timer_list_well_formed_after_init_and_remove_witness :
    TimerList three_timers [3, 2, 1] ∧
    TimerList (python_obs_timer_init 4 three_timers) [4, 3, 2, 1] ∧
    TimerList (python_obs_timer_remove 2 three_timers) [3, 1] ∧
    TimerList (python_obs_timer_remove 3 three_timers) [2, 1] ∧
    TimerList (python_obs_timer_remove 1 three_timers) [3, 2] :=
  ⟨three_timers_list,
   (timer_list_well_formed_after_init_and_remove three_timers [3, 2, 1] 4
     three_timers_list).1 (by decide),
   ((timer_list_well_formed_after_init_and_remove three_timers [3, 2, 1] 2
     three_timers_list).2 (by decide)).1,
   ((timer_list_well_formed_after_init_and_remove three_timers [3, 2, 1] 3
     three_timers_list).2 (by decide)).1,
   ((timer_list_well_formed_after_init_and_remove three_timers [3, 2, 1] 1
     three_timers_list).2 (by decide)).1⟩

/-! ## The hook `timer_add` -/

theorem int_to_u64_of_nonneg (ms : Int) (h0 : 0 ≤ ms) (h1 : ms < 2 ^ 31) :
    int_to_u64 ms = ms.toNat ∧ ms.toNat < 2 ^ 31 := by
  unfold int_to_u64 UINT64
  have hlt : ms < ((2 ^ 64 : Nat) : Int) := by
    have : (2 : Int) ^ 31 < ((2 ^ 64 : Nat) : Int) := by norm_num
    omega
  rw [Int.emod_eq_of_lt h0 hlt]
  exact ⟨rfl, by omega⟩

theorem u64_mul_interval (n : Nat) (h : n < 2 ^ 31) :
    u64_mul n 1000000 = n * 1000000 ∧ n * 1000000 < UINT64 := by
  unfold u64_mul UINT64
  have hb : n * 1000000 < 2 ^ 64 := by
    have : (2 : Nat) ^ 31 * 1000000 < 2 ^ 64 := by norm_num
    have h2 : n * 1000000 < 2 ^ 31 * 1000000 := Nat.mul_lt_mul_of_pos_right h (by norm_num)
    omega
  exact ⟨Nat.mod_eq_of_lt hb, hb⟩

/-- The state after `timer_add`, field by field. -/
theorem timer_add_fields (py_cb : PyObject) (ms : Int) (s : State) (script : Nat)
    (hcur : s.cur_python_script = some script) :
    ((timer_add (some (py_cb, ms)) s).timers s.next_alloc)
      = ⟨none, none, s.video_frame_time, u64_mul (int_to_u64 ms) 1000000⟩ ∧
    (timer_add (some (py_cb, ms)) s).first_timer = s.first_timer ∧
    (∀ u, u ≠ s.next_alloc → (timer_add (some (py_cb, ms)) s).timers u = s.timers u) ∧
    (timer_add (some (py_cb, ms)) s).deferred = s.deferred ++ [s.next_alloc] ∧
    (timer_add (some (py_cb, ms)) s).callbacks s.next_alloc
      = ⟨⟨(s.scripts script).first_callback, some script, ⟨none, none⟩, false⟩, some py_cb⟩ ∧
    (timer_add (some (py_cb, ms)) s).next_alloc = s.next_alloc + 1 := by
  refine ⟨?_, ?_, ?_, ?_, ?_, ?_⟩
  · simp [timer_add, hcur, add_python_obs_callback_extra, set_timer, set_callback, set_script,
      defer_call_post, python_obs_callback_extra_data]
  · simp [timer_add, hcur, add_python_obs_callback_extra, set_timer, set_callback, set_script,
      defer_call_post, python_obs_callback_extra_data]
  · intro u hu
    simp [timer_add, hcur, add_python_obs_callback_extra, set_timer, set_callback, set_script,
      defer_call_post, python_obs_callback_extra_data, Function.update_noteq hu]
  · simp [timer_add, hcur, add_python_obs_callback_extra, set_timer, set_callback, set_script,
      defer_call_post, python_obs_callback_extra_data]
  · simp [timer_add, hcur, add_python_obs_callback_extra, set_timer, set_callback, set_script,
      defer_call_post, python_obs_callback_extra_data]
  · simp [timer_add, hcur, add_python_obs_callback_extra, set_timer, set_callback, set_script,
      defer_call_post, python_obs_callback_extra_data]

/-- C14: for every `int ms` with `0 ≤ ms` (below `2^31`), `timer_add(py_cb, ms)`
called by a running script creates the record `s.next_alloc` pinning `py_cb`,
whose timer has `interval = ms * 1000000`, a value below `2^64` (the 64-bit
product does not wrap), and `last_ts` equal to the video frame time at the
call.  The global timer list is not changed: `first_timer` and every other
timer are as before, a well-formed list stays the same list, and the new timer
is not linked; the linking is queued (`defer_call_post`), and running the
queued `defer_timer_init` puts the new timer at the head. -/
theorem timer_add_sets_interval_and_last_ts (py_cb : PyObject) (ms : Int) (s : State)
    (script : Nat) (hcur : s.cur_python_script = some script) (h0 : 0 ≤ ms)
    (h1 : ms < 2 ^ 31) :
    ((timer_add (some (py_cb, ms)) s).timers s.next_alloc).interval = ms.toNat * 1000000 ∧
    ms.toNat * 1000000 < UINT64 ∧
    ((timer_add (some (py_cb, ms)) s).timers s.next_alloc).last_ts = s.video_frame_time ∧
    ((timer_add (some (py_cb, ms)) s).callbacks s.next_alloc).func = some py_cb ∧
    ((timer_add (some (py_cb, ms)) s).callbacks s.next_alloc).base.removed = false ∧
    ((timer_add (some (py_cb, ms)) s).callbacks s.next_alloc).base.script = some script ∧
    (timer_add (some (py_cb, ms)) s).first_timer = s.first_timer ∧
    (∀ u, u ≠ s.next_alloc → (timer_add (some (py_cb, ms)) s).timers u = s.timers u) ∧
    (timer_add (some (py_cb, ms)) s).deferred = s.deferred ++ [s.next_alloc] ∧
    (∀ xs, TimerList s xs → Allocated xs s →
      TimerList (timer_add (some (py_cb, ms)) s) xs ∧ s.next_alloc ∉ xs ∧
      TimerList (defer_timer_init s.next_alloc (timer_add (some (py_cb, ms)) s))
        (s.next_alloc :: xs)) := by
  have hf := timer_add_fields py_cb ms s script hcur
  have hi := int_to_u64_of_nonneg ms h0 h1
  have hm := u64_mul_interval ms.toNat hi.2
  refine ⟨?_, hm.2, ?_, ?_, ?_, ?_, hf.2.1, hf.2.2.1, hf.2.2.2.1, ?_⟩
  · rw [hf.1, hi.1]; exact hm.1
  · rw [hf.1]
  · rw [hf.2.2.2.2.1]
  · rw [hf.2.2.2.2.1]
  · rw [hf.2.2.2.2.1]
  · intro xs hl hal
    have hnot : s.next_alloc ∉ xs := fun hm => Nat.lt_irrefl _ (hal _ hm)
    have hl2 : TimerList (timer_add (some (py_cb, ms)) s) xs := by
      refine TimerChain_congr xs .first_timer hf.2.1 ?_ hl
      intro u hu
      rw [hf.2.2.1 u (fun e => hnot (e ▸ hu))]
      exact ⟨rfl, rfl⟩
    exact ⟨hl2, hnot, python_obs_timer_init_list xs s.next_alloc hl2 hnot⟩

/-- Witness for C14: script 0 of `three_timers` (timer list 3, 2, 1, frame time
77) calls `timer_add(fn 9, 2147483647)`, the largest `int`: record 4 gets the
interval 2147483647000000 and `last_ts = 77`, and the timer list is unchanged
until the queued call links timer 4 at the head. -/
theorem timer_add_sets_interval_and_last_ts_witness :
    ((timer_add (some (fn 9, 2147483647)) timer_add_input).timers 4).interval
      = 2147483647000000 ∧
    (2147483647000000 : Nat) < UINT64 ∧
    ((timer_add (some (fn 9, 2147483647)) timer_add_input).timers 4).last_ts = 77 ∧
    (timer_add (some (fn 9, 2147483647)) timer_add_input).first_timer = some 3 ∧
    (timer_add (some (fn 9, 2147483647)) timer_add_input).deferred = [4] ∧
    TimerList (timer_add (some (fn 9, 2147483647)) timer_add_input) [3, 2, 1] ∧
    TimerList (defer_timer_init 4 (timer_add (some (fn 9, 2147483647)) timer_add_input))
      [4, 3, 2, 1] :=
  have h := timer_add_sets_interval_and_last_ts (fn 9) 2147483647 timer_add_input 0 rfl
    (by decide) (by decide)
  have hl : TimerList timer_add_input [3, 2, 1] :=
    TimerList_of_timers_eq [3, 2, 1] rfl rfl three_timers_list
  have h2 := h.2.2.2.2.2.2.2.2.2 [3, 2, 1] hl three_timers_allocated
  ⟨h.1, h.2.1, h.2.2.1, h.2.2.2.2.2.2.1, h.2.2.2.2.2.2.2.2.1, h2.1, h2.2.2⟩

/-! ## The current script and callback after a dispatch -/

/-- C17: when `obs_python_tick_callback`, `calldata_signal_callback` or
`calldata_signal_callback_global` dispatches a record that is not removed (for
the two signal paths: the calldata converts, so the function is called), then
afterwards `cur_python_cb` is what it was before the dispatch and
`cur_python_script` is `NULL`, whatever it was before and whatever the script
function did. -/
theorem dispatch_restores_cb_and_clears_script (py : Runtime) (priv : Nat) (s : State)
    (hrem : (s.callbacks priv).base.removed = false) :
    (∀ seconds,
      (obs_python_tick_callback py priv seconds s).cur_python_cb = s.cur_python_cb ∧
      (obs_python_tick_callback py priv seconds s).cur_python_script = none) ∧
    (∀ cd py_cd, libobs_to_py cd s = some py_cd →
      (calldata_signal_callback py priv cd s).cur_python_cb = s.cur_python_cb ∧
      (calldata_signal_callback py priv cd s).cur_python_script = none) ∧
    (∀ signal cd py_cd, libobs_to_py cd s = some py_cd →
      (calldata_signal_callback_global py priv signal cd s).cur_python_cb = s.cur_python_cb ∧
      (calldata_signal_callback_global py priv signal cd s).cur_python_script = none) := by
  refine ⟨?_, ?_, ?_⟩
  · intro seconds
    unfold obs_python_tick_callback
    simp only [hrem, Bool.false_eq_true, if_false]
    exact ⟨rfl, rfl⟩
  · intro cd py_cd hconv
    have hc : libobs_to_py cd (lock_python s) = some py_cd := hconv
    unfold calldata_signal_callback
    simp only [hrem, Bool.false_eq_true, if_false, hc]
    exact ⟨rfl, rfl⟩
  · intro signal cd py_cd hconv
    have hc : libobs_to_py cd (lock_python s) = some py_cd := hconv
    unfold calldata_signal_callback_global
    simp only [hrem, Bool.false_eq_true, if_false, hc]
    exact ⟨rfl, rfl⟩

/-- Witness for C17: inside a callback of script 0 (current script 0, current
callback record 1) record 1 is dispatched again on each of the three paths;
afterwards the current callback is record 1 and there is no current script. -/
theorem dispatch_restores_cb_and_clears_script_witness :
    inside_callback.cur_python_script = some 0 ∧ inside_callback.cur_python_cb = some 1 ∧
    (obs_python_tick_callback py_idle 1 0 inside_callback).cur_python_cb = some 1 ∧
    (obs_python_tick_callback py_idle 1 0 inside_callback).cur_python_script = none ∧
    (calldata_signal_callback py_idle 1 9 inside_callback).cur_python_cb = some 1 ∧
    (calldata_signal_callback py_idle 1 9 inside_callback).cur_python_script = none ∧
    (calldata_signal_callback_global py_idle 1 "a" 9 inside_callback).cur_python_cb
      = some 1 ∧
    (calldata_signal_callback_global py_idle 1 "a" 9 inside_callback).cur_python_script
      = none :=
  have h := dispatch_restores_cb_and_clears_script py_idle 1 inside_callback (by decide)
  ⟨rfl, rfl, (h.1 0).1, (h.1 0).2, (h.2.1 9 ⟨60, false⟩ rfl).1, (h.2.1 9 ⟨60, false⟩ rfl).2,
   (h.2.2 "a" 9 ⟨60, false⟩ rfl).1, (h.2.2 "a" 9 ⟨60, false⟩ rfl).2⟩

/-! ## Script logging -/

theorem strchr_none (c : Char) : ∀ (xs : List Char), strchr xs c = none → c ∉ xs
  | [], _ => by simp
  | x :: xs, h => by
      unfold strchr at h
      by_cases hx : x = c
      · simp [hx] at h
      · rw [if_neg hx] at h
        have h2 : strchr xs c = none := by
          cases hs : strchr xs c with
          | none => rfl
          | some i => simp [hs] at h
        have := strchr_none c xs h2
        simp [this, Ne.symm hx]

theorem strchr_some (c : Char) :
    ∀ (xs : List Char) (i : Nat), strchr xs c = some i →
      xs = xs.take i ++ c :: xs.drop (i + 1) ∧ c ∉ xs.take i
  | [], _, h => by simp [strchr] at h
  | x :: xs, i, h => by
      unfold strchr at h
      by_cases hx : x = c
      · rw [if_pos hx] at h
        have : i = 0 := (Option.some.inj h).symm
        subst this
        simp [hx]
      · rw [if_neg hx] at h
        cases hs : strchr xs c with
        | none => simp [hs] at h
        | some j =>
            simp [hs] at h
            subst h
            have ih := strchr_some c xs j hs
            refine ⟨?_, ?_⟩
            · simp only [List.take_succ_cons, List.drop_succ_cons, List.cons_append]
              rw [← ih.1]
            · simp only [List.take_succ_cons, List.mem_cons, not_or]
              exact ⟨Ne.symm hx, ih.2⟩

/-- The loop emits the newline-terminated segments of `start` and stops at the
text after the last newline. -/
theorem log_loop_spec (log_level : Int) :
    ∀ (fuel : Nat) (start : List Char) (out : List (Int × List Char)),
      start.length ≤ fuel →
      ∃ lines : List (List Char),
        (log_loop log_level fuel start (strchr start NEWLINE) out).2
          = out ++ lines.map (fun l => (log_level, l)) ∧
        with_newlines lines ++ (log_loop log_level fuel start (strchr start NEWLINE) out).1
          = start ∧
        (∀ l ∈ lines, NEWLINE ∉ l) ∧
        NEWLINE ∉ (log_loop log_level fuel start (strchr start NEWLINE) out).1 ∧
        lines.length = start.count NEWLINE
  | 0, start, out, h => by
      have h0 : start = [] := List.length_eq_zero.mp (Nat.le_zero.mp h)
      subst h0
      exact ⟨[], by simp [log_loop], by simp [log_loop, with_newlines], by simp,
        by simp [log_loop], by simp⟩
  | fuel + 1, start, out, h => by
      cases hs : strchr start NEWLINE with
      | none =>
          have hn := strchr_none NEWLINE start hs
          exact ⟨[], by simp [log_loop], by simp [log_loop, with_newlines], by simp,
            by simpa [log_loop] using hn, by simp [List.count_eq_zero_of_not_mem hn]⟩
      | some i =>
          obtain ⟨hsplit, hpre⟩ := strchr_some NEWLINE start i hs
          have hlen : (start.drop (i + 1)).length ≤ fuel := by
            have h1 : start.length
                = (start.take i).length + ((start.drop (i + 1)).length + 1) := by
              conv_lhs => rw [hsplit]
              simp
            omega
          obtain ⟨lines, h1, h2, h3, h4, h5⟩ :=
            log_loop_spec log_level fuel (start.drop (i + 1))
              (out ++ [(log_level, start.take i)]) hlen
          refine ⟨start.take i :: lines, ?_, ?_, ?_, ?_, ?_⟩
          · show (log_loop log_level fuel (start.drop (i + 1)) _ _).2 = _
            rw [h1]; simp
          · show with_newlines (start.take i :: lines)
              ++ (log_loop log_level fuel (start.drop (i + 1)) _ _).1 = _
            conv_rhs => rw [hsplit]
            simp only [with_newlines, List.append_assoc, List.cons_append]
            rw [h2]
          · intro l hl
            rcases List.mem_cons.mp hl with rfl | hl
            · exact hpre
            · exact h3 l hl
          · exact h4
          · conv_rhs => rw [hsplit]
            simp [List.count_eq_zero_of_not_mem hpre, h5]
/-- C16: `py_script_log`, called from outside itself with a non-empty message
(and enough fuel for the loop), hands to `script_log`, in order and at the
given level, the lines `lines` such that the lines, each followed by a
newline, followed by the new chunk, are the old chunk followed by the message;
no line and not the new chunk holds a newline, so there is one line per
newline of chunk and message and the new chunk is the text after the last
newline.  This holds for every old chunk, also one that holds a newline. -/
theorem py_script_log_emits_complete_lines (fuel : Nat) (log_level : Int) (msg : List Char)
    (L : LogState) (hself : L.calling_self = false) (hmsg : msg ≠ [])
    (hfuel : (L.cur_py_log_chunk ++ msg).length ≤ fuel) :
    ∃ lines : List (List Char),
      (py_script_log fuel (some (log_level, msg)) L).script_log
        = L.script_log ++ lines.map (fun l => (log_level, l)) ∧
      with_newlines lines ++ (py_script_log fuel (some (log_level, msg)) L).cur_py_log_chunk
        = L.cur_py_log_chunk ++ msg ∧
      (∀ l ∈ lines, NEWLINE ∉ l) ∧
      NEWLINE ∉ (py_script_log fuel (some (log_level, msg)) L).cur_py_log_chunk ∧
      lines.length = (L.cur_py_log_chunk ++ msg).count NEWLINE ∧
      (py_script_log fuel (some (log_level, msg)) L).calling_self = false := by
  obtain ⟨lines, h1, h2, h3, h4, h5⟩ :=
    log_loop_spec log_level fuel (L.cur_py_log_chunk ++ msg) L.script_log hfuel
  have hs : py_script_log fuel (some (log_level, msg)) L =
      ⟨(log_loop log_level fuel (L.cur_py_log_chunk ++ msg)
          (strchr (L.cur_py_log_chunk ++ msg) NEWLINE) L.script_log).1, false,
        (log_loop log_level fuel (L.cur_py_log_chunk ++ msg)
          (strchr (L.cur_py_log_chunk ++ msg) NEWLINE) L.script_log).2⟩ := by
    unfold py_script_log
    simp [hself, hmsg]
  rw [hs]
  exact ⟨lines, h1, h2, h3, h4, h5, rfl⟩

/-- Witness for C16: the chunk holds `ab` and the message is `c`, newline,
`de`, newline, newline, `f`.  The lines `abc`, `de` and the empty line are
logged at level 2 and the chunk becomes `f`. -/
theorem py_script_log_emits_complete_lines_witness :
    (∃ lines : List (List Char),
      (py_script_log 9 (some (2, ['c', NEWLINE, 'd', 'e', NEWLINE, NEWLINE, 'f']))
        log_chunk_ab).script_log
        = log_chunk_ab.script_log ++ lines.map (fun l => ((2 : Int), l)) ∧
      with_newlines lines ++
        (py_script_log 9 (some (2, ['c', NEWLINE, 'd', 'e', NEWLINE, NEWLINE, 'f']))
          log_chunk_ab).cur_py_log_chunk
        = log_chunk_ab.cur_py_log_chunk ++ ['c', NEWLINE, 'd', 'e', NEWLINE, NEWLINE, 'f'] ∧
      (∀ l ∈ lines, NEWLINE ∉ l) ∧
      NEWLINE ∉ (py_script_log 9 (some (2, ['c', NEWLINE, 'd', 'e', NEWLINE, NEWLINE, 'f']))
        log_chunk_ab).cur_py_log_chunk ∧
      lines.length
        = (log_chunk_ab.cur_py_log_chunk
            ++ ['c', NEWLINE, 'd', 'e', NEWLINE, NEWLINE, 'f']).count NEWLINE ∧
      (py_script_log 9 (some (2, ['c', NEWLINE, 'd', 'e', NEWLINE, NEWLINE, 'f']))
        log_chunk_ab).calling_self = false) ∧
    (py_script_log 9 (some (2, ['c', NEWLINE, 'd', 'e', NEWLINE, NEWLINE, 'f']))
      log_chunk_ab).script_log = [(2, ['a', 'b', 'c']), (2, ['d', 'e']), (2, [])] ∧
    (py_script_log 9 (some (2, ['c', NEWLINE, 'd', 'e', NEWLINE, NEWLINE, 'f']))
      log_chunk_ab).cur_py_log_chunk = ['f'] :=
  ⟨py_script_log_emits_complete_lines 9 2 ['c', NEWLINE, 'd', 'e', NEWLINE, NEWLINE, 'f']
     log_chunk_ab rfl (by simp) (by decide),
   by decide, by decide⟩

/-! ## Script creation -/

theorem strrchr_none (c : Char) : ∀ (xs : List Char), strrchr xs c = none → c ∉ xs
  | [], _ => by simp
  | x :: xs, h => by
      unfold strrchr at h
      cases hs : strrchr xs c with
      | some i => simp [hs] at h
      | none =>
          simp only [hs] at h
          by_cases hx : x = c
          · simp [hx] at h
          · have := strrchr_none c xs hs
            simp [this, Ne.symm hx]

theorem strrchr_some (c : Char) :
    ∀ (xs : List Char) (i : Nat), strrchr xs c = some i →
      xs.take (i + 1) = xs.take i ++ [c] ∧ c ∉ xs.drop (i + 1)
  | [], _, h => by simp [strrchr] at h
  | x :: xs, i, h => by
      unfold strrchr at h
      cases hs : strrchr xs c with
      | some j =>
          simp only [hs] at h
          have : i = j + 1 := (Option.some.inj h).symm
          subst this
          have ih := strrchr_some c xs j hs
          refine ⟨?_, ?_⟩
          · simp only [List.take_succ_cons, List.cons_append]
            rw [ih.1]
          · simpa using ih.2
      | none =>
          simp only [hs] at h
          by_cases hx : x = c
          · rw [if_pos hx] at h
            have : i = 0 := (Option.some.inj h).symm
            subst this
            have := strrchr_none c xs hs
            simp [hx, this]
          · simp [hx] at h

theorem strstr_none (find : List Char) :
    ∀ (xs : List Char), strstr xs find = none →
      ∀ i, (xs.drop i).take find.length ≠ find
  | [], h, i => by
      unfold strstr at h
      by_cases hf : find = []
      · simp [hf] at h
      · simpa using Ne.symm hf
  | x :: xs, h, i => by
      unfold strstr at h
      by_cases h0 : (x :: xs).take find.length = find
      · simp [h0] at h
      · rw [if_neg h0] at h
        have h2 : strstr xs find = none := by
          cases hs : strstr xs find with
          | none => rfl
          | some j => simp [hs] at h
        cases i with
        | zero => simpa using h0
        | succ j => simpa using strstr_none find xs h2 j

theorem strstr_some (find : List Char) :
    ∀ (xs : List Char) (i : Nat), strstr xs find = some i →
      (xs.drop i).take find.length = find ∧
      ∀ j, j < i → (xs.drop j).take find.length ≠ find
  | [], i, h => by
      unfold strstr at h
      by_cases hf : find = []
      · simp [hf] at h
        subst h
        simp [hf]
      · simp [hf] at h
  | x :: xs, i, h => by
      unfold strstr at h
      by_cases h0 : (x :: xs).take find.length = find
      · rw [if_pos h0] at h
        have : i = 0 := (Option.some.inj h).symm
        subst this
        exact ⟨by simpa using h0, fun j hj => absurd hj (Nat.not_lt_zero j)⟩
      · rw [if_neg h0] at h
        cases hs : strstr xs find with
        | none => simp [hs] at h
        | some k =>
            simp [hs] at h
            subst h
            have ih := strstr_some find xs k hs
            refine ⟨by simpa using ih.1, ?_⟩
            intro j hj
            cases j with
            | zero => simpa using h0
            | succ j => simpa using ih.2 j (by omega)

theorem mem_of_append_eq_concat (A B q : List Char) (c : Char) (h : A ++ B = q ++ [c])
    (hB : B ≠ []) : c ∈ B := by
  rcases List.eq_nil_or_concat B with h0 | ⟨B2, b, h2⟩
  · exact absurd h0 hB
  · subst h2
    rw [List.concat_eq_append, ← List.append_assoc] at h
    have h3 := (List.append_inj' h rfl).2
    have : b = c := by simpa using h3
    subst this
    simp

/-- The result of `obs_python_script_create`, by cases on the last slash. -/
theorem obs_python_script_create_eq (path : List Char) :
    obs_python_script_create path =
      (match strrchr (dstr_replace path BACKSLASH SLASH) SLASH with
        | some i =>
            if (dstr_replace path BACKSLASH SLASH).drop (i + 1) = [] then none
            else some
              ⟨dstr_replace path BACKSLASH SLASH, (dstr_replace path BACKSLASH SLASH).drop (i + 1),
                (dstr_replace path BACKSLASH SLASH).take (i + 1),
                match strstr ((dstr_replace path BACKSLASH SLASH).drop (i + 1)) DOT_PY with
                | some ext => ((dstr_replace path BACKSLASH SLASH).drop (i + 1)).take ext
                | none => (dstr_replace path BACKSLASH SLASH).drop (i + 1)⟩
        | none =>
            if dstr_replace path BACKSLASH SLASH = [] then none
            else some
              ⟨dstr_replace path BACKSLASH SLASH, dstr_replace path BACKSLASH SLASH, [],
                match strstr (dstr_replace path BACKSLASH SLASH) DOT_PY with
                | some ext => (dstr_replace path BACKSLASH SLASH).take ext
                | none => dstr_replace path BACKSLASH SLASH⟩) := by
  unfold obs_python_script_create
  simp only []
  generalize dstr_replace path BACKSLASH SLASH = P
  have hsl : (match dstr_array P with
      | some p => strrchr p SLASH
      | none => none) = strrchr P SLASH := by
    unfold dstr_array
    by_cases hP : P = []
    · subst hP; rfl
    · rw [if_neg hP]
  rw [hsl]
  cases strrchr P SLASH with
  | none =>
      unfold dstr_array
      by_cases hP : P = []
      · simp [hP]
      · simp [hP]
  | some i =>
      unfold dstr_array
      by_cases hP : P.drop (i + 1) = []
      · simp [hP]
      · simp [hP]

/-- The module name is the file name cut at the first occurrence of `find`. -/
theorem name_cut_spec (file find : List Char) :
    ((∀ i, (file.drop i).take find.length ≠ find) ∧
      (match strstr file find with
        | some ext => file.take ext
        | none => file) = file) ∨
    ∃ i, (file.drop i).take find.length = find ∧
      (∀ j, j < i → (file.drop j).take find.length ≠ find) ∧
      (match strstr file find with
        | some ext => file.take ext
        | none => file) = file.take i := by
  cases hs : strstr file find with
  | none => exact Or.inl ⟨strstr_none find file hs, rfl⟩
  | some i =>
      have h := strstr_some find file i hs
      exact Or.inr ⟨i, h.1, h.2, rfl⟩

/-- C18, the code at the failing inputs: for the path `dir/`, for the empty
path and for a lone backslash the text after the last `/` is empty, the file
name is an empty `dstr`, and line 888 hands its `NULL` array to `strstr`:
`obs_python_script_create` gives no result, so no module name equal to the
file name is derived.  For the path `dir/` line 876 finds the last `/` at
offset 3 of a non-`NULL` path; the text behind it is empty. -/
theorem script_create_no_result_for_empty_file :
    obs_python_script_create ['d', 'i', 'r', '/'] = none ∧
    obs_python_script_create [] = none ∧
    obs_python_script_create [BACKSLASH] = none ∧
    dstr_array (dstr_replace ['d', 'i', 'r', '/'] BACKSLASH SLASH) = some ['d', 'i', 'r', '/'] ∧
    strrchr ['d', 'i', 'r', '/'] SLASH = some 3 ∧
    dstr_array (['d', 'i', 'r', '/'].drop (3 + 1)) = none := by
  refine ⟨by decide, by decide, by decide, by decide, by decide, by decide⟩

/-- The derivation of `obs_python_script_create` for every path: let the
normalised path be the path with each backslash replaced by `/`.  When it is
empty or ends with `/`, the file name is empty and
`obs_python_script_create` gives no result (first part).  Otherwise (second
part) it stores the normalised path; `dir` followed by `file` is that path,
`file` is not empty and holds no `/`, and `dir` is empty exactly when the path
holds no `/` and otherwise ends with `/` (so `file` is the text after the last
`/` and `dir` the text up to and including it); the module name is `file` when
`.py` does not occur in it, and otherwise `file` cut at the first occurrence
of `.py`, wherever it is. -/
theorem script_create_splits_path_and_cuts_name (path : List Char) :
    (dstr_replace path BACKSLASH SLASH = [] ∨
        (∃ q, dstr_replace path BACKSLASH SLASH = q ++ [SLASH]) →
      obs_python_script_create path = none) ∧
    (dstr_replace path BACKSLASH SLASH ≠ [] →
      (∀ q, dstr_replace path BACKSLASH SLASH ≠ q ++ [SLASH]) →
      ∃ r, obs_python_script_create path = some r ∧
        r.path = path.map (fun c => if c = BACKSLASH then SLASH else c) ∧
        r.dir ++ r.file = r.path ∧ r.file ≠ [] ∧ SLASH ∉ r.file ∧
        (r.dir = [] ↔ SLASH ∉ r.path) ∧
        (r.dir ≠ [] → r.dir.getLast? = some SLASH) ∧
        (((∀ i, (r.file.drop i).take 3 ≠ DOT_PY) ∧ r.name = r.file) ∨
          ∃ i, (r.file.drop i).take 3 = DOT_PY ∧
            (∀ j, j < i → (r.file.drop j).take 3 ≠ DOT_PY) ∧
            r.name = r.file.take i)) := by
  rw [obs_python_script_create_eq]
  have hmap : dstr_replace path BACKSLASH SLASH
      = path.map (fun c => if c = BACKSLASH then SLASH else c) := rfl
  generalize dstr_replace path BACKSLASH SLASH = P at hmap ⊢
  cases hsl : strrchr P SLASH with
  | none =>
      have hno := strrchr_none SLASH P hsl
      refine ⟨?_, ?_⟩
      · rintro (h | ⟨q, h⟩)
        · simp [h]
        · exact absurd (by rw [h]; simp) hno
      · intro hne _
        rw [if_neg hne]
        exact ⟨_, rfl, hmap, rfl, hne, hno, ⟨fun _ => hno, fun _ => rfl⟩,
          fun h => absurd rfl h, name_cut_spec P DOT_PY⟩
  | some i =>
      have h := strrchr_some SLASH P i hsl
      have hsplit : P.take i ++ [SLASH] ++ P.drop (i + 1) = P := by
        rw [← h.1]; exact List.take_append_drop _ _
      refine ⟨?_, ?_⟩
      · rintro (h0 | ⟨q, hq⟩)
        · rw [h0] at hsl
          simp [strrchr] at hsl
        · have hd : P.drop (i + 1) = [] := by
            by_contra hd
            exact h.2 (mem_of_append_eq_concat _ _ q SLASH (hsplit.trans hq) hd)
          simp [hd]
      · intro _ hend
        have hd : P.drop (i + 1) ≠ [] := by
          intro hd
          rw [hd, List.append_nil] at hsplit
          exact hend _ hsplit.symm
        dsimp only
        rw [if_neg hd]
        refine ⟨_, rfl, hmap, List.take_append_drop _ _, hd, h.2, ⟨?_, ?_⟩, ?_, ?_⟩
        · intro hdir
          have h1 : P.take (i + 1) = [] := hdir
          rw [h.1] at h1
          simp at h1
        · intro hn
          exfalso
          apply hn
          have h2 : SLASH ∈ P.take (i + 1) := by
            rw [h.1]; simp
          exact List.mem_of_mem_take h2
        · intro _
          show (P.take (i + 1)).getLast? = some SLASH
          rw [h.1]; simp
        · exact name_cut_spec (P.drop (i + 1)) DOT_PY

/-- Examples of the derivation: the path `C:\s.d\my.python.py` gives the directory
`C:/s.d/`, the file `my.python.py` and the module name `my`; the path `plain`
gives no directory and the name `plain`; the path `dir/` gives no result. -/
theorem script_create_examples :
    (∃ r, obs_python_script_create
        ['C', ':', BACKSLASH, 's', '.', 'd', BACKSLASH, 'm', 'y', '.', 'p', 'y', 't', 'h',
          'o', 'n', '.', 'p', 'y'] = some r ∧
      r.path = (['C', ':', BACKSLASH, 's', '.', 'd', BACKSLASH, 'm', 'y', '.', 'p', 'y', 't',
          'h', 'o', 'n', '.', 'p', 'y'].map (fun c => if c = BACKSLASH then SLASH else c)) ∧
      r.dir ++ r.file = r.path ∧ r.file ≠ [] ∧ SLASH ∉ r.file ∧
      (r.dir = [] ↔ SLASH ∉ r.path) ∧
      (r.dir ≠ [] → r.dir.getLast? = some SLASH) ∧
      (((∀ i, (r.file.drop i).take 3 ≠ DOT_PY) ∧ r.name = r.file) ∨
        ∃ i, (r.file.drop i).take 3 = DOT_PY ∧
          (∀ j, j < i → (r.file.drop j).take 3 ≠ DOT_PY) ∧
          r.name = r.file.take i)) ∧
    obs_python_script_create
      ['C', ':', BACKSLASH, 's', '.', 'd', BACKSLASH, 'm', 'y', '.', 'p', 'y', 't', 'h', 'o',
        'n', '.', 'p', 'y']
      = some ⟨['C', ':', '/', 's', '.', 'd', '/', 'm', 'y', '.', 'p', 'y', 't', 'h', 'o', 'n',
          '.', 'p', 'y'],
         ['m', 'y', '.', 'p', 'y', 't', 'h', 'o', 'n', '.', 'p', 'y'],
         ['C', ':', '/', 's', '.', 'd', '/'], ['m', 'y']⟩ ∧
    obs_python_script_create ['p', 'l', 'a', 'i', 'n']
      = some ⟨['p', 'l', 'a', 'i', 'n'], ['p', 'l', 'a', 'i', 'n'], [],
          ['p', 'l', 'a', 'i', 'n']⟩ ∧
    obs_python_script_create ['d', 'i', 'r', BACKSLASH] = none :=
  ⟨(script_create_splits_path_and_cuts_name
      ['C', ':', BACKSLASH, 's', '.', 'd', BACKSLASH, 'm', 'y', '.', 'p', 'y', 't', 'h', 'o',
        'n', '.', 'p', 'y']).2 (by decide) (by
      intro q hq
      have h2 := congrArg List.getLast? hq
      rw [List.getLast?_concat] at h2
      revert h2
      decide),
   by decide, by decide,
   (script_create_splits_path_and_cuts_name ['d', 'i', 'r', BACKSLASH]).1
     (Or.inr ⟨['d', 'i', 'r'], by decide⟩)⟩

/-! ## The tick walk and the non-recursive `tick_mutex` -/

/-- Called without `tick_mutex` held, `obs_python_script_unload` returns. -/
theorem obs_python_script_unload_blocking_free (py : Runtime) (fuel data : Nat) (s : State)
    (h0 : s.tick_mutex = 0) :
    obs_python_script_unload_blocking py fuel data s
      = .returned (obs_python_script_unload py fuel data s) := by
  have h1 : pthread_mutex_lock_tick s = .returned (lock_tick_mutex s) := by
    unfold pthread_mutex_lock_tick
    rw [if_pos h0]
  have h2 : unhook_tick_blocking data s = .returned (unhook_tick data s) := by
    unfold unhook_tick_blocking unhook_tick
    by_cases hp : (s.scripts data).p_prev_next_tick ≠ none
    · rw [if_pos hp, if_pos hp, h1]
      rfl
    · rw [if_neg hp, if_neg hp]
  unfold obs_python_script_unload_blocking obs_python_script_unload
  by_cases hl : (s.scripts data).loaded = false
  · rw [if_pos hl, if_pos hl]
  · rw [if_neg hl, if_neg hl, h2]
    rfl

end ObsScripting
